import Mathlib

/-!
# Virtual Film Bench: frame-slot cache, overlap search, export sequencer, film events

A shallow embedding of four parts of the Virtual Film Bench sources:

* `FrameBucketManager` (src/frame_view_gl.cpp, lines 95-170): the fixed-capacity
  pool of frame slots;
* the overlap search, the slot bookkeeping and the file-audio capture inside
  `Frame_Window::render` (src/frame_view_gl.cpp, lines 1360-1440, 1533-1542,
  1759-1798) together with `PrepareRecording` and `GetBestMatchFromFloatArray`;
* the pull-based export sequencer of `MainWindow` (src/mainwindow.cpp:
  `EnqueueNextFrame`, `GetVideoFromQueue`, `GetAudioFromQueue`,
  `get_video_frame` and the stream-offset set-up of `MuxMain`);
* film events: `vbevent` (src/vbevent.cpp, src/vbevent.h), the filter conditions
  of src/eventfilter.cpp, and the event map of `vbproject` with its table model
  (src/vbproject.cpp: `ExportEvents`, `FilmEventsForFrame`, `EventAtRow`,
  `AddEvent`).

Conventions.  C++ `int`, `long` and `int64_t` values are embedded as `Int`;
signed overflow is undefined behaviour in C++ and is not given a meaning
here.  C++ integer division truncates and is embedded as `Int.tdiv`.
Single-precision samples are embedded as rationals (every finite float is a
rational and the comparisons agree).  OpenGL, Qt widgets and libav are
outside the embedding: what they hand to the code enters as an explicit
input.
-/

namespace VirtualFilmBench

/-! ## FrameBucketManager -/

/-- The `FrameBucketManager::FrameBucket` record of src/frame_view_gl.h. -/
structure FrameBucket where
  frame_buffer_id : Int
  frame_number : Int
deriving DecidableEq, Repr

/-- The two private fields of `FrameBucketManager` (src/frame_view_gl.h). -/
structure FrameBucketManager where
  buffers : List FrameBucket
  bufferCount : Int
deriving DecidableEq, Repr

namespace FrameBucketManager

/-- The constructor `FrameBucketManager::FrameBucketManager(int numberOfBuffers)`:
slot `i` gets id `i` and the frame number `-10`. -/
def ctor (numberOfBuffers : Int) : FrameBucketManager :=
  { buffers := List.map
      (fun (i : Nat) => { frame_buffer_id := (i : Int), frame_number := -10 })
      (List.range numberOfBuffers.toNat),
    bufferCount := numberOfBuffers }

/-- The method `addFrameNumberToBuffer`: inside the guard the bucket at INDEX
`frame_buffer_id` gets the new frame number; outside it nothing happens.  (An
index beyond the list, which the guard admits only when `bufferCount` exceeds
the list length, is left without effect.) -/
def addFrameNumberToBuffer (m : FrameBucketManager) (frame_buffer_id frame_number : Int) :
    FrameBucketManager :=
  if 0 ≤ frame_buffer_id ∧ frame_buffer_id < m.bufferCount then
    match m.buffers[frame_buffer_id.toNat]? with
    | some b =>
      { m with buffers :=
          m.buffers.set frame_buffer_id.toNat { b with frame_number := frame_number } }
    | none => m
  else m

/-- Insertion into a `QSet<int>`, kept as a duplicate-free list in insertion
order (Qt leaves the iteration order open; the caller sorts afterwards). -/
def qsetInsert (s : List Int) (x : Int) : List Int :=
  if x ∈ s then s else s ++ [x]

/-- The values taken by `offset` in `for (offset = -halfB; offset <= halfB; ++offset)`. -/
def windowOffsets (halfB : Int) : List Int :=
  List.map (fun (k : Nat) => -halfB + (k : Int)) (List.range (2 * halfB + 1).toNat)

/-- The set `allPossibleFrameNumbers` built by the first loop of
`getNeededFrameNumbers`. -/
def allPossibleFrameNumbers (halfB frame_number : Int) : List Int :=
  (windowOffsets halfB).foldl (fun s offset => qsetInsert s (frame_number + offset)) []

/-- The method `getNeededFrameNumbers`: the pair
`(neededFrameNumbers, availableBufferIDs)`.  `std::sort` on `int` is embedded
as insertion sort. -/
def getNeededFrameNumbers (m : FrameBucketManager) (frame_number : Int) :
    List Int × List Int :=
  let halfB := Int.tdiv m.bufferCount 2
  let allPossible := allPossibleFrameNumbers halfB frame_number
  let needed := allPossible.filter (fun possibleFrame =>
    !(m.buffers.any (fun buffer => buffer.frame_number == possibleFrame)))
  let neededSorted := needed.insertionSort (· ≤ ·)
  let available :=
    (m.buffers.filter (fun buffer => !(allPossible.contains buffer.frame_number))).map
      (fun buffer => buffer.frame_buffer_id)
  (neededSorted, available)

/-- The loading loop of `MainWindow::on_frame_numberSpinBox_valueChanged`
(src/mainwindow.cpp, lines 1836-1842) as far as the slot table is concerned:
for each position `x` the frame `first[x]` is recorded in slot `second[x]`
(through `currentbufferid`, `currentframenumber` and the `render` of the new
frame).  The pairs are the positions present in both lists. -/
def assignPairs (m : FrameBucketManager) (missing reusable : List Int) : FrameBucketManager :=
  (reusable.zip missing).foldl (fun acc p => addFrameNumberToBuffer acc p.1 p.2) m

/-- The states the class can be in: `bufferCount` slots, slot `i` carrying id `i`. -/
def WellFormed (m : FrameBucketManager) : Prop :=
  m.bufferCount = (m.buffers.length : Int) ∧
    m.buffers.map (fun b => b.frame_buffer_id) =
      List.map (fun (i : Nat) => (i : Int)) (List.range m.buffers.length)

instance (m : FrameBucketManager) : Decidable (WellFormed m) := by
  unfold WellFormed; exact inferInstance

/-- The frame numbers held by the slots, in slot order. -/
def heldFrames (m : FrameBucketManager) : List Int :=
  m.buffers.map (fun b => b.frame_number)

/-- The frame number held by the slot at index `j`, if there is such a slot. -/
def frameAt (m : FrameBucketManager) (j : Nat) : Option Int :=
  (m.buffers[j]?).map (fun b => b.frame_number)

end FrameBucketManager

/-- Five slots that all hold frame 10, reached from the constructor by five calls
of `addFrameNumberToBuffer`. -/
def fiveSlotsHolding10 : FrameBucketManager :=
  List.foldl (fun m (i : Nat) => m.addFrameNumberToBuffer (i : Int) 10)
    (FrameBucketManager.ctor 5) (List.range 5)

/-- Five slots holding the frames 8, 9, 10 and twice the empty value -10. -/
def fiveSlotsPartlyLoaded : FrameBucketManager :=
  (((FrameBucketManager.ctor 5).addFrameNumberToBuffer 0 8).addFrameNumberToBuffer 1 9
    ).addFrameNumberToBuffer 2 10

/-! ## Frame_Window: overlap search and file-audio capture in `render` -/

/-- The record `overlap_match` of src/frame_view_gl.h (the field is spelt `postion`
in the source). -/
structure overlap_match where
  postion : Int
  value : ℚ
deriving DecidableEq

/-- The method `Frame_Window::GetBestMatchFromFloatArray`: `i` runs from 1 to
`iSize - 1`; whenever `dArray[iCurrMin] > dArray[i]` the index and `bmatch` are
updated.  `bmatch` is an in-out argument: the result is its value after the call. -/
def GetBestMatchFromFloatArray (dArray : Int → ℚ) (iSize start : Int)
    (bmatch : overlap_match) : overlap_match :=
  ((List.map (fun (k : Nat) => (k : Int) + 1) (List.range (iSize - 1).toNat)).foldl
    (fun (acc : Int × overlap_match) i =>
      if dArray acc.1 > dArray i then (i, { postion := start - i, value := dArray i })
      else acc)
    (0, bmatch)).2

/-- The fields of `Frame_Window` read or written by the embedded parts of `render`.
`overlap0` is `overlap[0]`; `FileRealBuffer c k` is `FileRealBuffer[c][k]`. -/
structure Frame_Window where
  fbm : FrameBucketManager
  currentbufferid : Int
  currentframenumber : Int
  samplesperframe : Int
  samplesperframe_file : Int
  is_calc : Bool
  bestmatch : overlap_match
  match_array : Fin 5 → overlap_match
  lowloc : Int
  overlap0 : ℚ
  overrideOverlap : Int
  is_rendering : Bool
  new_frame : Bool
  samplepointer : Int
  FileRealBuffer : Int → Int → ℚ

/-- What one call of `render` receives from outside the embedding.
`startRaw` and `endRaw` are the values of the two floating-point expressions
`(overlap[2]+overlap[3])*samplesperframe - overlap[1]*0.5*samplesperframe` and
`(overlap[2]+overlap[3])*samplesperframe + overlap[1]*0.5*samplesperframe`
once converted to `int`; `audio_compare_buffer` is the buffer filled by
`glReadPixels` after the mode-5 draw; `overlap3` is `overlap[3]`; `filePixels x y`
is the pixel `(x, y)` of the file-audio framebuffer (which the GPU draws from the
texture coordinate `bestvalueoffset`). -/
structure RenderInput where
  startRaw : Int
  endRaw : Int
  audio_compare_buffer : Int → ℚ
  overlap3 : ℚ
  filePixels : Int → Int → ℚ

/-- The bounds `(s_start, s_end)` of pass `i` of the loop `for (int i = 1; i<6; i++)`
of `render`, after the two clamps `std::max(4, s_start)` and `std::min(s_end, 1998)`. -/
def passWindow (s_size s_mid i : Int) : Int × Int :=
  let s_i_size := Int.tdiv (Int.tdiv s_size 2) 5
  let s_start0 := if i = 1 then s_mid - 4 else s_mid - s_i_size * i
  let s_end0 := if i = 1 then s_mid + 4 else s_mid + s_i_size * i
  (max 4 s_start0, min s_end0 1998)

/-- The value `match_array[i-1]` receives in pass `i = idx + 1`: the in-out argument
of `GetBestMatchFromFloatArray(subarray, s_end - s_start, s_end, match_array[i-1])`
with `subarray = &fullarray[samplesperframe - s_end]`. -/
def passResult (samplesperframe : Int) (fullarray : Int → ℚ) (s_size s_mid : Int)
    (idx : Fin 5) (old : overlap_match) : overlap_match :=
  let win := passWindow s_size s_mid ((idx.val : Int) + 1)
  GetBestMatchFromFloatArray (fun k => fullarray (samplesperframe - win.2 + k))
    (win.2 - win.1) win.2 old

/-- One pass of the loop `for (int i = 1; i<6; i++)` of `render`, acting on
`match_array[i-1]`. -/
def searchPass (samplesperframe : Int) (fullarray : Int → ℚ) (s_size s_mid : Int)
    (match_array : Fin 5 → overlap_match) (idx : Fin 5) : Fin 5 → overlap_match :=
  Function.update match_array idx
    (passResult samplesperframe fullarray s_size s_mid idx (match_array idx))

/-- The bounds `(start, end)` of the initial search of `render` after
`start = std::max(4,start); end = std::min(end,1998); end = std::max(end,start)`. -/
def searchWindow (inp : RenderInput) : Int × Int :=
  let start := max 4 inp.startRaw
  let end1 := min inp.endRaw 1998
  (start, max end1 start)

/-- The section "Find best overlap match" of `render` (src/frame_view_gl.cpp, lines
1360-1438): the initial search, the five passes, the choice by `is_calc`, the
assignment of `overlap[0]` (exact quotient in place of the float one) and the
`overrideOverlap` test. -/
def renderOverlapSearch (w : Frame_Window) (inp : RenderInput) : Frame_Window :=
  let fullarray := inp.audio_compare_buffer
  let start := (searchWindow inp).1
  let end2 := (searchWindow inp).2
  let subarray := fun k => fullarray (w.samplesperframe - end2 + k)
  let w1 : Frame_Window :=
    { w with lowloc := 0,
             bestmatch := GetBestMatchFromFloatArray subarray (end2 - start) end2 w.bestmatch }
  let s_size := end2 - start
  let s_mid := start + Int.tdiv s_size 2
  let match_array :=
    (List.finRange 5).foldl (searchPass w.samplesperframe fullarray s_size s_mid) w1.match_array
  let w2 : Frame_Window :=
    { w1 with match_array := match_array,
              bestmatch := if w1.is_calc then match_array 0 else match_array 4 }
  let w3 : Frame_Window := { w2 with overlap0 := (w2.bestmatch.postion : ℚ) / 2000 }
  if w3.overrideOverlap > 0 then { w3 with lowloc := w3.overrideOverlap } else w3

/-- The local `bestvalueoffset` of `render`, the texture coordinate from which the
file audio is drawn: `1.0f + (overlap[3] - bestmatch.postion / 2000.0)`, in exact
arithmetic, with `bestmatch` as left by the overlap search. -/
def bestvalueoffset (w : Frame_Window) (inp : RenderInput) : ℚ :=
  1 + (inp.overlap3 - ((renderOverlapSearch w inp).bestmatch.postion : ℚ) / 2000)

/-- The call `glReadPixels(x, 0, 1, height, GL_RED, GL_FLOAT, dst + base)`: `height`
consecutive values of column `x` are stored from `dst[base]` on; a negative height
stores nothing. -/
def glReadPixelsColumn (dst : Int → ℚ) (base height : Int) (column : Int → ℚ) : Int → ℚ :=
  fun k => if base ≤ k ∧ k < base + height then column (k - base) else dst k

/-- The section "Virtual Bench render" of `render` as far as the slot table goes
(line 1542): a new frame is recorded in the slot `currentbufferid`. -/
def renderVBench (w : Frame_Window) : Frame_Window :=
  if w.new_frame then
    { w with fbm := w.fbm.addFrameNumberToBuffer w.currentbufferid w.currentframenumber }
  else w

/-- The capture at the end of `render` (lines 1761-1776): with `is_rendering` and
`new_frame` both set, both channels are read to `FileRealBuffer[c] + samplepointer`
and the cursor advances by `samplesperframe_file`. -/
def renderFileAudio (w : Frame_Window) (inp : RenderInput) : Frame_Window :=
  if w.is_rendering && w.new_frame then
    { w with
      FileRealBuffer := fun c =>
        if c = 0 then
          glReadPixelsColumn (w.FileRealBuffer 0) w.samplepointer w.samplesperframe_file
            (inp.filePixels 0)
        else if c = 1 then
          glReadPixelsColumn (w.FileRealBuffer 1) w.samplepointer w.samplesperframe_file
            (inp.filePixels 1)
        else w.FileRealBuffer c,
      samplepointer := w.samplepointer + w.samplesperframe_file }
  else w

/-- The method `Frame_Window::render`, restricted to the fields of `Frame_Window`
above: overlap search, slot bookkeeping, file-audio capture, `new_frame = false`. -/
def render (w : Frame_Window) (inp : RenderInput) : Frame_Window :=
  { renderFileAudio (renderVBench (renderOverlapSearch w inp)) inp with new_frame := false }

/-- The method `Frame_Window::PrepareRecording`: fresh arrays (their contents, left
open by `new float[numsamples]`, are the argument `fresh`) and `samplepointer = 0`. -/
def PrepareRecording (w : Frame_Window) (fresh : Int → Int → ℚ) : Frame_Window :=
  { w with FileRealBuffer := fresh, samplepointer := 0 }

/-- The method `Frame_Window::load_frame_texture` as far as the embedded fields go:
`new_frame = true`. -/
def load_frame_texture (w : Frame_Window) : Frame_Window :=
  { w with new_frame := true }

/-- The calls a recording session makes on the frame window between
`PrepareRecording` and `DestroyRecording`: loading a texture, switching
`is_rendering`, `is_calc` or `overrideOverlap`, and rendering. -/
inductive WindowCall where
  | loadTexture
  | setRendering (b : Bool)
  | setCalc (b : Bool)
  | setOverride (v : Int)
  | renderNow (inp : RenderInput)

/-- The effect of one call. -/
def WindowCall.apply (w : Frame_Window) : WindowCall → Frame_Window
  | .loadTexture => load_frame_texture w
  | .setRendering b => { w with is_rendering := b }
  | .setCalc b => { w with is_calc := b }
  | .setOverride v => { w with overrideOverlap := v }
  | .renderNow inp => render w inp

/-- The effect of a sequence of calls. -/
def runCalls (w : Frame_Window) (calls : List WindowCall) : Frame_Window :=
  calls.foldl WindowCall.apply w

/-- The number of renders of the sequence that start with `is_rendering` and
`new_frame` both set. -/
def capturingRenders : Frame_Window → List WindowCall → Nat
  | _, [] => 0
  | w, c :: cs =>
    (match c with
      | .renderNow _ => if w.is_rendering && w.new_frame then 1 else 0
      | _ => 0) + capturingRenders (WindowCall.apply w c) cs

/-- A frame window as left by the constructor (src/frame_view_gl.cpp, lines 300-452).
The members the constructor leaves without a value (the records of `match_array`
after `new overlap_match[5]`, `currentbufferid`, `currentframenumber`, and
`FileRealBuffer`, which is NULL until `PrepareRecording`) are given the sample
value 0 here. -/
def freshWindow : Frame_Window :=
  { fbm := FrameBucketManager.ctor 5,
    currentbufferid := 0,
    currentframenumber := 0,
    samplesperframe := 2000,
    samplesperframe_file := 2000,
    is_calc := false,
    bestmatch := { postion := 0, value := 0 },
    match_array := fun _ => { postion := 0, value := 0 },
    lowloc := 0,
    overlap0 := 0,
    overrideOverlap := 0,
    is_rendering := false,
    new_frame := false,
    samplepointer := 0,
    FileRealBuffer := fun _ _ => 0 }

/-- A comparison buffer whose smallest value sits at index 995. -/
def sampleCompareBuffer : Int → ℚ :=
  fun k => if k = 995 then 0 else if k = 997 then 1 else 5

/-- A comparison buffer whose smallest value sits at index 993. -/
def sampleCompareBuffer2 : Int → ℚ :=
  fun k => if k = 993 then 0 else 5

/-- A render input with the search window `[1000, 1012]`. -/
def sampleRenderInput : RenderInput :=
  { startRaw := 1000, endRaw := 1012, audio_compare_buffer := sampleCompareBuffer,
    overlap3 := 0, filePixels := fun x y => (x : ℚ) + (y : ℚ) }

/-! ## MainWindow: the export sequencer -/

/-- An entry of `encVideoQueue`: a synthetic black frame, or the copy of the video
buffer made after `Load_Frame_Texture(framenum)`. -/
inductive VideoImage where
  | black
  | scanned (framenum : Int)
deriving DecidableEq, Repr

/-- The fields of the libav frame `encS16Frame` used by the sequencer. -/
structure AVFrame where
  pts : Int
  nb_samples : Int
  channels : Int
deriving DecidableEq, Repr

/-- The export fields of `MainWindow` (src/mainwindow.h, lines 374-389), with
`frame_window->samplesperframe_file` and `scan.inFile.NumFrames()`. -/
structure MainWindow where
  encStartFrame : Int
  encNumFrames : Int
  encCurFrame : Int
  encVideoSkip : Int
  encAudioSkip : Int
  encVideoPad : Int
  encAudioPad : Int
  encVideoQueue : List VideoImage
  encAudioLen : Int
  encAudioNextPts : Int
  encS16Frame : AVFrame
  samplesperframe_file : Int
  inFileNumFrames : Int
deriving DecidableEq, Repr

/-- The sequencer state set up by `MainWindow::MuxMain` before its encoding loop
(src/mainwindow.cpp, lines 2895-2946): `encS16Frame` is the temporary frame of the
audio stream, then the cursor, the four stream offsets and the black frames of
`encVideoPad`.  `encAudioLen`, `encAudioNextPts` and the queue are not reset. -/
def MuxMain (w : MainWindow) (tmp_frame : AVFrame) (startFrame numFrames vidFrameOffset : Int) :
    MainWindow :=
  let w1 : MainWindow :=
    { w with encS16Frame := tmp_frame, encCurFrame := 2, encStartFrame := startFrame,
             encNumFrames := numFrames }
  let w2 : MainWindow :=
    if vidFrameOffset > 0 then
      { w1 with encVideoSkip := vidFrameOffset, encAudioSkip := 0, encVideoPad := 0,
                encAudioPad := 0 }
    else
      { w1 with encVideoSkip := 0,
                encAudioSkip := -vidFrameOffset * w1.samplesperframe_file,
                encVideoPad := 0, encAudioPad := 0 }
  { w2 with encVideoQueue :=
      w2.encVideoQueue ++ List.replicate w2.encVideoPad.toNat VideoImage.black }

/-- The method `MainWindow::EnqueueNextFrame` on the paths where
`Load_Frame_Texture` returns.  `Load_Frame_Texture` is its boolean result for the
given frame: false when there is no frame window or the user cancels the request to
raise it (the window and the GPU are outside the embedding).  A reader that throws
is embedded in `Throwing.EnqueueNextFrame`. -/
def EnqueueNextFrame (Load_Frame_Texture : Int → Bool) (w : MainWindow) : Bool × MainWindow :=
  if w.encCurFrame > w.encNumFrames then (false, w)
  else
    let framenum := w.encStartFrame + w.encCurFrame
    let loaded := if framenum > w.inFileNumFrames - 1 then framenum - 1 else framenum
    if !(Load_Frame_Texture loaded) then (false, w)
    else
      (true,
        { w with encVideoQueue := w.encVideoQueue ++ [VideoImage.scanned loaded],
                 encAudioLen := w.encAudioLen + w.samplesperframe_file,
                 encCurFrame := w.encCurFrame + 1 })

/-- The method `MainWindow::GetVideoFromQueue`; `none` is the NULL pointer. -/
def GetVideoFromQueue (Load_Frame_Texture : Int → Bool) (w : MainWindow) :
    Option VideoImage × MainWindow :=
  let r : Bool × MainWindow :=
    if w.encVideoQueue.isEmpty then EnqueueNextFrame Load_Frame_Texture w else (true, w)
  if !r.1 then (none, r.2)
  else
    match r.2.encVideoQueue with
    | [] => (none, r.2)
    | p :: rest => (some p, { r.2 with encVideoQueue := rest })

/-- The loop `while (encVideoSkip > 0)` of `MainWindow::get_video_frame`, run for at
most `n` rounds; the boolean is false when a NULL buffer ended it. -/
def skipVideoFrames (Load_Frame_Texture : Int → Bool) : Nat → MainWindow → Bool × MainWindow
  | 0, w => (true, w)
  | n + 1, w =>
    if w.encVideoSkip > 0 then
      match GetVideoFromQueue Load_Frame_Texture w with
      | (none, w1) => (false, w1)
      | (some _, w1) =>
        skipVideoFrames Load_Frame_Texture n { w1 with encVideoSkip := w1.encVideoSkip - 1 }
    else (true, w)

/-- The buffer part of `MainWindow::get_video_frame` (lines 2622-2637): the frames of
`encVideoSkip` are discarded, then the next image is fetched (`none`: NULL).  The
loop runs `encVideoSkip` rounds at most, since each round decrements it. -/
def get_video_frame (Load_Frame_Texture : Int → Bool) (w : MainWindow) :
    Option VideoImage × MainWindow :=
  match skipVideoFrames Load_Frame_Texture w.encVideoSkip.toNat w with
  | (false, w1) => (none, w1)
  | (true, w1) => GetVideoFromQueue Load_Frame_Texture w1

/-- The loop `while (encS16Frame->pts + encS16Frame->nb_samples > encAudioLen)` of
`GetAudioFromQueue` with a bound on its rounds: `none` when the bound is used up,
otherwise whether the loop ended with its condition false (`true`) or through a
failed `EnqueueNextFrame` (`false`). -/
def enqueueForAudio (Load_Frame_Texture : Int → Bool) :
    Nat → MainWindow → Option (Bool × MainWindow)
  | 0, w =>
    if w.encS16Frame.pts + w.encS16Frame.nb_samples > w.encAudioLen then none
    else some (true, w)
  | n + 1, w =>
    if w.encS16Frame.pts + w.encS16Frame.nb_samples > w.encAudioLen then
      match EnqueueNextFrame Load_Frame_Texture w with
      | (false, w1) => some (false, w1)
      | (true, w1) => enqueueForAudio Load_Frame_Texture n w1
    else some (true, w)

/-- The chunk handed out by `GetAudioFromQueue`: its `pts`, its size, whether it is
silence, and `offset`, the index of `FileRealBuffer` from which a non-silent chunk
is copied. -/
structure AudioChunk where
  pts : Int
  nb_samples : Int
  channels : Int
  silent : Bool
  offset : Int
deriving DecidableEq, Repr

/-- The location read for `samples[i * channels + c]` of a chunk: the sample written
is computed from `FileRealBuffer[c][offset + i]`; silence reads nothing. -/
def AudioChunk.source (chunk : AudioChunk) (i c : Int) : Option (Int × Int) :=
  if chunk.silent then none else some (c, chunk.offset + i)

/-- The outcomes of `GetAudioFromQueue`: the NULL pointer, the exception
"sound must be stereo", or the filled frame. -/
inductive AudioResult where
  | null
  | notStereo
  | frame (chunk : AudioChunk)
deriving DecidableEq, Repr

/-- The number of rounds after which the loop of `GetAudioFromQueue` has ended:
each round but the last increments `encCurFrame`, which stops at `encNumFrames + 1`. -/
def audioLoopBound (w : MainWindow) : Nat :=
  (w.encNumFrames + 1 - w.encCurFrame).toNat + 1

/-- The method `MainWindow::GetAudioFromQueue`.  `none` would mean that the loop
has not ended within `audioLoopBound` rounds. -/
def GetAudioFromQueue (Load_Frame_Texture : Int → Bool) (w : MainWindow) :
    Option (AudioResult × MainWindow) :=
  match enqueueForAudio Load_Frame_Texture (audioLoopBound w) w with
  | none => none
  | some (false, w1) => some (AudioResult.null, w1)
  | some (true, w1) =>
    let offset := w1.encAudioNextPts - w1.encAudioPad
    if w1.encS16Frame.channels ≠ 2 then some (AudioResult.notStereo, w1)
    else
      let chunk : AudioChunk :=
        { pts := w1.encAudioNextPts, nb_samples := w1.encS16Frame.nb_samples,
          channels := w1.encS16Frame.channels, silent := decide (offset < 0),
          offset := offset }
      some (AudioResult.frame chunk,
        { w1 with encS16Frame := { w1.encS16Frame with pts := w1.encAudioNextPts },
                  encAudioNextPts := w1.encAudioNextPts + w1.encS16Frame.nb_samples })

/-- The export fields as the constructor of `MainWindow` leaves them
(src/mainwindow.cpp, lines 402-412), for a scan of 100 frames and 2000 samples per
frame. -/
def freshMainWindow : MainWindow :=
  { encStartFrame := 0, encNumFrames := 0, encCurFrame := 0,
    encVideoSkip := 0, encAudioSkip := 0, encVideoPad := 0, encAudioPad := 0,
    encVideoQueue := [], encAudioLen := 0, encAudioNextPts := 0,
    encS16Frame := { pts := 0, nb_samples := 0, channels := 0 },
    samplesperframe_file := 2000, inFileNumFrames := 100 }

/-- The temporary audio frame as `alloc_audio_frame` returns it for a stereo codec
with 1024 samples per frame; `pts` is libav's `AV_NOPTS_VALUE`. -/
def stereoFrame1024 : AVFrame :=
  { pts := -9223372036854775808, nb_samples := 1024, channels := 2 }

/-- A loader that always succeeds. -/
def loadAlways : Int → Bool := fun _ => true

/-- A loader that returns false from frame 5 on. -/
def loadFailsFrom5 : Int → Bool := fun n => decide (n < 5)

/-- The frame `EnqueueNextFrame` passes to `Load_Frame_Texture`. -/
def frameToLoad (w : MainWindow) : Int :=
  if w.encStartFrame + w.encCurFrame > w.inFileNumFrames - 1 then
    w.encStartFrame + w.encCurFrame - 1
  else w.encStartFrame + w.encCurFrame

/-- An export of frames 0 to 10 with frame offset `d`, as `MuxMain` sets it up on a
fresh window. -/
def exportStart (d : Int) : MainWindow :=
  MuxMain freshMainWindow stereoFrame1024 0 10 d

/-- The export with offset 0 after the first video frame has been fetched. -/
def exportAfterVideo : MainWindow :=
  (GetVideoFromQueue loadAlways (exportStart 0)).2

/-- The same export after the first audio chunk has been fetched as well. -/
def exportAfterFirstChunk : MainWindow :=
  match GetAudioFromQueue loadAlways exportAfterVideo with
  | some (_, w) => w
  | none => exportAfterVideo

/-- An export in progress (three frames enqueued and consumed, six chunks handed
out) whose next frame is frame 5: `loadFailsFrom5` returns false for it and
`decodeFailsFrom5` throws. -/
def exportLoadFails : MainWindow :=
  { encStartFrame := 0, encNumFrames := 10, encCurFrame := 5,
    encVideoSkip := 0, encAudioSkip := 0, encVideoPad := 0, encAudioPad := 0,
    encVideoQueue := [], encAudioLen := 6000, encAudioNextPts := 6144,
    encS16Frame := { pts := 5120, nb_samples := 1024, channels := 2 },
    samplesperframe_file := 2000, inFileNumFrames := 100 }

/-- An export whose frame cursor has passed the configured frame count (nine frames
enqueued and consumed, eighteen chunks handed out). -/
def exportExhausted : MainWindow :=
  { encStartFrame := 0, encNumFrames := 10, encCurFrame := 11,
    encVideoSkip := 0, encAudioSkip := 0, encVideoPad := 0, encAudioPad := 0,
    encVideoQueue := [], encAudioLen := 18000, encAudioNextPts := 18432,
    encS16Frame := { pts := 17408, nb_samples := 1024, channels := 2 },
    samplesperframe_file := 2000, inFileNumFrames := 100 }

/-- A fresh frame window with the manual override set to 500. -/
def windowOverride500 : Frame_Window :=
  { freshWindow with overrideOverlap := 500 }

/-- A fresh frame window that is recording and has a new frame. -/
def windowCapturing : Frame_Window :=
  { freshWindow with is_rendering := true, new_frame := true }

/-! ## Further definitions for the slot cache and the search passes -/

/-- The method `FrameBucketManager::getBuffersSortedByFrameNumber`: the buckets are
sorted by `frame_number` (`std::sort`, embedded as insertion sort) and their ids
are listed. -/
def FrameBucketManager.getBuffersSortedByFrameNumber (m : FrameBucketManager) : List Int :=
  (m.buffers.insertionSort (fun a b => a.frame_number ≤ b.frame_number)).map
    (fun buffer => buffer.frame_buffer_id)

/-- The pair `(iCurrMin, bmatch)` of `GetBestMatchFromFloatArray` after the rounds
`i = 1, ..., n` of its loop. -/
def bestMatchScan (dArray : Int → ℚ) (start : Int) (bmatch : overlap_match) (n : Nat) :
    Int × overlap_match :=
  (List.map (fun (k : Nat) => (k : Int) + 1) (List.range n)).foldl
    (fun (acc : Int × overlap_match) i =>
      if dArray acc.1 > dArray i then (i, { postion := start - i, value := dArray i })
      else acc)
    (0, bmatch)

/-- The bounds `(s_start, s_end)` of pass `i` of `render` before the two clamps:
`s_mid - 4` and `s_mid + 4` for `i == 1`, `s_mid - s_i_size*i` and `s_mid + s_i_size*i`
with `s_i_size = (s_size/2)/5` otherwise. -/
def passBoundsRaw (s_size s_mid i : Int) : Int × Int :=
  let s_i_size := Int.tdiv (Int.tdiv s_size 2) 5
  if i = 1 then (s_mid - 4, s_mid + 4) else (s_mid - s_i_size * i, s_mid + s_i_size * i)

/-- The distance from the window centre to each window edge before clamping as the
specification words it: 4 for pass 1, `((W/2)/i)*i` for the passes 2 to 5. -/
def specifiedHalfWidth (W i : Int) : Int :=
  if i = 1 then 4 else Int.tdiv (Int.tdiv W 2) i * i

/-- The array 1, 2, 3 (its minimum is at index 0), continued by 5. -/
def risingArray : Int → ℚ :=
  fun k => if k = 0 then 1 else if k = 1 then 2 else if k = 2 then 3 else 5

/-- A match record left by an earlier frame. -/
def staleMatch : overlap_match := { postion := 77, value := 9 }

/-- A render input with the narrow search window `[1000, 1008]`: the passes 2 to 5
have `s_i_size = 0` and so an empty window. -/
def narrowRenderInput : RenderInput :=
  { startRaw := 1000, endRaw := 1008, audio_compare_buffer := sampleCompareBuffer,
    overlap3 := 0, filePixels := fun x y => (x : ℚ) + (y : ℚ) }

/-! ## vbevent: attribute names and attributes

A `QString` holding characters is embedded as `List Char`; where the null string
matters (attribute values) as `Option (List Char)`, `none` being the null string.
The functions of Qt that depend on Unicode tables or on number parsing enter as
the fields of `QtText`. -/

/-- A `QString` value that may be the null string `QString()`. -/
abbrev QString := Option (List Char)

/-- The characters of a `QString` (none for the null string). -/
def QString.chars (s : QString) : List Char := s.getD []

/-- The Qt functions used as they are: `QChar::toUpper`, the case folding behind the
comparisons with `Qt::CaseInsensitive`, and `QString::toDouble` (`none`: `ok` is
false; the value is taken as a rational). -/
structure QtText where
  toUpper : Char → Char
  foldCase : Char → Char
  toDouble : List Char → Option ℚ

/-- The function `QChar::isSpace`, after the Qt documentation: the characters
U+0009 to U+000D, U+0020, U+0085, U+00A0 and the Unicode separators (Zs, Zl, Zp). -/
def QChar_isSpace (c : Char) : Bool :=
  (9 ≤ c.toNat && c.toNat ≤ 13) || c.toNat == 32 || c.toNat == 133 || c.toNat == 160 ||
    c.toNat == 5760 || (8192 ≤ c.toNat && c.toNat ≤ 8202) || c.toNat == 8232 ||
    c.toNat == 8233 || c.toNat == 8239 || c.toNat == 8287 || c.toNat == 12288

/-- The call `str.replace("_", " ")`. -/
def replaceUnderscores (str : List Char) : List Char :=
  str.map (fun c => if c = '_' then ' ' else c)

/-- The function `QString::simplified`, after the Qt documentation: whitespace is
removed from both ends and every internal run of whitespace becomes one space. -/
def QString_simplified (str : List Char) : List Char :=
  [' '].intercalate ((str.splitOnP QChar_isSpace).filter (fun w => !w.isEmpty))

/-- The call `word.replace(0, 1, word[0].toUpper())`; indexing the empty word is
outside the contract of `QString` (`none`). -/
def capitalizeWord (toUpper : Char → Char) : List Char → Option (List Char)
  | [] => none
  | c :: cs => some (toUpper c :: cs)

/-- The loop `for(QString word : words) name += word.replace(...)`. -/
def capitalizeWords (toUpper : Char → Char) : List (List Char) → Option (List Char)
  | [] => some []
  | word :: words =>
    match capitalizeWord toUpper word with
    | none => none
    | some w =>
      match capitalizeWords toUpper words with
      | none => none
      | some rest => some (w ++ rest)

/-- The static method `vbevent::MakeAttributeName`; `split(' ')` keeps empty parts. -/
def MakeAttributeName (qt : QtText) (str : List Char) : Option (List Char) :=
  capitalizeWords qt.toUpper
    ((QString_simplified (replaceUnderscores str)).splitOn ' ')

/-- The separators of `MakeAttributeName` as the claim words them: spaces and
underscores. -/
def isSpaceOrUnderscore (c : Char) : Bool := c == ' ' || c == '_'

/-- The separators `MakeAttributeName` acts on: whitespace and underscores. -/
def isSeparator (c : Char) : Bool := QChar_isSpace c || c == '_'

/-- The words of a string: its maximal runs of characters that are not separators. -/
def wordsOf (sep : Char → Bool) (str : List Char) : List (List Char) :=
  (str.splitOnP sep).filter (fun w => !w.isEmpty)

/-- A word with its first character mapped to upper case. -/
def capitalized (toUpper : Char → Char) : List Char → List Char
  | [] => []
  | c :: cs => toUpper c :: cs

/-- The concatenation of the capitalized words of a string. -/
def camelCase (toUpper : Char → Char) (sep : Char → Bool) (str : List Char) : List Char :=
  ((wordsOf sep str).map (capitalized toUpper)).flatten

/-- Sample text functions: ASCII upper case, ASCII lower case as folding, and
unsigned decimal integers as the numbers that parse. -/
def asciiText : QtText :=
  { toUpper := Char.toUpper,
    foldCase := Char.toLower,
    toDouble := fun s =>
      if s ≠ [] ∧ s.all Char.isDigit then
        some ((s.foldl (fun n c => 10 * n + (c.toNat - 48)) 0 : Nat) : ℚ)
      else none }

/-- The enumeration `EventType` of src/vbevent.h. -/
inductive EventType where
  | VB_EVENT_GENERIC
  | VB_EVENT_FILMSTATE
  | VB_EVENT_DAMAGE
  | VB_EVENT_JOIN
  | VB_EVENT_ARTIFACT
  | VB_EVENT_EDGEMARK
  | VB_EVENT_OTHER
deriving DecidableEq, Repr

/-- The table `EventTypeName` of src/vbevent.h. -/
def EventTypeName : EventType → List Char
  | .VB_EVENT_GENERIC => "--".toList
  | .VB_EVENT_FILMSTATE => "FilmState".toList
  | .VB_EVENT_DAMAGE => "Damage".toList
  | .VB_EVENT_JOIN => "Splice".toList
  | .VB_EVENT_ARTIFACT => "Artifact".toList
  | .VB_EVENT_EDGEMARK => "EdgeMark".toList
  | .VB_EVENT_OTHER => "Other".toList

/-- The data members of the class `vbevent` (src/vbevent.h); `id` stands for the
`QUuid`, the four bounds are `bounds[0..3]`, frame numbers are taken as natural
numbers. -/
structure vbevent where
  id : Nat
  eventType : EventType
  eventTypeOtherName : QString
  frameStart : Nat
  frameEnd : Nat
  boundsX0 : ℚ
  boundsX1 : ℚ
  boundsY0 : ℚ
  boundsY1 : ℚ
  isContinuous : Bool
  attributes : List (List Char × QString)
  notes : QString
deriving DecidableEq

/-- The result of a method that may leave the contract of `QString` (`undefined`)
or may not come back within the recursion bound given to it (`unfinished`). -/
inductive Outcome (α : Type) where
  | value (a : α)
  | undefined
  | unfinished
deriving DecidableEq, Repr

/-- The outcome with a function applied to its value. -/
def Outcome.map {α β : Type} (f : α → β) : Outcome α → Outcome β
  | Outcome.value a => Outcome.value (f a)
  | Outcome.undefined => Outcome.undefined
  | Outcome.unfinished => Outcome.unfinished

/-- The comparison `a.compare(b, Qt::CaseInsensitive) == 0`. -/
def compareCI (qt : QtText) (a b : List Char) : Bool :=
  a.map qt.foldCase == b.map qt.foldCase

/-- The text `QVariant(n).toString()` of an unsigned number. -/
def decimalString (n : Nat) : List Char := (Nat.repr n).toList

namespace vbevent

/-- The method `vbevent::TypeName`. -/
def TypeName (e : vbevent) : QString :=
  match e.eventType with
  | .VB_EVENT_OTHER => e.eventTypeOtherName
  | t => some (EventTypeName t)

/-- The method `vbevent::IsContinuous`. -/
def IsContinuous (e : vbevent) : Bool :=
  e.isContinuous && decide (e.frameStart < e.frameEnd)

/-- The method `vbevent::SubTypeName`: `MakeAttributeName(TypeName())` followed by
`Type`. -/
def SubTypeName (qt : QtText) (e : vbevent) : Option (List Char) :=
  (MakeAttributeName qt (TypeName e).chars).map (fun subtag => subtag ++ "Type".toList)

/-- The body of `vbevent::Attribute`; `subType` is the result of the call
`this->SubType()` made in the branch of the attribute `SubType`. -/
def AttributeBody (qt : QtText) (subType : Outcome QString) (e : vbevent)
    (attributeName : List Char) : Outcome QString :=
  match MakeAttributeName qt attributeName with
  | none => Outcome.undefined
  | some attr =>
    match e.attributes.find? (fun p => compareCI qt p.1 attr) with
    | some p => Outcome.value p.2
    | none =>
      if compareCI qt attr "Start".toList || compareCI qt attr "Frame".toList then
        Outcome.value (some (decimalString e.frameStart))
      else if compareCI qt attr "End".toList then
        Outcome.value (some (decimalString e.frameEnd))
      else if compareCI qt attr "EventType".toList || compareCI qt attr "Type".toList then
        Outcome.value (TypeName e)
      else if compareCI qt attr "SubType".toList then subType
      else if compareCI qt attr "Notes".toList then Outcome.value e.notes
      else Outcome.value none

/-- The method `vbevent::Attribute` with a bound on the depth of its recursion
through `SubType()`, which is `Attribute(SubTypeName())`. -/
def AttributeWithin (qt : QtText) : Nat → vbevent → List Char → Outcome QString
  | 0, _, _ => Outcome.unfinished
  | n + 1, e, attributeName =>
    AttributeBody qt
      (match SubTypeName qt e with
        | none => Outcome.undefined
        | some subtag => AttributeWithin qt n e subtag)
      e attributeName

/-- The method `vbevent::Attribute`.  A call that enters `SubType()` a second time
repeats the call `Attribute(SubTypeName())` with the same arguments and does not
come back; depth 2 therefore tells every call that returns from one that does not. -/
def Attribute (qt : QtText) (e : vbevent) (attributeName : List Char) : Outcome QString :=
  AttributeWithin qt 2 e attributeName

/-- One of the two loops of `vbevent::operator==`: every attribute of the list other
than `DateCreated` and `DateModified` is compared, ignoring case, with
`other.Attribute` of its name. -/
def attributesMatch (qt : QtText) (other : vbevent) :
    List (List Char × QString) → Outcome Bool
  | [] => Outcome.value true
  | attr :: rest =>
    if attr.1 = "DateCreated".toList then attributesMatch qt other rest
    else if attr.1 = "DateModified".toList then attributesMatch qt other rest
    else
      match Attribute qt other attr.1 with
      | Outcome.value v =>
        if compareCI qt attr.2.chars v.chars then attributesMatch qt other rest
        else Outcome.value false
      | Outcome.undefined => Outcome.undefined
      | Outcome.unfinished => Outcome.unfinished

/-- The operator `vbevent::operator==`. -/
def operatorEq (qt : QtText) (self other : vbevent) : Outcome Bool :=
  if self.eventType ≠ other.eventType then Outcome.value false
  else if !(compareCI qt self.eventTypeOtherName.chars other.eventTypeOtherName.chars) then
    Outcome.value false
  else if self.frameStart ≠ other.frameStart then Outcome.value false
  else if self.frameEnd ≠ other.frameEnd then Outcome.value false
  else if self.boundsX0 ≠ other.boundsX0 then Outcome.value false
  else if self.boundsX1 ≠ other.boundsX1 then Outcome.value false
  else if self.boundsY0 ≠ other.boundsY0 then Outcome.value false
  else if self.boundsY1 ≠ other.boundsY1 then Outcome.value false
  else if self.IsContinuous ≠ other.IsContinuous then Outcome.value false
  else
    match attributesMatch qt other self.attributes with
    | Outcome.value true => attributesMatch qt self other.attributes
    | r => r

end vbevent

/-- An event as the constructor `vbevent(framenum, VB_EVENT_GENERIC)` leaves it, with
the given id. -/
def newEvent (id framenum : Nat) : vbevent :=
  { id := id, eventType := EventType.VB_EVENT_GENERIC, eventTypeOtherName := none,
    frameStart := framenum, frameEnd := framenum,
    boundsX0 := 0, boundsX1 := 0, boundsY0 := 0, boundsY1 := 0,
    isContinuous := false, attributes := [], notes := none }

/-- A damage event on frame 12 with a subtype attribute and the notes `torn`. -/
def tornEvent : vbevent :=
  { newEvent 1 12 with
    eventType := EventType.VB_EVENT_DAMAGE,
    attributes := [("DamageType".toList, some "Tear".toList)],
    notes := some "torn".toList }

/-- The same event with other notes and another id. -/
def tornEventOtherNotes : vbevent :=
  { tornEvent with id := 2, notes := some "no damage seen".toList }

/-! ## Event filter conditions -/

/-- The enumeration `EventFilterComp : int` of src/eventfilter.h, as its integer
value. -/
structure EventFilterComp where
  val : Nat
deriving DecidableEq, Repr

/-- Enumerator 0. -/
def EVENT_FILTER_COMP_ATTR_EQUAL : EventFilterComp := { val := 0 }
/-- Enumerator 1. -/
def EVENT_FILTER_COMP_ATTR_NOT_EQUAL : EventFilterComp := { val := 1 }
/-- Enumerator 2. -/
def EVENT_FILTER_COMP_ATTR_CONTAINS : EventFilterComp := { val := 2 }
/-- Enumerator 3. -/
def EVENT_FILTER_COMP_ATTR_DOES_NOT_CONTAIN : EventFilterComp := { val := 3 }
/-- Enumerator 4. -/
def EVENT_FILTER_COMP_ATTR_STARTS_WITH : EventFilterComp := { val := 4 }
/-- Enumerator 5. -/
def EVENT_FILTER_COMP_ATTR_DOES_NOT_START_WITH : EventFilterComp := { val := 5 }
/-- Enumerator 6. -/
def EVENT_FILTER_COMP_ATTR_EXISTS : EventFilterComp := { val := 6 }
/-- Enumerator 7. -/
def EVENT_FILTER_COMP_ATTR_DOES_NOT_EXIST : EventFilterComp := { val := 7 }
/-- Enumerator 8. -/
def EVENT_FILTER_COMP_ATTR_EQ : EventFilterComp := { val := 8 }
/-- Enumerator 9. -/
def EVENT_FILTER_COMP_ATTR_NE : EventFilterComp := { val := 9 }
/-- Enumerator 10. -/
def EVENT_FILTER_COMP_ATTR_LT : EventFilterComp := { val := 10 }
/-- Enumerator 11. -/
def EVENT_FILTER_COMP_ATTR_GE : EventFilterComp := { val := 11 }
/-- Enumerator 12. -/
def EVENT_FILTER_COMP_ATTR_GT : EventFilterComp := { val := 12 }
/-- Enumerator 13. -/
def EVENT_FILTER_COMP_ATTR_LE : EventFilterComp := { val := 13 }
/-- Enumerator 14. -/
def EVENT_FILTER_COMP_POS_LEFT : EventFilterComp := { val := 14 }
/-- Enumerator 15. -/
def EVENT_FILTER_COMP_POS_RIGHT : EventFilterComp := { val := 15 }
/-- Enumerator 16. -/
def EVENT_FILTER_COMP_POS_SPAN : EventFilterComp := { val := 16 }
/-- Enumerator 17. -/
def EVENT_FILTER_COMP_POS_NOT_SPAN : EventFilterComp := { val := 17 }
/-- Enumerator 18. -/
def EVENT_FILTER_COMP_POS_TOP : EventFilterComp := { val := 18 }
/-- Enumerator 19. -/
def EVENT_FILTER_COMP_POS_BOTTOM : EventFilterComp := { val := 19 }
/-- Enumerator 20. -/
def EVENT_FILTER_COMP_IN_SET : EventFilterComp := { val := 20 }
/-- Enumerator 21. -/
def EVENT_FILTER_COMP_NOT_IN_SET : EventFilterComp := { val := 21 }

/-- The private members of `EventFilterCondition`; `attributeName` is the member
`attribute`, `targetSet` the set of event ids. -/
structure EventFilterCondition where
  comparison : EventFilterComp
  isNegated : Bool
  attributeName : List Char
  pattern : List Char
  targetSet : List Nat
deriving DecidableEq, Repr

/-- The final `return(neg ? !pass : pass)` of `EventPasses`. -/
def passOrNegation (neg pass : Bool) : Bool := if neg then !pass else pass

/-- A test on the value of `event.Attribute(attribute)`. -/
def onAttribute (qt : QtText) (event : vbevent) (attributeName : List Char)
    (test : QString → Outcome Bool) : Outcome Bool :=
  match vbevent.Attribute qt event attributeName with
  | Outcome.value v => test v
  | Outcome.undefined => Outcome.undefined
  | Outcome.unfinished => Outcome.unfinished

/-- The body shared by the numeric cases of `EventPasses`: the pattern is parsed
first, then the attribute; either failure returns false at once. -/
def numericCompare (qt : QtText) (event : vbevent) (cond : EventFilterCondition) (neg : Bool)
    (rel : ℚ → ℚ → Bool) : Outcome Bool :=
  match qt.toDouble cond.pattern with
  | none => Outcome.value false
  | some targetValue =>
    onAttribute qt event cond.attributeName (fun v =>
      match qt.toDouble v.chars with
      | none => Outcome.value false
      | some value => Outcome.value (passOrNegation neg (rel value targetValue)))

namespace EventFilterCondition

/-- The method `EventFilterCondition::Comparison`. -/
def Comparison (cond : EventFilterCondition) : EventFilterComp :=
  if cond.isNegated then { val := cond.comparison.val ^^^ 1 } else cond.comparison

/-- The method `EventFilterCondition::EventPasses`; the cases are those of the
`switch`, a case that falls through after `neg = !neg` appears with `!neg`. -/
def EventPasses (qt : QtText) (cond : EventFilterCondition) (event : vbevent) : Outcome Bool :=
  let neg := cond.isNegated
  match cond.comparison.val with
  | 21 => Outcome.value (passOrNegation (!neg) (cond.targetSet.contains event.id))
  | 20 => Outcome.value (passOrNegation neg (cond.targetSet.contains event.id))
  | 1 =>
    onAttribute qt event cond.attributeName (fun v =>
      Outcome.value (passOrNegation (!neg) (compareCI qt v.chars cond.pattern)))
  | 0 =>
    onAttribute qt event cond.attributeName (fun v =>
      Outcome.value (passOrNegation neg (compareCI qt v.chars cond.pattern)))
  | 3 =>
    onAttribute qt event cond.attributeName (fun v =>
      Outcome.value (passOrNegation (!neg)
        (decide (cond.pattern.map qt.foldCase <:+: v.chars.map qt.foldCase))))
  | 2 =>
    onAttribute qt event cond.attributeName (fun v =>
      Outcome.value (passOrNegation neg
        (decide (cond.pattern.map qt.foldCase <:+: v.chars.map qt.foldCase))))
  | 5 =>
    onAttribute qt event cond.attributeName (fun v =>
      Outcome.value (passOrNegation (!neg)
        ((cond.pattern.map qt.foldCase).isPrefixOf (v.chars.map qt.foldCase))))
  | 4 =>
    onAttribute qt event cond.attributeName (fun v =>
      Outcome.value (passOrNegation neg
        ((cond.pattern.map qt.foldCase).isPrefixOf (v.chars.map qt.foldCase))))
  | 7 =>
    onAttribute qt event cond.attributeName (fun v =>
      Outcome.value (passOrNegation (!neg) v.isSome))
  | 6 =>
    onAttribute qt event cond.attributeName (fun v =>
      Outcome.value (passOrNegation neg v.isSome))
  | 9 => numericCompare qt event cond (!neg) (fun value targetValue => decide (value = targetValue))
  | 8 => numericCompare qt event cond neg (fun value targetValue => decide (value = targetValue))
  | 11 => numericCompare qt event cond (!neg) (fun value targetValue => decide (value < targetValue))
  | 10 => numericCompare qt event cond neg (fun value targetValue => decide (value < targetValue))
  | 13 => numericCompare qt event cond (!neg) (fun value targetValue => decide (value > targetValue))
  | 12 => numericCompare qt event cond neg (fun value targetValue => decide (value > targetValue))
  | 14 => Outcome.value (passOrNegation neg (decide (event.boundsX1 < 1 / 2)))
  | 15 => Outcome.value (passOrNegation neg (decide (event.boundsX0 > 1 / 2)))
  | 17 =>
    Outcome.value (passOrNegation (!neg)
      (decide (event.boundsX0 < 1 / 2) && decide (event.boundsX1 > 1 / 2)))
  | 16 =>
    Outcome.value (passOrNegation neg
      (decide (event.boundsX0 < 1 / 2) && decide (event.boundsX1 > 1 / 2)))
  | 18 => Outcome.value (passOrNegation neg (decide (event.boundsY1 < 1 / 2)))
  | 19 => Outcome.value (passOrNegation neg (decide (event.boundsY0 > 1 / 2)))
  | _ => Outcome.value false

end EventFilterCondition

/-- A positive condition with the given comparison, attribute, pattern and set. -/
def positiveCondition (c : EventFilterComp) (attributeName pattern : List Char)
    (targetSet : List Nat) : EventFilterCondition :=
  { comparison := c, isNegated := false, attributeName := attributeName, pattern := pattern,
    targetSet := targetSet }

/-- An event whose bounding box spans the middle of the frame in both directions:
x from 0 to 1 and y from 0 to 1. -/
def spanningEvent : vbevent :=
  { newEvent 3 20 with boundsX0 := 0, boundsX1 := 1, boundsY0 := 0, boundsY1 := 1 }

/-! ## Export of events and table rows -/

/-- The map `VBFilmEvents` (`QMap<uint32_t, QList<vbevent>>`) as the list of its
entries in ascending key order, the order of its iterators. -/
abbrev VBFilmEvents := List (Nat × List vbevent)

/-- The inner loop of `vbproject::ExportEvents` over the events of one frame: the
value of `row` at the test `include(row)` of each event. -/
def exportFrameRows (row : Int) : List vbevent → List (Int × vbevent)
  | [] => []
  | event :: rest => (row, event) :: exportFrameRows (row + 1) rest

/-- The two nested loops of `vbproject::ExportEvents`: `row` is incremented by the
inner loop after each event and by the outer loop after each frame. -/
def exportRows : Int → VBFilmEvents → List (Int × vbevent)
  | _, [] => []
  | row, frameEvents :: rest =>
    exportFrameRows row frameEvents.2 ++
      exportRows (row + (frameEvents.2.length : Int) + 1) rest

/-- The events for which `vbproject::ExportEvents` writes an `event` node, in the
order written; `includeRow` is the argument `include`. -/
def ExportEvents (filmEvents : VBFilmEvents) (includeRow : Int → Bool) : List vbevent :=
  ((exportRows 0 filmEvents).filter (fun p => includeRow p.1)).map (fun p => p.2)

/-- The method `VBFilmEventsTableModel::EventAtRow`; `none` is the null pointer (a
negative row, which `QList::at` does not accept, gives `none` as well). -/
def EventAtRow : VBFilmEvents → Int → Option vbevent
  | [], _ => none
  | frameEvents :: rest, row =>
    if row < (frameEvents.2.length : Int) then
      (if 0 ≤ row then frameEvents.2[row.toNat]? else none)
    else EventAtRow rest (row - (frameEvents.2.length : Int))

/-- Two frames with one event each: frame 0 holds event 10 and frame 1 event 11. -/
def twoFrameEvents : VBFilmEvents :=
  [(0, [newEvent 10 0]), (1, [newEvent 11 1])]

/-- The predicate of `eventdialog::ExportEvents` when the table row 1 is hidden. -/
def rowOneHidden : Int → Bool := fun r => !(r == 1)

/-! ## Reads of the comparison buffer, audio samples and repeated enqueueing -/

/-- The index `iCurrMin` of `GetBestMatchFromFloatArray` after the rounds
`i = 1, ..., n` of its loop, with the indices of `dArray` read so far: each round
reads `dArray[iCurrMin]` and `dArray[i]` for the comparison and `dArray[i]` once
more when the comparison holds. -/
def bestMatchReads (dArray : Int → ℚ) (n : Nat) : Int × List Int :=
  (List.map (fun (k : Nat) => (k : Int) + 1) (List.range n)).foldl
    (fun (acc : Int × List Int) i =>
      if dArray acc.1 > dArray i then (i, acc.2 ++ [acc.1, i, i])
      else (acc.1, acc.2 ++ [acc.1, i]))
    (0, [])

/-- The indices of `fullarray` read by the call `GetBestMatchFromFloatArray(subarray,
s_end - s_start, s_end, ...)` with `subarray = &fullarray[samplesperframe - s_end]`
for the window `win = (s_start, s_end)`. -/
def windowReads (samplesperframe : Int) (fullarray : Int → ℚ) (win : Int × Int) : List Int :=
  (bestMatchReads (fun k => fullarray (samplesperframe - win.2 + k))
      (win.2 - win.1 - 1).toNat).2.map
    (fun r => samplesperframe - win.2 + r)

/-- All indices of the comparison buffer read by the overlap search of `render`: by
the initial search over `[start, end]` and by the five passes. -/
def renderSearchReads (w : Frame_Window) (inp : RenderInput) : List Int :=
  let win := searchWindow inp
  let s_size := win.2 - win.1
  let s_mid := win.1 + Int.tdiv s_size 2
  windowReads w.samplesperframe inp.audio_compare_buffer win ++
    (List.map
      (fun (idx : Fin 5) =>
        windowReads w.samplesperframe inp.audio_compare_buffer
          (passWindow s_size s_mid ((idx.val : Int) + 1)))
      (List.finRange 5)).flatten

/-- A render input whose frame pitch puts the search beyond the frame: the raw
bounds are 2500 and 2600. -/
def lateRenderInput : RenderInput :=
  { startRaw := 2500, endRaw := 2600, audio_compare_buffer := sampleCompareBuffer,
    overlap3 := 0, filePixels := fun x y => (x : ℚ) + (y : ℚ) }

/-- The value written to `samples[i * channels + c]` of a chunk: 0 in a silent
chunk, otherwise `S16` of `audio[c][offset + i]`, where `audio` is `FileRealBuffer`
and `S16` stands for the conversion `int16_t v = int32_t(x * UMAX(16) - UMAX(16)/2)`.
The machine evaluates that formula in single precision; it enters here as a
function of the sample, the same for every sample. -/
def AudioChunk.sample (S16 : ℚ → Int) (chunk : AudioChunk) (audio : Int → Int → ℚ)
    (i c : Int) : Int :=
  if chunk.silent then 0 else S16 (audio c (chunk.offset + i))

/-- The sample `i` of channel `c` of a chunk with first effective offset `o` as the
specification words it: silence where `o + i < 0`, otherwise the conversion of the
assembled sample `o + i`. -/
def specifiedSample (S16 : ℚ → Int) (o : Int) (audio : Int → Int → ℚ) (i c : Int) : Int :=
  if o + i < 0 then 0 else S16 (audio c (o + i))

/-- A sample conversion function: the formula `x * 65535 - 32767` in exact
arithmetic, truncated towards zero and stored in 16 bits.  (The results of the
machine, which rounds to single precision, may differ from it in the last unit.) -/
def exactS16 (x : ℚ) : Int :=
  let t := Int.tdiv (x * 65535 - 32767).num ((x * 65535 - 32767).den : Int)
  (t + 32768) % 65536 - 32768

/-- A call of one of the four methods through which the encoding loop of `MuxMain`
drives the sequencer. -/
inductive SequencerCall where
  | EnqueueNextFrame
  | GetVideoFromQueue
  | get_video_frame
  | GetAudioFromQueue
deriving DecidableEq, Repr

/-- The sequencer state after one such call. -/
def SequencerCall.apply (Load_Frame_Texture : Int → Bool) (w : MainWindow) :
    SequencerCall → MainWindow
  | .EnqueueNextFrame => (VirtualFilmBench.EnqueueNextFrame Load_Frame_Texture w).2
  | .GetVideoFromQueue => (VirtualFilmBench.GetVideoFromQueue Load_Frame_Texture w).2
  | .get_video_frame => (VirtualFilmBench.get_video_frame Load_Frame_Texture w).2
  | .GetAudioFromQueue =>
    match VirtualFilmBench.GetAudioFromQueue Load_Frame_Texture w with
    | some (_, w1) => w1
    | none => w

/-- The sequencer state after a sequence of such calls. -/
def runSequencer (Load_Frame_Texture : Int → Bool) (w : MainWindow)
    (calls : List SequencerCall) : MainWindow :=
  calls.foldl (SequencerCall.apply Load_Frame_Texture) w

/-- An assembled audio signal that is 1 everywhere. -/
def constantAudio : Int → Int → ℚ := fun _ _ => 1

/-- The sequencer state after `k` successive calls of `EnqueueNextFrame`. -/
def enqueueTimes (Load_Frame_Texture : Int → Bool) : Nat → MainWindow → MainWindow
  | 0, w => w
  | k + 1, w => enqueueTimes Load_Frame_Texture k (EnqueueNextFrame Load_Frame_Texture w).2

/-- The second chunk of an export without pad: 1024 samples from the assembled
sample 1024 on. -/
def secondChunk : AudioChunk :=
  { pts := 1024, nb_samples := 1024, channels := 2, silent := false, offset := 1024 }

/-- The export with offset 0 after the second audio chunk has been fetched. -/
def exportAfterSecondChunk : MainWindow :=
  { exportAfterFirstChunk with
    encS16Frame := { exportAfterFirstChunk.encS16Frame with pts := 1024 },
    encAudioNextPts := 2048 }

/-! ## vbevent: frame range, type and attribute setters, ordering -/

namespace vbevent

/-- The method `vbevent::SetStart`. -/
def SetStart (ev : vbevent) (s : Nat) : vbevent :=
  { ev with frameStart := s, frameEnd := if ev.frameEnd < s then s else ev.frameEnd }

/-- The method `vbevent::SetEnd`; the argument 0 sets the end equal to the start. -/
def SetEnd (ev : vbevent) (e : Nat) : vbevent :=
  if e = 0 then { ev with frameEnd := ev.frameStart }
  else { ev with frameEnd := e, frameStart := if ev.frameStart > e then e else ev.frameStart }

/-- The method `vbevent::SetStartAndEnd(s, e)`. -/
def SetStartAndEnd (ev : vbevent) (s e : Nat) : vbevent :=
  { ev with frameStart := s, frameEnd := max s e }

/-- The method `vbevent::SetStartAndEnd(f)` with one argument. -/
def SetStartAndEndFrame (ev : vbevent) (f : Nat) : vbevent :=
  { ev with frameStart := f, frameEnd := f }

/-- The method `vbevent::IsMultiFrame`: `frameEnd - frameStart >= 2` in unsigned
32-bit arithmetic. -/
def IsMultiFrame (ev : vbevent) : Bool :=
  decide ((ev.frameEnd + 4294967296 - ev.frameStart) % 4294967296 ≥ 2)

/-- The method `vbevent::SetType(EventType)`. -/
def SetType (ev : vbevent) (type : EventType) : vbevent :=
  if ev.eventType = type then ev
  else
    { ev with
      eventType := type,
      eventTypeOtherName :=
        if type ≠ EventType.VB_EVENT_OTHER then none else some "Other".toList }

/-- The values of `EventType` in the order of the table `EventTypeName`. -/
def coreEventTypes : List EventType :=
  [EventType.VB_EVENT_GENERIC, EventType.VB_EVENT_FILMSTATE, EventType.VB_EVENT_DAMAGE,
    EventType.VB_EVENT_JOIN, EventType.VB_EVENT_ARTIFACT, EventType.VB_EVENT_EDGEMARK,
    EventType.VB_EVENT_OTHER]

/-- The method `vbevent::SetType(const QString)`: the first entry of `EventTypeName`
equal to the name, ignoring case, gives the type; any other name makes the event
of type `VB_EVENT_OTHER` with that name. -/
def SetTypeName (qt : QtText) (ev : vbevent) (eventTypeName : QString) : vbevent :=
  match coreEventTypes.find? (fun t => compareCI qt eventTypeName.chars (EventTypeName t)) with
  | some t => SetType ev t
  | none =>
    { ev with eventType := EventType.VB_EVENT_OTHER, eventTypeOtherName := eventTypeName }

/-- The last part of `vbevent::SetAttribute`: the first stored attribute whose name
equals `attr`, ignoring case, receives the value; otherwise the pair is appended. -/
def storeAttribute (qt : QtText) (attr : List Char) (value : QString) :
    List (List Char × QString) → List (List Char × QString)
  | [] => [(attr, value)]
  | p :: rest =>
    if compareCI qt p.1 attr then (p.1, value) :: rest
    else p :: storeAttribute qt attr value rest

/-- The body of `vbevent::SetAttribute`; `setSubType` is the result of the call
`SetSubType(value)` made in the branch of the attribute `SubType`, and `toInt` is
`QString::toInt` (`none`: `ok` is false).  The `int` passed to `SetStart` and
`SetEnd` is converted to `uint32_t`. -/
def SetAttributeBody (qt : QtText) (toInt : List Char → Option Int)
    (setSubType : Outcome vbevent) (ev : vbevent) (attributeName : List Char)
    (value : QString) : Outcome vbevent :=
  match MakeAttributeName qt attributeName with
  | none => Outcome.undefined
  | some attr =>
    if compareCI qt attr "Start".toList || compareCI qt attr "Frame".toList then
      Outcome.value
        (match toInt value.chars with
          | some val => SetStart ev (val % 4294967296).toNat
          | none => ev)
    else if compareCI qt attr "End".toList then
      Outcome.value
        (match toInt value.chars with
          | some val => SetEnd ev (val % 4294967296).toNat
          | none => ev)
    else if compareCI qt attr "EventType".toList || compareCI qt attr "Type".toList then
      Outcome.value (SetTypeName qt ev value)
    else if compareCI qt attr "SubType".toList then setSubType
    else if compareCI qt attr "Notes".toList then Outcome.value { ev with notes := value }
    else Outcome.value { ev with attributes := storeAttribute qt attr value ev.attributes }

/-- The method `vbevent::SetAttribute` with a bound on the depth of its recursion
through `SetSubType(value)`, which is `SetAttribute(SubTypeName(), value)`. -/
def SetAttributeWithin (qt : QtText) (toInt : List Char → Option Int) :
    Nat → vbevent → List Char → QString → Outcome vbevent
  | 0, _, _, _ => Outcome.unfinished
  | n + 1, ev, attributeName, value =>
    SetAttributeBody qt toInt
      (match SubTypeName qt ev with
        | none => Outcome.undefined
        | some subtag => SetAttributeWithin qt toInt n ev subtag value)
      ev attributeName value

/-- The method `vbevent::HasBounds`. -/
def HasBounds (ev : vbevent) : Bool :=
  decide (ev.boundsX0 ≠ 0) || decide (ev.boundsX1 ≠ 0) || decide (ev.boundsY0 ≠ 0) ||
    decide (ev.boundsY1 ≠ 0)

/-- The method `vbevent::BoundsSortType`, as the integer value of the enumeration
`EventBoundsSortType`: FULL 0, SPAN 1, LEFT 2, RIGHT 3. -/
def BoundsSortType (ev : vbevent) : Nat :=
  if !ev.HasBounds then 0
  else if ev.boundsX0 < 1 / 2 then (if ev.boundsX1 ≥ 1 / 2 then 1 else 2)
  else 3

/-- The operator `vbevent::operator<`. -/
def operatorLt (self other : vbevent) : Bool :=
  if self.frameStart < other.frameStart then true
  else if self.frameStart > other.frameStart then false
  else if self.BoundsSortType < other.BoundsSortType then true
  else if self.BoundsSortType > other.BoundsSortType then false
  else decide (self.boundsY0 < other.boundsY0)

/-- The method `vbevent::EffectiveConfidence`: the attribute `Confidence` as a
number, 1 when it is empty or does not parse (`toFloat` is taken as the exact
`toDouble` of `QtText`). -/
def EffectiveConfidence (qt : QtText) (ev : vbevent) : Outcome ℚ :=
  match Attribute qt ev "Confidence".toList with
  | Outcome.value confStr =>
    if confStr.chars.isEmpty then Outcome.value 1
    else
      match qt.toDouble confStr.chars with
      | none => Outcome.value 1
      | some conf => Outcome.value conf
  | Outcome.undefined => Outcome.undefined
  | Outcome.unfinished => Outcome.unfinished

end vbevent

/-- A call of one of the four methods of `vbevent` that set the frame range. -/
inductive FrameCall where
  | SetStart (s : Nat)
  | SetEnd (e : Nat)
  | SetStartAndEnd (s e : Nat)
  | SetStartAndEndFrame (f : Nat)

/-- The effect of one such call on an event. -/
def FrameCall.apply (ev : vbevent) : FrameCall → vbevent
  | .SetStart s => ev.SetStart s
  | .SetEnd e => ev.SetEnd e
  | .SetStartAndEnd s e => ev.SetStartAndEnd s e
  | .SetStartAndEndFrame f => ev.SetStartAndEndFrame f

/-- An event of the user-defined type `Sub`, as `SetType("Sub")` leaves a new event. -/
def subEvent : vbevent :=
  { newEvent 1 0 with
    eventType := EventType.VB_EVENT_OTHER, eventTypeOtherName := some "Sub".toList }

/-- Sample integer parser: unsigned decimal integers. -/
def asciiToInt : List Char → Option Int :=
  fun s =>
    if s ≠ [] ∧ s.all Char.isDigit then
      some ((s.foldl (fun n c => 10 * n + (c.toNat - 48)) 0 : Nat) : Int)
    else none

/-! ## vbproject: the events of a frame, and adding an event to the table model -/

/-- The test `filmEvents.contains(key)` of the `QMap`. -/
def mapContains (filmEvents : VBFilmEvents) (key : Nat) : Bool :=
  filmEvents.any (fun p => p.1 == key)

/-- The list `filmEvents[key]` of the `QMap`, empty when the key is absent. -/
def mapValue (filmEvents : VBFilmEvents) (key : Nat) : List vbevent :=
  match filmEvents.find? (fun p => p.1 == key) with
  | some p => p.2
  | none => []

/-- The `QMap` with `filmEvents[key]` replaced by `events`; an absent key is
inserted at its place in the key order. -/
def mapSet (key : Nat) (events : List vbevent) : VBFilmEvents → VBFilmEvents
  | [] => [(key, events)]
  | p :: rest =>
    if key < p.1 then (key, events) :: p :: rest
    else if key = p.1 then (key, events) :: rest
    else p :: mapSet key events rest

/-- The stored events of a project, frame by frame. -/
def storedEvents (filmEvents : VBFilmEvents) : List vbevent :=
  (filmEvents.map (fun p => p.2)).flatten

/-- The method `vbproject::FilmEventsForFrame`; the pointers it returns are
embedded as the events they point to, and `multiFrameEvents` is the list of that
name. -/
def FilmEventsForFrame (filmEvents : VBFilmEvents) (multiFrameEvents : List vbevent)
    (frame : Nat) : List vbevent :=
  let startHere := if mapContains filmEvents frame then mapValue filmEvents frame else []
  let endHere :=
    if decide (frame > 0) && mapContains filmEvents (frame - 1) then
      (mapValue filmEvents (frame - 1)).filter (fun e => decide (e.frameEnd ≥ frame))
    else []
  let base := if frame > 1 then frame - 1 else frame
  let extendHere :=
    multiFrameEvents.filter
      (fun ep => decide (ep.frameStart < base) && decide (ep.frameEnd ≥ frame))
  startHere ++ endHere ++ extendHere

/-- The function `FilmEventsSize`, the row count of the table model. -/
def FilmEventsSize (filmEvents : VBFilmEvents) : Nat :=
  (filmEvents.map (fun p => p.2.length)).sum

/-- The members of `VBFilmEventsTableModel` used by `AddEvent`: the two pointers
`filmEvents` and `trash` (`none`: null) and the confidence threshold. -/
structure VBFilmEventsTableModel where
  filmEvents : Option VBFilmEvents
  trash : Option (List vbevent)
  confidenceThreshold : ℚ

/-- The index at which `AddEvent` inserts an event into a frame's list: the first
index whose element the event is less than, the length when there is none. -/
def insertPosition (event : vbevent) (events : List vbevent) : Nat :=
  events.findIdx (fun x => event.operatorLt x)

/-- The call `QList::insert(idx, event)`. -/
def QList_insert (events : List vbevent) (idx : Nat) (event : vbevent) : List vbevent :=
  events.take idx ++ event :: events.drop idx

/-- The insertion made by `VBFilmEventsTableModel::AddEvent` into the map. -/
def insertEvent (filmEvents : VBFilmEvents) (event : vbevent) : VBFilmEvents :=
  let idx :=
    if mapContains filmEvents event.frameStart then
      insertPosition event (mapValue filmEvents event.frameStart)
    else 0
  mapSet event.frameStart
    (QList_insert (mapValue filmEvents event.frameStart) idx event) filmEvents

/-- The method `VBFilmEventsTableModel::AddEvent` as far as the map and the trash
go (the signals to the views are outside the embedding). -/
def AddEvent (qt : QtText) (m : VBFilmEventsTableModel) (event : vbevent) :
    Outcome VBFilmEventsTableModel :=
  match m.filmEvents with
  | none => Outcome.value m
  | some filmEvents =>
    let added : VBFilmEventsTableModel :=
      { m with filmEvents := some (insertEvent filmEvents event) }
    match m.trash with
    | none => Outcome.value added
    | some trash =>
      match event.EffectiveConfidence qt with
      | Outcome.value conf =>
        if conf < m.confidenceThreshold then
          Outcome.value { m with trash := some (trash ++ [event]) }
        else Outcome.value added
      | Outcome.undefined => Outcome.undefined
      | Outcome.unfinished => Outcome.unfinished

/-- An event on the frames 0 to 2. -/
def threeFrameEvent : vbevent := { newEvent 7 0 with frameEnd := 2 }

/-- A project whose only stored event is `threeFrameEvent`. -/
def oneLongEvent : VBFilmEvents := [(0, [threeFrameEvent])]

/-- A table model on the two-frame project with an empty trash list and the
confidence threshold 1. -/
def twoFrameModel : VBFilmEventsTableModel :=
  { filmEvents := some twoFrameEvents, trash := some [], confidenceThreshold := 1 }

/-- Whether the call `GetBestMatchFromFloatArray(&fullarray[samplesperframe - s_end],
s_end - s_start, s_end, bmatch)` for the window `win = (s_start, s_end)` writes
`bmatch`: the comparison `dArray[iCurrMin] > dArray[i]` holds in some round, after
which `iCurrMin` is not 0 any more. -/
def windowWrites (samplesperframe : Int) (fullarray : Int → ℚ) (win : Int × Int) : Bool :=
  decide
    ((bestMatchReads (fun k => fullarray (samplesperframe - win.2 + k))
      (win.2 - win.1 - 1).toNat).1 ≠ 0)

/-! ## The export sequencer with the exceptions of the frame reader

`MainWindow::Load_Frame_Texture` (src/mainwindow.cpp, lines 969-1047) returns false
when there is no frame window or when the user cancels the request to bring it to
the front.  A frame that cannot be read or decoded does not make it return false:
the reader called through `GetFrameImage` throws `vfbexception`
(src/readframetiff.cpp), and neither `Load_Frame_Texture` nor the methods of the
sequencer catch it.  The definitions of this section carry that third outcome. -/

/-- What a call of `Load_Frame_Texture` does: it returns true, it returns false, or a
`vfbexception` of the frame reader passes through it. -/
inductive LoadResult where
  | returnsTrue
  | returnsFalse
  | throwsException
deriving DecidableEq, Repr

/-- How a call of a method of the sequencer ends: it returns a value (given with the
state of the sequencer), or an exception of the frame reader passes through it,
leaving the sequencer in the state given. -/
inductive CallEnd (α : Type) where
  | returned (a : α)
  | thrown (w : MainWindow)
deriving DecidableEq, Repr

namespace Throwing

/-- The method `MainWindow::EnqueueNextFrame`, with a loader that may throw. -/
def EnqueueNextFrame (Load_Frame_Texture : Int → LoadResult) (w : MainWindow) :
    CallEnd (Bool × MainWindow) :=
  if w.encCurFrame > w.encNumFrames then CallEnd.returned (false, w)
  else
    let framenum := w.encStartFrame + w.encCurFrame
    let loaded := if framenum > w.inFileNumFrames - 1 then framenum - 1 else framenum
    match Load_Frame_Texture loaded with
    | LoadResult.throwsException => CallEnd.thrown w
    | LoadResult.returnsFalse => CallEnd.returned (false, w)
    | LoadResult.returnsTrue =>
      CallEnd.returned
        (true,
          { w with encVideoQueue := w.encVideoQueue ++ [VideoImage.scanned loaded],
                   encAudioLen := w.encAudioLen + w.samplesperframe_file,
                   encCurFrame := w.encCurFrame + 1 })

/-- The statements `p = encVideoQueue.front(); encVideoQueue.pop(); return p;`. -/
def popVideoQueue (w : MainWindow) : Option VideoImage × MainWindow :=
  match w.encVideoQueue with
  | [] => (none, w)
  | p :: rest => (some p, { w with encVideoQueue := rest })

/-- The method `MainWindow::GetVideoFromQueue`, with a loader that may throw. -/
def GetVideoFromQueue (Load_Frame_Texture : Int → LoadResult) (w : MainWindow) :
    CallEnd (Option VideoImage × MainWindow) :=
  if w.encVideoQueue.isEmpty then
    match EnqueueNextFrame Load_Frame_Texture w with
    | CallEnd.thrown w1 => CallEnd.thrown w1
    | CallEnd.returned (false, w1) => CallEnd.returned (none, w1)
    | CallEnd.returned (true, w1) => CallEnd.returned (popVideoQueue w1)
  else CallEnd.returned (popVideoQueue w)

/-- The loop `while (encVideoSkip > 0)` of `MainWindow::get_video_frame`, run for at
most `n` rounds, with a loader that may throw. -/
def skipVideoFrames (Load_Frame_Texture : Int → LoadResult) :
    Nat → MainWindow → CallEnd (Bool × MainWindow)
  | 0, w => CallEnd.returned (true, w)
  | n + 1, w =>
    if w.encVideoSkip > 0 then
      match GetVideoFromQueue Load_Frame_Texture w with
      | CallEnd.thrown w1 => CallEnd.thrown w1
      | CallEnd.returned (none, w1) => CallEnd.returned (false, w1)
      | CallEnd.returned (some _, w1) =>
        skipVideoFrames Load_Frame_Texture n { w1 with encVideoSkip := w1.encVideoSkip - 1 }
    else CallEnd.returned (true, w)

/-- The buffer part of `MainWindow::get_video_frame`, with a loader that may throw. -/
def get_video_frame (Load_Frame_Texture : Int → LoadResult) (w : MainWindow) :
    CallEnd (Option VideoImage × MainWindow) :=
  match skipVideoFrames Load_Frame_Texture w.encVideoSkip.toNat w with
  | CallEnd.thrown w1 => CallEnd.thrown w1
  | CallEnd.returned (false, w1) => CallEnd.returned (none, w1)
  | CallEnd.returned (true, w1) => GetVideoFromQueue Load_Frame_Texture w1

/-- The loop of `GetAudioFromQueue` with a bound on its rounds and a loader that may
throw; `none` when the bound is used up. -/
def enqueueForAudio (Load_Frame_Texture : Int → LoadResult) :
    Nat → MainWindow → Option (CallEnd (Bool × MainWindow))
  | 0, w =>
    if w.encS16Frame.pts + w.encS16Frame.nb_samples > w.encAudioLen then none
    else some (CallEnd.returned (true, w))
  | n + 1, w =>
    if w.encS16Frame.pts + w.encS16Frame.nb_samples > w.encAudioLen then
      match EnqueueNextFrame Load_Frame_Texture w with
      | CallEnd.thrown w1 => some (CallEnd.thrown w1)
      | CallEnd.returned (false, w1) => some (CallEnd.returned (false, w1))
      | CallEnd.returned (true, w1) => enqueueForAudio Load_Frame_Texture n w1
    else some (CallEnd.returned (true, w))

/-- The method `MainWindow::GetAudioFromQueue`, with a loader that may throw.  `none`
would mean that the loop has not ended within `audioLoopBound` rounds. -/
def GetAudioFromQueue (Load_Frame_Texture : Int → LoadResult) (w : MainWindow) :
    Option (CallEnd (AudioResult × MainWindow)) :=
  match enqueueForAudio Load_Frame_Texture (audioLoopBound w) w with
  | none => none
  | some (CallEnd.thrown w1) => some (CallEnd.thrown w1)
  | some (CallEnd.returned (false, w1)) => some (CallEnd.returned (AudioResult.null, w1))
  | some (CallEnd.returned (true, w1)) =>
    let offset := w1.encAudioNextPts - w1.encAudioPad
    if w1.encS16Frame.channels ≠ 2 then some (CallEnd.returned (AudioResult.notStereo, w1))
    else
      let chunk : AudioChunk :=
        { pts := w1.encAudioNextPts, nb_samples := w1.encS16Frame.nb_samples,
          channels := w1.encS16Frame.channels, silent := decide (offset < 0),
          offset := offset }
      some (CallEnd.returned (AudioResult.frame chunk,
        { w1 with encS16Frame := { w1.encS16Frame with pts := w1.encAudioNextPts },
                  encAudioNextPts := w1.encAudioNextPts + w1.encS16Frame.nb_samples }))

end Throwing

/-- The boolean result of a loader on the paths where it returns. -/
def LoadResult.toBool : LoadResult → Bool
  | LoadResult.returnsTrue => true
  | LoadResult.returnsFalse => false
  | LoadResult.throwsException => false

namespace FrameBucketManager

theorem foldl_qsetInsert_of_nodup (t : Int) :
    ∀ (l acc : List Int), (acc ++ l.map (fun o => t + o)).Nodup →
      l.foldl (fun s offset => qsetInsert s (t + offset)) acc = acc ++ l.map (fun o => t + o) := by
  intro l
  induction l with
  | nil => intro acc _; simp
  | cons a l ih =>
    intro acc h
    have hnot : t + a ∉ acc := by
      intro hmem
      have := List.nodup_append.1 h
      exact (List.disjoint_left.1 this.2.2 hmem) (by simp)
    have hins : qsetInsert acc (t + a) = acc ++ [t + a] := by
      simp [qsetInsert, hnot]
    simp only [List.foldl_cons, hins]
    rw [ih (acc ++ [t + a]) (by simpa [List.append_assoc] using h)]
    simp [List.append_assoc]

theorem allPossibleFrameNumbers_eq (h t : Int) :
    allPossibleFrameNumbers h t =
      List.map (fun (k : Nat) => t - h + (k : Int)) (List.range (2 * h + 1).toNat) := by
  unfold allPossibleFrameNumbers
  have hmap : (windowOffsets h).map (fun o => t + o) =
      List.map (fun (k : Nat) => t - h + (k : Int)) (List.range (2 * h + 1).toNat) := by
    simp only [windowOffsets, List.map_map]
    apply List.map_congr_left
    intro k _
    simp only [Function.comp]
    ring
  have hnd : (List.map (fun (k : Nat) => t - h + (k : Int))
      (List.range (2 * h + 1).toNat)).Nodup := by
    apply List.Nodup.map _ (List.nodup_range _)
    intro a b hab
    simpa using hab
  rw [foldl_qsetInsert_of_nodup t (windowOffsets h) [] (by simpa [hmap] using hnd)]
  simpa using hmap

theorem mem_allPossibleFrameNumbers (h t x : Int) :
    x ∈ allPossibleFrameNumbers h t ↔ t - h ≤ x ∧ x ≤ t + h := by
  rw [allPossibleFrameNumbers_eq]
  simp only [List.mem_map, List.mem_range]
  constructor
  · rintro ⟨k, hk, rfl⟩
    omega
  · rintro ⟨h1, h2⟩
    refine ⟨(x - (t - h)).toNat, ?_, ?_⟩ <;> omega

theorem allPossibleFrameNumbers_sorted (h t : Int) :
    (allPossibleFrameNumbers h t).Sorted (· < ·) := by
  rw [allPossibleFrameNumbers_eq]
  unfold List.Sorted
  rw [List.pairwise_map]
  exact (List.pairwise_lt_range _).imp (by intro a b hab; omega)

theorem allPossibleFrameNumbers_length (h t : Int) :
    (allPossibleFrameNumbers h t).length = (2 * h + 1).toNat := by
  rw [allPossibleFrameNumbers_eq]; simp

theorem getNeededFrameNumbers_fst (m : FrameBucketManager) (t : Int) :
    (m.getNeededFrameNumbers t).1 =
      (allPossibleFrameNumbers (Int.tdiv m.bufferCount 2) t).filter (fun possibleFrame =>
        !(m.buffers.any (fun buffer => buffer.frame_number == possibleFrame))) := by
  unfold getNeededFrameNumbers
  apply List.Sorted.insertionSort_eq
  have := (allPossibleFrameNumbers_sorted (Int.tdiv m.bufferCount 2) t).filter
    (fun possibleFrame => !(m.buffers.any (fun buffer => buffer.frame_number == possibleFrame)))
  exact List.Pairwise.imp (fun hab => le_of_lt hab) this

theorem getNeededFrameNumbers_snd (m : FrameBucketManager) (t : Int) :
    (m.getNeededFrameNumbers t).2 =
      (m.buffers.filter (fun buffer =>
        !((allPossibleFrameNumbers (Int.tdiv m.bufferCount 2) t).contains
          buffer.frame_number))).map (fun buffer => buffer.frame_buffer_id) := rfl

theorem addFrameNumberToBuffer_bufferCount (m : FrameBucketManager) (i f : Int) :
    (m.addFrameNumberToBuffer i f).bufferCount = m.bufferCount := by
  unfold addFrameNumberToBuffer
  split
  · split <;> rfl
  · rfl

theorem addFrameNumberToBuffer_length (m : FrameBucketManager) (i f : Int) :
    (m.addFrameNumberToBuffer i f).buffers.length = m.buffers.length := by
  unfold addFrameNumberToBuffer
  split
  · split <;> simp
  · rfl

theorem addFrameNumberToBuffer_ids (m : FrameBucketManager) (i f : Int) :
    (m.addFrameNumberToBuffer i f).buffers.map (fun b => b.frame_buffer_id) =
      m.buffers.map (fun b => b.frame_buffer_id) := by
  unfold addFrameNumberToBuffer
  split
  · split
    · rename_i b hb
      apply List.ext_getElem?
      intro n
      simp only [List.getElem?_map, List.getElem?_set]
      by_cases hn : i.toNat = n
      · subst hn
        simp [hb]
        by_contra h
        simp [List.getElem?_eq_none_iff.2 (Nat.le_of_not_lt h)] at hb
      · simp [hn]
    · rfl
  · rfl

theorem addFrameNumberToBuffer_wellFormed (m : FrameBucketManager) (i f : Int)
    (h : m.WellFormed) : (m.addFrameNumberToBuffer i f).WellFormed := by
  unfold WellFormed at *
  rw [addFrameNumberToBuffer_bufferCount, addFrameNumberToBuffer_length,
    addFrameNumberToBuffer_ids]
  exact h

theorem ctor_wellFormed (n : Nat) : (ctor (n : Int)).WellFormed := by
  unfold WellFormed ctor
  simp [List.map_map, Function.comp]

theorem addFrameNumberToBuffer_frameAt (m : FrameBucketManager) (i f : Int) (j : Nat) :
    (m.addFrameNumberToBuffer i f).frameAt j =
      if 0 ≤ i ∧ i < m.bufferCount ∧ i.toNat = j ∧ j < m.buffers.length then some f
      else m.frameAt j := by
  unfold addFrameNumberToBuffer frameAt
  by_cases hg : 0 ≤ i ∧ i < m.bufferCount
  · rw [if_pos hg]
    cases hb : m.buffers[i.toNat]? with
    | none =>
      have hlen := List.getElem?_eq_none_iff.1 hb
      have : ¬ (0 ≤ i ∧ i < m.bufferCount ∧ i.toNat = j ∧ j < m.buffers.length) := by
        rintro ⟨_, _, h3, h4⟩
        omega
      simp [this]
    | some b =>
      have hlen : i.toNat < m.buffers.length := by
        by_contra hc
        simp [List.getElem?_eq_none_iff.2 (Nat.le_of_not_lt hc)] at hb
      by_cases hj : i.toNat = j
      · subst hj
        simp [hg, hlen]
      · have : ¬ (0 ≤ i ∧ i < m.bufferCount ∧ i.toNat = j ∧ j < m.buffers.length) := by
          rintro ⟨_, _, h3, _⟩
          exact hj h3
        simp [this, List.getElem?_set, hj]
  · rw [if_neg hg]
    have : ¬ (0 ≤ i ∧ i < m.bufferCount ∧ i.toNat = j ∧ j < m.buffers.length) := by
      rintro ⟨h1, h2, _, _⟩
      exact hg ⟨h1, h2⟩
    simp [this]

theorem foldl_add_bufferCount (pairs : List (Int × Int)) :
    ∀ m : FrameBucketManager,
      (pairs.foldl (fun acc p => addFrameNumberToBuffer acc p.1 p.2) m).bufferCount =
        m.bufferCount := by
  induction pairs with
  | nil => intro m; rfl
  | cons p ps ih =>
    intro m
    simp only [List.foldl_cons]
    rw [ih, addFrameNumberToBuffer_bufferCount]

theorem foldl_add_length (pairs : List (Int × Int)) :
    ∀ m : FrameBucketManager,
      (pairs.foldl (fun acc p => addFrameNumberToBuffer acc p.1 p.2) m).buffers.length =
        m.buffers.length := by
  induction pairs with
  | nil => intro m; rfl
  | cons p ps ih =>
    intro m
    simp only [List.foldl_cons]
    rw [ih, addFrameNumberToBuffer_length]

theorem foldl_add_frameAt_of_not_mem (pairs : List (Int × Int)) (j : Nat) :
    ∀ m : FrameBucketManager, (j : Int) ∉ pairs.map Prod.fst →
      (pairs.foldl (fun acc p => addFrameNumberToBuffer acc p.1 p.2) m).frameAt j =
        m.frameAt j := by
  induction pairs with
  | nil => intro m _; rfl
  | cons p ps ih =>
    intro m hj
    simp only [List.map_cons, List.mem_cons, not_or] at hj
    simp only [List.foldl_cons]
    rw [ih _ hj.2, addFrameNumberToBuffer_frameAt]
    have : ¬ (0 ≤ p.1 ∧ p.1 < m.bufferCount ∧ p.1.toNat = j ∧ j < m.buffers.length) := by
      rintro ⟨h1, _, h3, _⟩
      apply hj.1
      omega
    rw [if_neg this]

theorem foldl_add_frameAt_of_mem (pairs : List (Int × Int)) (i f : Int) :
    ∀ m : FrameBucketManager, (pairs.map Prod.fst).Nodup → (i, f) ∈ pairs →
      0 ≤ i → i < m.bufferCount → i.toNat < m.buffers.length →
      (pairs.foldl (fun acc p => addFrameNumberToBuffer acc p.1 p.2) m).frameAt i.toNat =
        some f := by
  induction pairs with
  | nil => intro m _ hmem; simp at hmem
  | cons p ps ih =>
    intro m hnd hmem h0 hlt hlen
    simp only [List.map_cons, List.nodup_cons] at hnd
    simp only [List.foldl_cons]
    rcases List.mem_cons.1 hmem with hp | hps
    · subst hp
      have hnot : ((i.toNat : Nat) : Int) ∉ ps.map Prod.fst := by
        rw [Int.toNat_of_nonneg h0]
        exact hnd.1
      rw [foldl_add_frameAt_of_not_mem ps i.toNat _ hnot, addFrameNumberToBuffer_frameAt]
      simp [h0, hlt, hlen]
    · apply ih _ hnd.2 hps h0
      · rw [addFrameNumberToBuffer_bufferCount]; exact hlt
      · rw [addFrameNumberToBuffer_length]; exact hlen

theorem any_frame_iff_frameAt (m : FrameBucketManager) (p : Int) :
    m.buffers.any (fun buffer => buffer.frame_number == p) = true ↔
      ∃ j, m.frameAt j = some p := by
  simp only [List.any_eq_true, beq_iff_eq, frameAt]
  constructor
  · rintro ⟨b, hb, rfl⟩
    obtain ⟨j, hj⟩ := List.mem_iff_getElem?.1 hb
    exact ⟨j, by simp [hj]⟩
  · rintro ⟨j, hj⟩
    cases hb : m.buffers[j]? with
    | none => simp [hb] at hj
    | some b =>
      simp [hb] at hj
      exact ⟨b, List.mem_iff_getElem?.2 ⟨j, hb⟩, hj⟩

theorem WellFormed.id_eq_index {m : FrameBucketManager} (h : m.WellFormed) {j : Nat}
    {b : FrameBucket} (hb : m.buffers[j]? = some b) : b.frame_buffer_id = (j : Int) := by
  have hlen : j < m.buffers.length := by
    by_contra hc
    simp [List.getElem?_eq_none_iff.2 (Nat.le_of_not_lt hc)] at hb
  have h2 := congrArg (fun l => l[j]?) h.2
  simp only [List.getElem?_map, hb, Option.map_some', List.getElem?_range hlen] at h2
  simpa using h2

theorem exists_zip_of_mem {α β : Type} :
    ∀ (l1 : List α) (l2 : List β), l1.length = l2.length → ∀ w ∈ l2, ∃ i, (i, w) ∈ l1.zip l2 := by
  intro l1
  induction l1 with
  | nil =>
    intro l2 h w hw
    have : l2 = [] := List.length_eq_zero.1 (by simpa using h.symm)
    subst this
    simp at hw
  | cons a l1 ih =>
    intro l2 h w hw
    cases l2 with
    | nil => simp at hw
    | cons b l2 =>
      rcases List.mem_cons.1 hw with rfl | hw2
      · exact ⟨a, by simp⟩
      · obtain ⟨i, hi⟩ := ih l2 (by simpa using h) w hw2
        exact ⟨i, by simp [hi]⟩

theorem getNeededFrameNumbers_lengths (m : FrameBucketManager) (target : Int)
    (hwf : m.WellFormed) (hodd : m.bufferCount % 2 = 1)
    (hdistinct : (m.heldFrames.filter (fun f =>
      decide (target - m.bufferCount / 2 ≤ f ∧ f ≤ target + m.bufferCount / 2))).Nodup) :
    (m.getNeededFrameNumbers target).1.length = (m.getNeededFrameNumbers target).2.length := by
  have hnn : (0 : Int) ≤ m.bufferCount := by rw [hwf.1]; exact Int.natCast_nonneg _
  have hdiv : Int.tdiv m.bufferCount 2 = m.bufferCount / 2 :=
    Int.tdiv_eq_ediv hnn (by decide)
  rw [getNeededFrameNumbers_fst, getNeededFrameNumbers_snd, hdiv, List.length_map]
  set W := allPossibleFrameNumbers (m.bufferCount / 2) target with hW
  have hWlen : W.length = m.buffers.length := by
    rw [hW, allPossibleFrameNumbers_length]
    have := hwf.1
    omega
  have hWnd : W.Nodup := by
    have := allPossibleFrameNumbers_sorted (m.bufferCount / 2) target
    exact this.imp (fun hab => ne_of_lt hab)
  have h1 := List.length_eq_length_filter_add (l := W)
    (fun possibleFrame => m.buffers.any (fun buffer => buffer.frame_number == possibleFrame))
  have h2 := List.length_eq_length_filter_add (l := m.buffers)
    (fun buffer => W.contains buffer.frame_number)
  have hperm : (W.filter (fun possibleFrame =>
        m.buffers.any (fun buffer => buffer.frame_number == possibleFrame))).Perm
      ((m.buffers.filter (fun buffer => W.contains buffer.frame_number)).map
        (fun b => b.frame_number)) := by
    have hmapfilter : (m.buffers.filter (fun buffer => W.contains buffer.frame_number)).map
        (fun b => b.frame_number) =
        m.heldFrames.filter (fun f =>
          decide (target - m.bufferCount / 2 ≤ f ∧ f ≤ target + m.bufferCount / 2)) := by
      unfold heldFrames
      rw [List.filter_map]
      congr 1
      apply List.filter_congr
      intro b _
      rw [Bool.eq_iff_iff]
      simp only [Function.comp, decide_eq_true_eq, List.contains_eq_any_beq, List.any_eq_true,
        beq_iff_eq, hW]
      rw [← mem_allPossibleFrameNumbers]
      constructor
      · rintro ⟨x, hx, rfl⟩
        exact hx
      · intro hx
        exact ⟨_, hx, rfl⟩
    rw [hmapfilter]
    apply (List.perm_ext_iff_of_nodup (hWnd.filter _) hdistinct).2
    intro a
    simp only [List.mem_filter, List.any_eq_true, beq_iff_eq, decide_eq_true_eq, heldFrames,
      List.mem_map, hW, mem_allPossibleFrameNumbers]
    constructor
    · rintro ⟨hw, b, hb, rfl⟩
      exact ⟨⟨b, hb, rfl⟩, hw⟩
    · rintro ⟨⟨b, hb, rfl⟩, hw⟩
      exact ⟨hw, b, hb, rfl⟩
  have h3 := hperm.length_eq
  rw [List.length_map] at h3
  omega

/-- The two hypotheses of `getNeededFrameNumbers_lengths` are also necessary: lists
of equal length occur only with an odd number of slots holding pairwise distinct
window frames. -/
theorem getNeededFrameNumbers_lengths_only_if (m : FrameBucketManager) (target : Int)
    (hwf : m.WellFormed)
    (hlen : (m.getNeededFrameNumbers target).1.length =
      (m.getNeededFrameNumbers target).2.length) :
    m.bufferCount % 2 = 1 ∧
    (m.heldFrames.filter (fun f =>
      decide (target - m.bufferCount / 2 ≤ f ∧ f ≤ target + m.bufferCount / 2))).Nodup := by
  have hnn : (0 : Int) ≤ m.bufferCount := by rw [hwf.1]; exact Int.natCast_nonneg _
  have hdiv : Int.tdiv m.bufferCount 2 = m.bufferCount / 2 :=
    Int.tdiv_eq_ediv hnn (by decide)
  rw [getNeededFrameNumbers_fst, getNeededFrameNumbers_snd, hdiv, List.length_map] at hlen
  set W := allPossibleFrameNumbers (m.bufferCount / 2) target with hW
  have hWlen : W.length = (2 * (m.bufferCount / 2) + 1).toNat := by
    rw [hW, allPossibleFrameNumbers_length]
  have hWnd : W.Nodup := by
    have := allPossibleFrameNumbers_sorted (m.bufferCount / 2) target
    exact this.imp (fun hab => ne_of_lt hab)
  have h1 := List.length_eq_length_filter_add (l := W)
    (fun possibleFrame => m.buffers.any (fun buffer => buffer.frame_number == possibleFrame))
  have h2 := List.length_eq_length_filter_add (l := m.buffers)
    (fun buffer => W.contains buffer.frame_number)
  have hmapfilter : (m.buffers.filter (fun buffer => W.contains buffer.frame_number)).map
      (fun b => b.frame_number) =
      m.heldFrames.filter (fun f =>
        decide (target - m.bufferCount / 2 ≤ f ∧ f ≤ target + m.bufferCount / 2)) := by
    unfold heldFrames
    rw [List.filter_map]
    congr 1
    apply List.filter_congr
    intro b _
    rw [Bool.eq_iff_iff]
    simp only [Function.comp, decide_eq_true_eq, List.contains_eq_any_beq, List.any_eq_true,
      beq_iff_eq, hW]
    rw [← mem_allPossibleFrameNumbers]
    constructor
    · rintro ⟨x, hx, rfl⟩
      exact hx
    · intro hx
      exact ⟨_, hx, rfl⟩
  have hsub : (W.filter (fun possibleFrame =>
        m.buffers.any (fun buffer => buffer.frame_number == possibleFrame))).Subperm
      ((m.buffers.filter (fun buffer => W.contains buffer.frame_number)).map
        (fun b => b.frame_number)) := by
    apply List.subperm_of_subset (hWnd.filter _)
    intro a ha
    rw [hmapfilter]
    simp only [List.mem_filter, List.any_eq_true, beq_iff_eq, decide_eq_true_eq, heldFrames,
      List.mem_map, hW, mem_allPossibleFrameNumbers] at ha ⊢
    obtain ⟨hw, b, hb, rfl⟩ := ha
    exact ⟨⟨b, hb, rfl⟩, hw⟩
  have hle := hsub.length_le
  rw [List.length_map] at hle
  have hbc := hwf.1
  have hge : m.buffers.length ≤ W.length := by omega
  have heq : ((m.buffers.filter (fun buffer => W.contains buffer.frame_number)).map
      (fun b => b.frame_number)).length ≤
      (W.filter (fun possibleFrame =>
        m.buffers.any (fun buffer => buffer.frame_number == possibleFrame))).length := by
    rw [List.length_map]
    omega
  refine ⟨by omega, ?_⟩
  rw [← hmapfilter]
  exact (hsub.perm_of_length_le heq).nodup_iff.1 (hWnd.filter _)

theorem getNeededFrameNumbers_snd_nodup (m : FrameBucketManager) (target : Int)
    (hwf : m.WellFormed) : (m.getNeededFrameNumbers target).2.Nodup := by
  rw [getNeededFrameNumbers_snd]
  have hsub : ((m.buffers.filter (fun buffer =>
      !((allPossibleFrameNumbers (Int.tdiv m.bufferCount 2) target).contains
        buffer.frame_number))).map (fun buffer => buffer.frame_buffer_id)).Sublist
      (m.buffers.map (fun buffer => buffer.frame_buffer_id)) :=
    (List.filter_sublist _).map _
  apply List.Nodup.sublist hsub
  rw [hwf.2]
  apply List.Nodup.map _ (List.nodup_range _)
  intro a b hab
  simpa using hab

theorem mem_getNeededFrameNumbers_snd (m : FrameBucketManager) (target i : Int)
    (hwf : m.WellFormed) (hi : i ∈ (m.getNeededFrameNumbers target).2) :
    ∃ j : Nat, i = (j : Int) ∧ j < m.buffers.length ∧
      ∃ b, m.buffers[j]? = some b ∧
        b.frame_number ∉ allPossibleFrameNumbers (Int.tdiv m.bufferCount 2) target := by
  rw [getNeededFrameNumbers_snd] at hi
  simp only [List.mem_map, List.mem_filter, Bool.not_eq_true', List.contains_eq_any_beq,
    List.any_eq_false, beq_iff_eq] at hi
  obtain ⟨b, ⟨hb, hout⟩, rfl⟩ := hi
  obtain ⟨j, hj⟩ := List.mem_iff_getElem?.1 hb
  have hlen : j < m.buffers.length := by
    by_contra hc
    simp [List.getElem?_eq_none_iff.2 (Nat.le_of_not_lt hc)] at hj
  exact ⟨j, hwf.id_eq_index hj, hlen, b, hj, fun hmem => hout _ hmem rfl⟩

theorem assignPairs_fills_window (m : FrameBucketManager) (target : Int) (hwf : m.WellFormed)
    (hlen : (m.getNeededFrameNumbers target).1.length =
      (m.getNeededFrameNumbers target).2.length) :
    ((m.assignPairs (m.getNeededFrameNumbers target).1
      (m.getNeededFrameNumbers target).2).getNeededFrameNumbers target).1 = [] := by
  have hfst : ((m.getNeededFrameNumbers target).2.zip (m.getNeededFrameNumbers target).1).map
      Prod.fst = (m.getNeededFrameNumbers target).2 :=
    List.map_fst_zip _ _ (le_of_eq hlen.symm)
  rw [getNeededFrameNumbers_fst]
  unfold assignPairs
  rw [foldl_add_bufferCount, List.filter_eq_nil_iff]
  intro a ha
  simp only [Bool.not_eq_true', Bool.not_eq_false]
  rw [any_frame_iff_frameAt]
  by_cases hheld : m.buffers.any (fun buffer => buffer.frame_number == a) = true
  · obtain ⟨j, hj⟩ := (any_frame_iff_frameAt m a).1 hheld
    refine ⟨j, ?_⟩
    rw [foldl_add_frameAt_of_not_mem _ j m, hj]
    rw [hfst]
    intro hmem
    obtain ⟨j2, hj2, _, b, hb, hout⟩ := mem_getNeededFrameNumbers_snd m target _ hwf hmem
    have hjj : j = j2 := by exact_mod_cast hj2
    subst hjj
    simp only [frameAt, hb, Option.map_some', Option.some.injEq] at hj
    rw [hj] at hout
    exact hout ha
  · have hmiss : a ∈ (m.getNeededFrameNumbers target).1 := by
      rw [getNeededFrameNumbers_fst]
      simp only [List.mem_filter, Bool.not_eq_true']
      exact ⟨ha, by simpa using hheld⟩
    obtain ⟨i, hi⟩ := exists_zip_of_mem _ _ hlen.symm a hmiss
    have hi2 := (List.of_mem_zip hi).1
    obtain ⟨j, hj, hjlen, _⟩ := mem_getNeededFrameNumbers_snd m target i hwf hi2
    refine ⟨i.toNat, ?_⟩
    apply foldl_add_frameAt_of_mem _ i a m _ hi
    · omega
    · rw [hwf.1]; omega
    · omega
    · rw [hfst]
      exact getNeededFrameNumbers_snd_nodup m target hwf

end FrameBucketManager

/-- C1, refuted as stated: five slots all holding frame 10 give, for target 10,
four missing frames and no reusable slot, and nothing can be assigned, so the
recomputed missing list is not empty; four empty slots give five missing frames
for four reusable slots. -/
theorem getNeededFrameNumbers_unequal_lengths :
    (fiveSlotsHolding10.WellFormed ∧
      fiveSlotsHolding10.getNeededFrameNumbers 10 = ([8, 9, 11, 12], []) ∧
      ((fiveSlotsHolding10.assignPairs (fiveSlotsHolding10.getNeededFrameNumbers 10).1
        (fiveSlotsHolding10.getNeededFrameNumbers 10).2).getNeededFrameNumbers 10).1 ≠ []) ∧
    (FrameBucketManager.ctor 4).getNeededFrameNumbers 10 = ([8, 9, 10, 11, 12], [0, 1, 2, 3]) := by
  decide

/-- C1, as amended: with an odd number of slots, no two of which hold the same
frame number of the window (slots holding values outside the window, such as the
empty value -10, may repeat), the two lists returned for the target have equal
length, and once `missing[i]` is recorded in slot `reusable[i]` for every pair the
missing list recomputed for the same target is empty. -/
theorem getNeededFrameNumbers_pairs_fill_window (m : FrameBucketManager) (target : Int)
    (hwf : m.WellFormed) (hodd : m.bufferCount % 2 = 1)
    (hdistinct : (m.heldFrames.filter (fun f =>
      decide (target - m.bufferCount / 2 ≤ f ∧ f ≤ target + m.bufferCount / 2))).Nodup) :
    (m.getNeededFrameNumbers target).1.length = (m.getNeededFrameNumbers target).2.length ∧
    ((m.assignPairs (m.getNeededFrameNumbers target).1
      (m.getNeededFrameNumbers target).2).getNeededFrameNumbers target).1 = [] :=
  ⟨FrameBucketManager.getNeededFrameNumbers_lengths m target hwf hodd hdistinct,
    FrameBucketManager.assignPairs_fills_window m target hwf
      (FrameBucketManager.getNeededFrameNumbers_lengths m target hwf hodd hdistinct)⟩

/-- Instance of the amended C1: slots holding 8, 9, 10, -10, -10 and target 10. -/
theorem getNeededFrameNumbers_pairs_fill_window_witness :
    (fiveSlotsPartlyLoaded.WellFormed ∧ fiveSlotsPartlyLoaded.bufferCount % 2 = 1 ∧
      (fiveSlotsPartlyLoaded.heldFrames.filter (fun f =>
        decide (10 - fiveSlotsPartlyLoaded.bufferCount / 2 ≤ f ∧
          f ≤ 10 + fiveSlotsPartlyLoaded.bufferCount / 2))).Nodup) ∧
    ((fiveSlotsPartlyLoaded.getNeededFrameNumbers 10).1.length =
        (fiveSlotsPartlyLoaded.getNeededFrameNumbers 10).2.length ∧
      ((fiveSlotsPartlyLoaded.assignPairs (fiveSlotsPartlyLoaded.getNeededFrameNumbers 10).1
        (fiveSlotsPartlyLoaded.getNeededFrameNumbers 10).2).getNeededFrameNumbers 10).1 = []) :=
  ⟨by decide, getNeededFrameNumbers_pairs_fill_window fiveSlotsPartlyLoaded 10
    (by decide) (by decide) (by decide)⟩

/-- C2: with `N` slots the missing list is exactly the frame numbers of the window
`[target - N/2, target + N/2]` held by no slot, strictly ascending, and the
reusable list is exactly the ids of the slots holding a frame number outside the
window; five empty slots and target 10 give `[8,9,10,11,12]` and all five ids. -/
theorem getNeededFrameNumbers_window :
    (∀ (m : FrameBucketManager) (N : Nat) (target : Int), m.bufferCount = (N : Int) →
      (∀ f, f ∈ (m.getNeededFrameNumbers target).1 ↔
        (target - ((N / 2 : Nat) : Int) ≤ f ∧ f ≤ target + ((N / 2 : Nat) : Int) ∧
          ∀ b ∈ m.buffers, b.frame_number ≠ f)) ∧
      (m.getNeededFrameNumbers target).1.Sorted (· < ·) ∧
      (m.getNeededFrameNumbers target).2 =
        (m.buffers.filter (fun b =>
          decide (b.frame_number < target - ((N / 2 : Nat) : Int) ∨
            target + ((N / 2 : Nat) : Int) < b.frame_number))).map
          (fun b => b.frame_buffer_id)) ∧
    (FrameBucketManager.ctor 5).getNeededFrameNumbers 10 = ([8, 9, 10, 11, 12], [0, 1, 2, 3, 4]) := by
  refine ⟨?_, by decide⟩
  intro m N target hN
  have hdiv : Int.tdiv m.bufferCount 2 = ((N / 2 : Nat) : Int) := by
    rw [hN]; simp [Int.tdiv]
  refine ⟨?_, ?_, ?_⟩
  · intro f
    rw [FrameBucketManager.getNeededFrameNumbers_fst, hdiv]
    simp only [List.mem_filter, FrameBucketManager.mem_allPossibleFrameNumbers, Bool.not_eq_true',
      List.any_eq_false, beq_iff_eq]
    constructor
    · rintro ⟨⟨h1, h2⟩, h3⟩
      exact ⟨h1, h2, fun b hb => by simpa using h3 b hb⟩
    · rintro ⟨h1, h2, h3⟩
      exact ⟨⟨h1, h2⟩, fun b hb => by simpa using h3 b hb⟩
  · rw [FrameBucketManager.getNeededFrameNumbers_fst]
    exact (FrameBucketManager.allPossibleFrameNumbers_sorted _ _).filter _
  · rw [FrameBucketManager.getNeededFrameNumbers_snd, hdiv]
    congr 1
    apply List.filter_congr
    intro b _
    have hmem := FrameBucketManager.mem_allPossibleFrameNumbers ((N / 2 : Nat) : Int) target
      b.frame_number
    rw [Bool.eq_iff_iff]
    simp only [Bool.not_eq_true', decide_eq_true_eq, List.contains_eq_any_beq, List.any_eq_false,
      beq_iff_eq]
    constructor
    · intro h
      by_contra hc
      exact h _ (hmem.2 ⟨by omega, by omega⟩) rfl
    · intro h x hx heq
      have := hmem.1 (heq ▸ hx)
      omega

/-- Instance of C2 at five slots holding 8, 9, 10 and two empty values, target 10. -/
theorem getNeededFrameNumbers_window_witness :
    fiveSlotsPartlyLoaded.bufferCount = ((5 : Nat) : Int) ∧
    ((∀ f, f ∈ (fiveSlotsPartlyLoaded.getNeededFrameNumbers 10).1 ↔
        (10 - ((5 / 2 : Nat) : Int) ≤ f ∧ f ≤ 10 + ((5 / 2 : Nat) : Int) ∧
          ∀ b ∈ fiveSlotsPartlyLoaded.buffers, b.frame_number ≠ f)) ∧
      (fiveSlotsPartlyLoaded.getNeededFrameNumbers 10).1.Sorted (· < ·) ∧
      (fiveSlotsPartlyLoaded.getNeededFrameNumbers 10).2 =
        (fiveSlotsPartlyLoaded.buffers.filter (fun b =>
          decide (b.frame_number < 10 - ((5 / 2 : Nat) : Int) ∨
            10 + ((5 / 2 : Nat) : Int) < b.frame_number))).map
          (fun b => b.frame_buffer_id)) :=
  ⟨by decide, getNeededFrameNumbers_window.1 fiveSlotsPartlyLoaded 5 10 (by decide)⟩

/-! ## Properties of the export sequencer -/

/-- C3: for every frame offset `d`, a positive `d` gives `encVideoSkip = d` and the
other three offsets 0; `d <= 0` gives `encAudioSkip = |d| * samplesperframe_file` and
the other three 0; so 0 gives four zeros, +3 gives `encVideoSkip = 3`, -3 gives
`encAudioSkip = 3 * samplesperframe_file`. -/
theorem MuxMain_stream_offsets (w : MainWindow) (tmp_frame : AVFrame)
    (startFrame numFrames d : Int) :
    (0 < d →
      (MuxMain w tmp_frame startFrame numFrames d).encVideoSkip = d ∧
      (MuxMain w tmp_frame startFrame numFrames d).encAudioSkip = 0 ∧
      (MuxMain w tmp_frame startFrame numFrames d).encVideoPad = 0 ∧
      (MuxMain w tmp_frame startFrame numFrames d).encAudioPad = 0) ∧
    (d ≤ 0 →
      (MuxMain w tmp_frame startFrame numFrames d).encAudioSkip = |d| * w.samplesperframe_file ∧
      (MuxMain w tmp_frame startFrame numFrames d).encVideoSkip = 0 ∧
      (MuxMain w tmp_frame startFrame numFrames d).encVideoPad = 0 ∧
      (MuxMain w tmp_frame startFrame numFrames d).encAudioPad = 0) ∧
    ((MuxMain w tmp_frame startFrame numFrames 0).encVideoSkip = 0 ∧
      (MuxMain w tmp_frame startFrame numFrames 0).encAudioSkip = 0 ∧
      (MuxMain w tmp_frame startFrame numFrames 0).encVideoPad = 0 ∧
      (MuxMain w tmp_frame startFrame numFrames 0).encAudioPad = 0) ∧
    ((MuxMain w tmp_frame startFrame numFrames 3).encVideoSkip = 3 ∧
      (MuxMain w tmp_frame startFrame numFrames 3).encAudioSkip = 0 ∧
      (MuxMain w tmp_frame startFrame numFrames 3).encVideoPad = 0 ∧
      (MuxMain w tmp_frame startFrame numFrames 3).encAudioPad = 0) ∧
    ((MuxMain w tmp_frame startFrame numFrames (-3)).encAudioSkip = 3 * w.samplesperframe_file ∧
      (MuxMain w tmp_frame startFrame numFrames (-3)).encVideoSkip = 0 ∧
      (MuxMain w tmp_frame startFrame numFrames (-3)).encVideoPad = 0 ∧
      (MuxMain w tmp_frame startFrame numFrames (-3)).encAudioPad = 0) := by
  refine ⟨?_, ?_, ?_, ?_, ?_⟩
  · intro hd
    simp [MuxMain, hd]
  · intro hd
    have hneg : ¬ (d > 0) := not_lt.2 hd
    simp [MuxMain, hneg, abs_of_nonpos hd]
  · simp [MuxMain]
  · simp [MuxMain]
  · simp [MuxMain]

/-- Instances of C3 on the fresh window: offsets +3 and -3. -/
theorem MuxMain_stream_offsets_witness :
    ((0 : Int) < 3 ∧
      (MuxMain freshMainWindow stereoFrame1024 0 10 3).encVideoSkip = 3 ∧
      (MuxMain freshMainWindow stereoFrame1024 0 10 3).encAudioSkip = 0 ∧
      (MuxMain freshMainWindow stereoFrame1024 0 10 3).encVideoPad = 0 ∧
      (MuxMain freshMainWindow stereoFrame1024 0 10 3).encAudioPad = 0) ∧
    ((-3 : Int) ≤ 0 ∧
      (MuxMain freshMainWindow stereoFrame1024 0 10 (-3)).encAudioSkip =
        |(-3 : Int)| * freshMainWindow.samplesperframe_file ∧
      (MuxMain freshMainWindow stereoFrame1024 0 10 (-3)).encVideoSkip = 0 ∧
      (MuxMain freshMainWindow stereoFrame1024 0 10 (-3)).encVideoPad = 0 ∧
      (MuxMain freshMainWindow stereoFrame1024 0 10 (-3)).encAudioPad = 0) :=
  ⟨⟨by decide, (MuxMain_stream_offsets freshMainWindow stereoFrame1024 0 10 3).1 (by decide)⟩,
    ⟨by decide,
      (MuxMain_stream_offsets freshMainWindow stereoFrame1024 0 10 (-3)).2.1 (by decide)⟩⟩

/-- C4, refuted as stated: with frame offset 0 neither skip quantity is non-zero. -/
theorem MuxMain_offset_zero_skips_nothing :
    ¬ (((MuxMain freshMainWindow stereoFrame1024 0 10 0).encVideoSkip ≠ 0 ∧
        (MuxMain freshMainWindow stereoFrame1024 0 10 0).encAudioSkip = 0) ∨
      ((MuxMain freshMainWindow stereoFrame1024 0 10 0).encVideoSkip = 0 ∧
        (MuxMain freshMainWindow stereoFrame1024 0 10 0).encAudioSkip ≠ 0)) := by
  decide

/-- C4, as amended: for every frame offset the two skip quantities are never both
non-zero; exactly one of them is non-zero when the offset is non-zero (and
`samplesperframe_file` is non-zero); with offset 0 both are zero. -/
theorem MuxMain_skip_exclusive (w : MainWindow) (tmp_frame : AVFrame)
    (startFrame numFrames d : Int) :
    ¬ ((MuxMain w tmp_frame startFrame numFrames d).encVideoSkip ≠ 0 ∧
      (MuxMain w tmp_frame startFrame numFrames d).encAudioSkip ≠ 0) ∧
    (d ≠ 0 → w.samplesperframe_file ≠ 0 →
      (((MuxMain w tmp_frame startFrame numFrames d).encVideoSkip ≠ 0 ∧
          (MuxMain w tmp_frame startFrame numFrames d).encAudioSkip = 0) ∨
        ((MuxMain w tmp_frame startFrame numFrames d).encVideoSkip = 0 ∧
          (MuxMain w tmp_frame startFrame numFrames d).encAudioSkip ≠ 0))) ∧
    (d = 0 →
      (MuxMain w tmp_frame startFrame numFrames d).encVideoSkip = 0 ∧
      (MuxMain w tmp_frame startFrame numFrames d).encAudioSkip = 0) := by
  by_cases hd : d > 0
  · have hne : d ≠ 0 := ne_of_gt hd
    simp [MuxMain, hd, hne]
  · refine ⟨?_, ?_, ?_⟩
    · simp [MuxMain, hd]
    · intro hne hS
      right
      simp [MuxMain, hd, hne, hS]
    · intro h0
      simp [MuxMain, h0]

/-- Instance of the amended C4 on the fresh window with offset -3. -/
theorem MuxMain_skip_exclusive_witness :
    ((-3 : Int) ≠ 0 ∧ freshMainWindow.samplesperframe_file ≠ 0) ∧
    (((MuxMain freshMainWindow stereoFrame1024 0 10 (-3)).encVideoSkip ≠ 0 ∧
        (MuxMain freshMainWindow stereoFrame1024 0 10 (-3)).encAudioSkip = 0) ∨
      ((MuxMain freshMainWindow stereoFrame1024 0 10 (-3)).encVideoSkip = 0 ∧
        (MuxMain freshMainWindow stereoFrame1024 0 10 (-3)).encAudioSkip ≠ 0)) :=
  ⟨by decide,
    (MuxMain_skip_exclusive freshMainWindow stereoFrame1024 0 10 (-3)).2.1
      (by decide) (by decide)⟩

/-! ## Properties of `render` -/

theorem renderOverlapSearch_capture_fields (w : Frame_Window) (inp : RenderInput) :
    (renderOverlapSearch w inp).samplepointer = w.samplepointer ∧
    (renderOverlapSearch w inp).samplesperframe_file = w.samplesperframe_file ∧
    (renderOverlapSearch w inp).is_rendering = w.is_rendering ∧
    (renderOverlapSearch w inp).new_frame = w.new_frame ∧
    (renderOverlapSearch w inp).FileRealBuffer = w.FileRealBuffer := by
  unfold renderOverlapSearch
  simp only []
  split <;> exact ⟨rfl, rfl, rfl, rfl, rfl⟩

theorem renderVBench_capture_fields (w : Frame_Window) :
    (renderVBench w).samplepointer = w.samplepointer ∧
    (renderVBench w).samplesperframe_file = w.samplesperframe_file ∧
    (renderVBench w).is_rendering = w.is_rendering ∧
    (renderVBench w).new_frame = w.new_frame ∧
    (renderVBench w).FileRealBuffer = w.FileRealBuffer := by
  unfold renderVBench
  split <;> exact ⟨rfl, rfl, rfl, rfl, rfl⟩

theorem render_samplesperframe_file (w : Frame_Window) (inp : RenderInput) :
    (render w inp).samplesperframe_file = w.samplesperframe_file := by
  obtain ⟨_, h2, _, _, _⟩ := renderOverlapSearch_capture_fields w inp
  obtain ⟨_, g2, _, _, _⟩ := renderVBench_capture_fields (renderOverlapSearch w inp)
  show (renderFileAudio (renderVBench (renderOverlapSearch w inp)) inp).samplesperframe_file = _
  unfold renderFileAudio
  split
  · exact g2.trans h2
  · exact g2.trans h2

theorem render_samplepointer (w : Frame_Window) (inp : RenderInput) :
    (render w inp).samplepointer =
      if (w.is_rendering && w.new_frame) = true then w.samplepointer + w.samplesperframe_file
      else w.samplepointer := by
  obtain ⟨h1, h2, h3, h4, _⟩ := renderOverlapSearch_capture_fields w inp
  obtain ⟨g1, g2, g3, g4, _⟩ := renderVBench_capture_fields (renderOverlapSearch w inp)
  show (renderFileAudio (renderVBench (renderOverlapSearch w inp)) inp).samplepointer = _
  unfold renderFileAudio
  rw [g3, g4, h3, h4]
  split
  · show (renderVBench (renderOverlapSearch w inp)).samplepointer +
      (renderVBench (renderOverlapSearch w inp)).samplesperframe_file = _
    rw [g1, g2, h1, h2]
  · rw [g1, h1]

theorem render_FileRealBuffer (w : Frame_Window) (inp : RenderInput) :
    (render w inp).FileRealBuffer =
      if (w.is_rendering && w.new_frame) = true then
        fun c =>
          if c = 0 then
            glReadPixelsColumn (w.FileRealBuffer 0) w.samplepointer w.samplesperframe_file
              (inp.filePixels 0)
          else if c = 1 then
            glReadPixelsColumn (w.FileRealBuffer 1) w.samplepointer w.samplesperframe_file
              (inp.filePixels 1)
          else w.FileRealBuffer c
      else w.FileRealBuffer := by
  obtain ⟨h1, h2, h3, h4, h5⟩ := renderOverlapSearch_capture_fields w inp
  obtain ⟨g1, g2, g3, g4, g5⟩ := renderVBench_capture_fields (renderOverlapSearch w inp)
  show (renderFileAudio (renderVBench (renderOverlapSearch w inp)) inp).FileRealBuffer = _
  unfold renderFileAudio
  rw [g3, g4, h3, h4]
  split
  · show (fun c => _) = _
    rw [g1, g2, g5, h1, h2, h5]
  · rw [g5, h5]

theorem apply_samplesperframe_file (w : Frame_Window) (c : WindowCall) :
    (WindowCall.apply w c).samplesperframe_file = w.samplesperframe_file := by
  cases c with
  | renderNow inp => exact render_samplesperframe_file w inp
  | _ => rfl

theorem runCalls_samplepointer (calls : List WindowCall) :
    ∀ w : Frame_Window,
      (runCalls w calls).samplesperframe_file = w.samplesperframe_file ∧
      (runCalls w calls).samplepointer =
        w.samplepointer + (capturingRenders w calls : Int) * w.samplesperframe_file := by
  induction calls with
  | nil => intro w; simp [runCalls, capturingRenders]
  | cons c cs ih =>
    intro w
    have hstep := ih (WindowCall.apply w c)
    have hS := apply_samplesperframe_file w c
    unfold runCalls at hstep ⊢
    simp only [List.foldl_cons, capturingRenders]
    refine ⟨hstep.1.trans hS, ?_⟩
    rw [hstep.2, hS]
    cases c with
    | renderNow inp =>
      show (render w inp).samplepointer + _ = _
      rw [render_samplepointer]
      by_cases hb : (w.is_rendering && w.new_frame) = true
      · simp only [hb, if_true]
        push_cast
        ring
      · simp only [hb, if_false]
        push_cast
        ring
    | loadTexture => simp [WindowCall.apply, load_frame_texture]
    | setRendering b => simp [WindowCall.apply]
    | setCalc b => simp [WindowCall.apply]
    | setOverride v => simp [WindowCall.apply]

/-- C5: a render that starts with `is_rendering` and `new_frame` set writes, for each
of the two channels, the block of `samplesperframe_file` samples starting at the
cursor, changes nothing else in the buffer and advances the cursor by
`samplesperframe_file`, whatever the search measured; a render with either flag
clear leaves cursor and buffer unchanged; so after any sequence of calls following
`PrepareRecording` the cursor is `K * samplesperframe_file`, `K` being the number of
renders that started with both flags set. -/
theorem render_cursor_cadence :
    (∀ (w : Frame_Window) (inp : RenderInput), w.is_rendering = true → w.new_frame = true →
      (render w inp).samplepointer = w.samplepointer + w.samplesperframe_file ∧
      (∀ c : Int, c = 0 ∨ c = 1 → ∀ k : Int, 0 ≤ k → k < w.samplesperframe_file →
        (render w inp).FileRealBuffer c (w.samplepointer + k) = inp.filePixels c k) ∧
      (∀ c k : Int, ¬ (w.samplepointer ≤ k ∧ k < w.samplepointer + w.samplesperframe_file) →
        (render w inp).FileRealBuffer c k = w.FileRealBuffer c k)) ∧
    (∀ (w : Frame_Window) (inp : RenderInput), w.is_rendering = false ∨ w.new_frame = false →
      (render w inp).samplepointer = w.samplepointer ∧
      (render w inp).FileRealBuffer = w.FileRealBuffer) ∧
    (∀ (w : Frame_Window) (fresh : Int → Int → ℚ) (calls : List WindowCall),
      (runCalls (PrepareRecording w fresh) calls).samplepointer =
        (capturingRenders (PrepareRecording w fresh) calls : Int) * w.samplesperframe_file) := by
  refine ⟨?_, ?_, ?_⟩
  · intro w inp hr hn
    have hb : (w.is_rendering && w.new_frame) = true := by simp [hr, hn]
    rw [render_samplepointer, render_FileRealBuffer]
    simp only [hb, if_true]
    refine ⟨trivial, ?_, ?_⟩
    · intro c hc k hk0 hk1
      rcases hc with rfl | rfl
      · have : w.samplepointer ≤ w.samplepointer + k ∧
            w.samplepointer + k < w.samplepointer + w.samplesperframe_file := by omega
        simp [glReadPixelsColumn, this]
      · have : w.samplepointer ≤ w.samplepointer + k ∧
            w.samplepointer + k < w.samplepointer + w.samplesperframe_file := by omega
        simp [glReadPixelsColumn, this]
    · intro c k hout
      by_cases h0 : c = 0
      · subst h0
        simp [glReadPixelsColumn, hout]
      · by_cases h1 : c = 1
        · subst h1
          simp [glReadPixelsColumn, hout]
        · simp [h0, h1]
  · intro w inp hflag
    have hb : ¬ ((w.is_rendering && w.new_frame) = true) := by
      rcases hflag with h | h <;> simp [h]
    rw [render_samplepointer, render_FileRealBuffer, if_neg hb, if_neg hb]
    exact ⟨rfl, rfl⟩
  · intro w fresh calls
    have h := (runCalls_samplepointer calls (PrepareRecording w fresh)).2
    rw [h]
    simp [PrepareRecording]

/-- Instance of C5: one capturing render of the fresh window moves the cursor from 0
to 2000 and stores the frame's samples there; a second render without a new frame
leaves it at 2000. -/
theorem render_cursor_cadence_witness :
    (windowCapturing.is_rendering = true ∧ windowCapturing.new_frame = true ∧
      (render windowCapturing sampleRenderInput).samplepointer =
        windowCapturing.samplepointer + windowCapturing.samplesperframe_file ∧
      (render windowCapturing sampleRenderInput).FileRealBuffer 1 (windowCapturing.samplepointer + 7)
        = sampleRenderInput.filePixels 1 7) ∧
    ((render windowCapturing sampleRenderInput).new_frame = false ∧
      (render (render windowCapturing sampleRenderInput) sampleRenderInput).samplepointer =
        (render windowCapturing sampleRenderInput).samplepointer) :=
  ⟨⟨rfl, rfl,
      (render_cursor_cadence.1 windowCapturing sampleRenderInput rfl rfl).1,
      (render_cursor_cadence.1 windowCapturing sampleRenderInput rfl rfl).2.1 1 (Or.inr rfl) 7
        (by decide) (by decide)⟩,
    ⟨rfl,
      (render_cursor_cadence.2.1 (render windowCapturing sampleRenderInput) sampleRenderInput
        (Or.inr rfl)).1⟩⟩

theorem render_search_fields (w : Frame_Window) (inp : RenderInput) :
    (render w inp).bestmatch = (renderOverlapSearch w inp).bestmatch ∧
    (render w inp).match_array = (renderOverlapSearch w inp).match_array ∧
    (render w inp).overlap0 = (renderOverlapSearch w inp).overlap0 ∧
    (render w inp).lowloc = (renderOverlapSearch w inp).lowloc := by
  show (renderFileAudio (renderVBench (renderOverlapSearch w inp)) inp).bestmatch = _ ∧
    (renderFileAudio (renderVBench (renderOverlapSearch w inp)) inp).match_array = _ ∧
    (renderFileAudio (renderVBench (renderOverlapSearch w inp)) inp).overlap0 = _ ∧
    (renderFileAudio (renderVBench (renderOverlapSearch w inp)) inp).lowloc = _
  unfold renderFileAudio renderVBench
  split <;> split <;> exact ⟨rfl, rfl, rfl, rfl⟩

theorem foldl_searchPass_apply (spf : Int) (fullarray : Int → ℚ) (s_size s_mid : Int)
    (ma : Fin 5 → overlap_match) (idx : Fin 5) :
    ((List.finRange 5).foldl (searchPass spf fullarray s_size s_mid) ma) idx =
      passResult spf fullarray s_size s_mid idx (ma idx) := by
  have h5 : List.finRange 5 = [0, 1, 2, 3, 4] := by decide
  rw [h5]
  simp only [List.foldl_cons, List.foldl_nil, searchPass]
  fin_cases idx <;> simp [Function.update]

theorem renderOverlapSearch_selection (w : Frame_Window) (inp : RenderInput) :
    (renderOverlapSearch w inp).bestmatch =
      (if w.is_calc = true then (renderOverlapSearch w inp).match_array 0
        else (renderOverlapSearch w inp).match_array 4) ∧
    (renderOverlapSearch w inp).overlap0 =
      ((renderOverlapSearch w inp).bestmatch.postion : ℚ) / 2000 ∧
    (renderOverlapSearch w inp).match_array =
      (List.finRange 5).foldl
        (searchPass w.samplesperframe inp.audio_compare_buffer
          ((searchWindow inp).2 - (searchWindow inp).1)
          ((searchWindow inp).1 + Int.tdiv ((searchWindow inp).2 - (searchWindow inp).1) 2))
        w.match_array := by
  unfold renderOverlapSearch
  simp only []
  split <;> exact ⟨rfl, rfl, rfl⟩

/-- C9: after the five passes of a render `bestmatch` is `match_array[0]` when
`is_calc` is set and `match_array[4]` when it is not; `match_array[i-1]` is what
pass `i` left in it; `overlap[0]` is `bestmatch.postion / 2000`. -/
theorem render_bestmatch_selection (w : Frame_Window) (inp : RenderInput) :
    (render w inp).bestmatch =
      (if w.is_calc = true then (render w inp).match_array 0
        else (render w inp).match_array 4) ∧
    (∀ idx : Fin 5, (render w inp).match_array idx =
      passResult w.samplesperframe inp.audio_compare_buffer
        ((searchWindow inp).2 - (searchWindow inp).1)
        ((searchWindow inp).1 + Int.tdiv ((searchWindow inp).2 - (searchWindow inp).1) 2)
        idx (w.match_array idx)) ∧
    (render w inp).overlap0 = ((render w inp).bestmatch.postion : ℚ) / 2000 := by
  obtain ⟨h1, h2, h3, _⟩ := render_search_fields w inp
  obtain ⟨g1, g2, g3⟩ := renderOverlapSearch_selection w inp
  refine ⟨?_, ?_, ?_⟩
  · rw [h1, h2]; exact g1
  · intro idx
    rw [h2, g3, foldl_searchPass_apply]
  · rw [h3, h1]; exact g2

/-- The overlap resolved by a render does not depend on `overrideOverlap`. -/
theorem render_bestmatch_override_free (w : Frame_Window) (inp : RenderInput) (v : Int) :
    (render { w with overrideOverlap := v } inp).bestmatch = (render w inp).bestmatch ∧
    (render { w with overrideOverlap := v } inp).overlap0 = (render w inp).overlap0 := by
  have a := renderOverlapSearch_selection { w with overrideOverlap := v } inp
  have b := renderOverlapSearch_selection w inp
  have hbm : (renderOverlapSearch { w with overrideOverlap := v } inp).bestmatch =
      (renderOverlapSearch w inp).bestmatch := by
    rw [a.1, b.1, a.2.2, b.2.2]
  rw [(render_search_fields _ _).1, (render_search_fields _ _).1,
    (render_search_fields _ _).2.2.1, (render_search_fields _ _).2.2.1]
  refine ⟨hbm, ?_⟩
  rw [a.2.1, b.2.1, hbm]

set_option maxRecDepth 20000 in
/-- C10, evaluated at the failing input: with `overrideOverlap = 500` the render
still runs the search; `bestmatch.postion` is 1005 on the first sample buffer and
1007 on the second, `overlap[0]` and `bestvalueoffset` follow it, the result is the
same as without an override, and only `lowloc` holds 500. -/
theorem render_override_not_applied :
    windowOverride500.overrideOverlap = 500 ∧
    (render windowOverride500 sampleRenderInput).bestmatch.postion = 1005 ∧
    (render windowOverride500
      { sampleRenderInput with audio_compare_buffer := sampleCompareBuffer2 }).bestmatch.postion
        = 1007 ∧
    (render windowOverride500 sampleRenderInput).overlap0 = 1005 / 2000 ∧
    bestvalueoffset windowOverride500 sampleRenderInput = 1 + (0 - 1005 / 2000) ∧
    (render windowOverride500 sampleRenderInput).bestmatch =
      (render freshWindow sampleRenderInput).bestmatch ∧
    (render windowOverride500 sampleRenderInput).lowloc = 500 := by
  have hpos : (renderOverlapSearch windowOverride500 sampleRenderInput).bestmatch.postion = 1005 := by
    decide
  refine ⟨rfl, by decide, by decide, ?_, ?_, by decide, by decide⟩
  · rw [(render_search_fields _ _).2.2.1, (renderOverlapSearch_selection _ _).2.1, hpos]
    norm_num
  · unfold bestvalueoffset
    rw [hpos]
    norm_num [sampleRenderInput]

/-! ## Properties of the pull functions of the sequencer -/

theorem EnqueueNextFrame_blocked (load : Int → Bool) (w : MainWindow)
    (h : w.encNumFrames < w.encCurFrame ∨ load (frameToLoad w) = false) :
    EnqueueNextFrame load w = (false, w) := by
  unfold EnqueueNextFrame
  by_cases hex : w.encCurFrame > w.encNumFrames
  · rw [if_pos hex]
  · rw [if_neg hex]
    rcases h with h | h
    · exact absurd h hex
    · unfold frameToLoad at h
      simp only []
      rw [h]
      rfl

theorem EnqueueNextFrame_fields (load : Int → Bool) (w : MainWindow) :
    (EnqueueNextFrame load w).2.encAudioNextPts = w.encAudioNextPts ∧
    (EnqueueNextFrame load w).2.encAudioPad = w.encAudioPad ∧
    (EnqueueNextFrame load w).2.encAudioSkip = w.encAudioSkip ∧
    (EnqueueNextFrame load w).2.encS16Frame = w.encS16Frame ∧
    (EnqueueNextFrame load w).2.encNumFrames = w.encNumFrames ∧
    ((EnqueueNextFrame load w).1 = true →
      w.encCurFrame ≤ w.encNumFrames ∧
      (EnqueueNextFrame load w).2.encCurFrame = w.encCurFrame + 1) := by
  unfold EnqueueNextFrame
  by_cases hex : w.encCurFrame > w.encNumFrames
  · rw [if_pos hex]
    exact ⟨rfl, rfl, rfl, rfl, rfl, fun h => by simp at h⟩
  · rw [if_neg hex]
    simp only []
    cases hl : load (if w.encStartFrame + w.encCurFrame > w.inFileNumFrames - 1 then
        w.encStartFrame + w.encCurFrame - 1 else w.encStartFrame + w.encCurFrame) with
    | false => exact ⟨rfl, rfl, rfl, rfl, rfl, fun h => by simp at h⟩
    | true => exact ⟨rfl, rfl, rfl, rfl, rfl, fun _ => ⟨not_lt.1 hex, rfl⟩⟩

theorem enqueueForAudio_isSome (load : Int → Bool) :
    ∀ (n : Nat) (w : MainWindow), (w.encNumFrames + 1 - w.encCurFrame).toNat < n →
      (enqueueForAudio load n w).isSome = true := by
  intro n
  induction n with
  | zero => intro w h; omega
  | succ n ih =>
    intro w h
    unfold enqueueForAudio
    split
    · obtain ⟨_, _, _, _, f5, f6⟩ := EnqueueNextFrame_fields load w
      rcases hr : EnqueueNextFrame load w with ⟨b, w1⟩
      rw [hr] at f5 f6
      cases b with
      | false => rfl
      | true =>
        have := f6 rfl
        simp only [] at this f5
        apply ih
        rw [f5, this.2]
        omega
    · rfl

/-- The loop of `GetAudioFromQueue` ends within `audioLoopBound` rounds: the method
returns on every state. -/
theorem GetAudioFromQueue_isSome (load : Int → Bool) (w : MainWindow) :
    (GetAudioFromQueue load w).isSome = true := by
  unfold GetAudioFromQueue
  have h := enqueueForAudio_isSome load (audioLoopBound w) w (by unfold audioLoopBound; omega)
  rcases hr : enqueueForAudio load (audioLoopBound w) w with _ | ⟨b, w1⟩
  · rw [hr] at h; simp at h
  · cases b with
    | false => rfl
    | true =>
      simp only []
      split <;> rfl

theorem GetVideoFromQueue_blocked (load : Int → Bool) (w : MainWindow)
    (h : w.encNumFrames < w.encCurFrame ∨ load (frameToLoad w) = false)
    (hq : w.encVideoQueue = []) : GetVideoFromQueue load w = (none, w) := by
  unfold GetVideoFromQueue
  simp [hq, EnqueueNextFrame_blocked load w h]

theorem get_video_frame_blocked (load : Int → Bool) (w : MainWindow)
    (h : w.encNumFrames < w.encCurFrame ∨ load (frameToLoad w) = false)
    (hq : w.encVideoQueue = []) : get_video_frame load w = (none, w) := by
  unfold get_video_frame
  cases hn : w.encVideoSkip.toNat with
  | zero =>
    simp only [skipVideoFrames]
    exact GetVideoFromQueue_blocked load w h hq
  | succ n =>
    have hpos : w.encVideoSkip > 0 := by omega
    simp only [skipVideoFrames, if_pos hpos, GetVideoFromQueue_blocked load w h hq]

theorem GetAudioFromQueue_blocked (load : Int → Bool) (w : MainWindow)
    (h : w.encNumFrames < w.encCurFrame ∨ load (frameToLoad w) = false)
    (hneed : w.encS16Frame.pts + w.encS16Frame.nb_samples > w.encAudioLen) :
    GetAudioFromQueue load w = some (AudioResult.null, w) := by
  unfold GetAudioFromQueue audioLoopBound
  simp only [enqueueForAudio, if_pos hneed, EnqueueNextFrame_blocked load w h]

theorem enqueueForAudio_fields (load : Int → Bool) :
    ∀ (n : Nat) (w w1 : MainWindow) (b : Bool), enqueueForAudio load n w = some (b, w1) →
      w1.encAudioNextPts = w.encAudioNextPts ∧ w1.encAudioPad = w.encAudioPad ∧
      w1.encAudioSkip = w.encAudioSkip ∧ w1.encS16Frame = w.encS16Frame ∧
      (b = true → w1.encS16Frame.pts + w1.encS16Frame.nb_samples ≤ w1.encAudioLen) := by
  intro n
  induction n with
  | zero =>
    intro w w1 b h
    unfold enqueueForAudio at h
    split at h
    · simp at h
    · rename_i hg
      simp only [Option.some.injEq, Prod.mk.injEq] at h
      obtain ⟨_, rfl⟩ := h
      exact ⟨rfl, rfl, rfl, rfl, fun _ => not_lt.1 hg⟩
  | succ n ih =>
    intro w w1 b h
    unfold enqueueForAudio at h
    split at h
    · obtain ⟨f1, f2, f3, f4, _, _⟩ := EnqueueNextFrame_fields load w
      rcases hr : EnqueueNextFrame load w with ⟨b2, w2⟩
      rw [hr] at h f1 f2 f3 f4
      simp only [] at f1 f2 f3 f4
      cases b2 with
      | false =>
        simp only [Option.some.injEq, Prod.mk.injEq] at h
        obtain ⟨rfl, rfl⟩ := h
        exact ⟨f1, f2, f3, f4, fun hb => by simp at hb⟩
      | true =>
        simp only [] at h
        obtain ⟨g1, g2, g3, g4, g5⟩ := ih w2 w1 b h
        exact ⟨g1.trans f1, g2.trans f2, g3.trans f3, g4.trans f4, g5⟩
    · rename_i hg
      simp only [Option.some.injEq, Prod.mk.injEq] at h
      obtain ⟨_, rfl⟩ := h
      exact ⟨rfl, rfl, rfl, rfl, fun _ => not_lt.1 hg⟩

/-- What the code guarantees for a chunk handed out by `GetAudioFromQueue`: it starts
at `encAudioNextPts - encAudioPad` whatever `encAudioSkip` is, and the accumulated
length covers the chunk that starts at the old `pts` of `encS16Frame`. -/
theorem GetAudioFromQueue_frame (load : Int → Bool) (w w1 : MainWindow) (chunk : AudioChunk)
    (h : GetAudioFromQueue load w = some (AudioResult.frame chunk, w1)) :
    chunk.offset = w.encAudioNextPts - w.encAudioPad ∧
    chunk.pts = w.encAudioNextPts ∧
    chunk.nb_samples = w.encS16Frame.nb_samples ∧
    chunk.silent = decide (w.encAudioNextPts - w.encAudioPad < 0) ∧
    w1.encAudioNextPts = w.encAudioNextPts + w.encS16Frame.nb_samples ∧
    w1.encS16Frame.pts = w.encAudioNextPts ∧
    w.encS16Frame.pts + w.encS16Frame.nb_samples ≤ w1.encAudioLen := by
  unfold GetAudioFromQueue at h
  rcases hr : enqueueForAudio load (audioLoopBound w) w with _ | ⟨b, w2⟩
  · rw [hr] at h; simp at h
  · rw [hr] at h
    obtain ⟨g1, g2, _, g4, g5⟩ := enqueueForAudio_fields load _ w w2 b hr
    cases b with
    | false => simp at h
    | true =>
      simp only [] at h
      split at h
      · simp at h
      · simp only [Option.some.injEq, Prod.mk.injEq, AudioResult.frame.injEq] at h
        obtain ⟨rfl, rfl⟩ := h
        have := g5 rfl
        rw [g4] at this
        simp only [g1, g2, g4]
        exact ⟨trivial, trivial, trivial, trivial, trivial, trivial, this⟩

/-- When `Load_Frame_Texture` returns false for frame 5 (no frame window, or the
user cancels) in an export not yet exhausted, `EnqueueNextFrame` (false),
`GetVideoFromQueue` and `get_video_frame` (NULL) and `GetAudioFromQueue` (NULL) have
the results they have at the normal exhaustion of an export. -/
theorem failed_load_same_results_as_exhaustion :
    (exportLoadFails.encCurFrame ≤ exportLoadFails.encNumFrames ∧
      loadFailsFrom5 (frameToLoad exportLoadFails) = false) ∧
    exportExhausted.encNumFrames < exportExhausted.encCurFrame ∧
    (EnqueueNextFrame loadFailsFrom5 exportLoadFails).1 =
      (EnqueueNextFrame loadFailsFrom5 exportExhausted).1 ∧
    (GetVideoFromQueue loadFailsFrom5 exportLoadFails).1 =
      (GetVideoFromQueue loadFailsFrom5 exportExhausted).1 ∧
    (get_video_frame loadFailsFrom5 exportLoadFails).1 =
      (get_video_frame loadFailsFrom5 exportExhausted).1 ∧
    (GetAudioFromQueue loadFailsFrom5 exportLoadFails).map Prod.fst =
      (GetAudioFromQueue loadFailsFrom5 exportExhausted).map Prod.fst := by
  decide

/-- When `Load_Frame_Texture` returns false for the next frame, just as when the
frame cursor has passed the configured frame count, `EnqueueNextFrame` returns false
and leaves the sequencer unchanged, `GetVideoFromQueue` and `get_video_frame` return
NULL on an empty queue, and `GetAudioFromQueue` returns NULL when the next chunk
needs more audio. -/
theorem blocked_enqueue_returns_null (load : Int → Bool) (w : MainWindow)
    (h : w.encNumFrames < w.encCurFrame ∨ load (frameToLoad w) = false) :
    EnqueueNextFrame load w = (false, w) ∧
    (w.encVideoQueue = [] →
      GetVideoFromQueue load w = (none, w) ∧ get_video_frame load w = (none, w)) ∧
    (w.encS16Frame.pts + w.encS16Frame.nb_samples > w.encAudioLen →
      GetAudioFromQueue load w = some (AudioResult.null, w)) :=
  ⟨EnqueueNextFrame_blocked load w h,
    fun hq => ⟨GetVideoFromQueue_blocked load w h hq, get_video_frame_blocked load w h hq⟩,
    fun hneed => GetAudioFromQueue_blocked load w h hneed⟩

/-- Instances: `Load_Frame_Texture` returning false for frame 5, and the exhausted
export. -/
theorem blocked_enqueue_returns_null_witness :
    (loadFailsFrom5 (frameToLoad exportLoadFails) = false ∧
      exportLoadFails.encVideoQueue = [] ∧
      exportLoadFails.encS16Frame.pts + exportLoadFails.encS16Frame.nb_samples >
        exportLoadFails.encAudioLen) ∧
    (EnqueueNextFrame loadFailsFrom5 exportLoadFails = (false, exportLoadFails) ∧
      GetVideoFromQueue loadFailsFrom5 exportLoadFails = (none, exportLoadFails) ∧
      GetAudioFromQueue loadFailsFrom5 exportLoadFails =
        some (AudioResult.null, exportLoadFails)) ∧
    (exportExhausted.encNumFrames < exportExhausted.encCurFrame ∧
      EnqueueNextFrame loadAlways exportExhausted = (false, exportExhausted)) :=
  ⟨by decide,
    ⟨(blocked_enqueue_returns_null loadFailsFrom5 exportLoadFails (Or.inr (by decide))).1,
      ((blocked_enqueue_returns_null loadFailsFrom5 exportLoadFails (Or.inr (by decide))).2.1
        (by decide)).1,
      (blocked_enqueue_returns_null loadFailsFrom5 exportLoadFails (Or.inr (by decide))).2.2
        (by decide)⟩,
    ⟨by decide,
      (blocked_enqueue_returns_null loadAlways exportExhausted (Or.inl (by decide))).1⟩⟩

/-- C6, evaluated at the failing input: in an export of 2000 samples per frame and
chunks of 1024 samples, after one video frame and one audio chunk the accumulated
length is 2000; the second call of `GetAudioFromQueue` enqueues nothing (its test
uses the `pts` of the chunk before, 0) and returns the chunk of offset 1024, whose
last sample is read at index 2047. -/
theorem GetAudioFromQueue_chunk_past_encAudioLen :
    exportAfterFirstChunk.encAudioLen = 2000 ∧
    exportAfterFirstChunk.encS16Frame.pts = 0 ∧
    exportAfterFirstChunk.encAudioNextPts = 1024 ∧
    GetAudioFromQueue loadAlways exportAfterFirstChunk =
      some (AudioResult.frame
          { pts := 1024, nb_samples := 1024, channels := 2, silent := false, offset := 1024 },
        { exportAfterFirstChunk with
          encS16Frame := { pts := 1024, nb_samples := 1024, channels := 2 },
          encAudioNextPts := 2048 }) ∧
    AudioChunk.source
      { pts := 1024, nb_samples := 1024, channels := 2, silent := false, offset := 1024 }
      1023 0 = some (0, 2047) ∧
    ¬ ((1024 : Int) + 1024 ≤ exportAfterFirstChunk.encAudioLen) := by
  decide

/-- C8, evaluated at the failing input: with frame offset -3 `MuxMain` sets
`encAudioSkip = 6000`, yet the first chunk returned by `GetAudioFromQueue` has
offset 0 and its first sample is read at index 0, not at index 6000. -/
theorem GetAudioFromQueue_ignores_encAudioSkip :
    (exportStart (-3)).encAudioSkip = 6000 ∧
    GetAudioFromQueue loadAlways (GetVideoFromQueue loadAlways (exportStart (-3))).2 =
      some (AudioResult.frame
          { pts := 0, nb_samples := 1024, channels := 2, silent := false, offset := 0 },
        { (GetVideoFromQueue loadAlways (exportStart (-3))).2 with
          encS16Frame := { pts := 0, nb_samples := 1024, channels := 2 },
          encAudioNextPts := 1024 }) ∧
    AudioChunk.source
      { pts := 0, nb_samples := 1024, channels := 2, silent := false, offset := 0 }
      0 0 = some (0, 0) := by
  decide

/-! ## Properties of the search passes -/

theorem GetBestMatchFromFloatArray_eq_scan (d : Int → ℚ) (iSize start : Int)
    (bmatch : overlap_match) :
    GetBestMatchFromFloatArray d iSize start bmatch =
      (bestMatchScan d start bmatch (iSize - 1).toNat).2 := rfl

theorem bestMatchScan_succ (d : Int → ℚ) (start : Int) (bmatch : overlap_match) (n : Nat) :
    bestMatchScan d start bmatch (n + 1) =
      if d (bestMatchScan d start bmatch n).1 > d ((n : Int) + 1) then
        ((n : Int) + 1, { postion := start - ((n : Int) + 1), value := d ((n : Int) + 1) })
      else bestMatchScan d start bmatch n := by
  unfold bestMatchScan
  rw [List.range_succ, List.map_append, List.foldl_append]
  rfl

theorem bestMatch_fold_invariant (d : Int → ℚ) (start : Int) (bmatch : overlap_match) :
    ∀ n : Nat,
      0 ≤ (bestMatchScan d start bmatch n).1 ∧
      (bestMatchScan d start bmatch n).1 ≤ (n : Int) ∧
      (∀ j : Int, 0 ≤ j → j ≤ (n : Int) → d (bestMatchScan d start bmatch n).1 ≤ d j) ∧
      (∀ j : Int, 0 ≤ j → j < (bestMatchScan d start bmatch n).1 →
        d (bestMatchScan d start bmatch n).1 < d j) ∧
      (bestMatchScan d start bmatch n).2 =
        (if (bestMatchScan d start bmatch n).1 = 0 then bmatch
          else { postion := start - (bestMatchScan d start bmatch n).1,
                 value := d (bestMatchScan d start bmatch n).1 }) := by
  intro n
  induction n with
  | zero =>
    have h0 : bestMatchScan d start bmatch 0 = (0, bmatch) := rfl
    rw [h0]
    refine ⟨le_refl _, le_refl _, ?_, ?_, ?_⟩
    · intro j h0 h1
      have : j = 0 := by simpa using le_antisymm h1 h0
      rw [this]
    · intro j h0 h1
      exact absurd h1 (not_lt.2 h0)
    · simp
  | succ n ih =>
    obtain ⟨h0, hle, hmin, hfirst, hval⟩ := ih
    rw [bestMatchScan_succ]
    by_cases hgt : d (bestMatchScan d start bmatch n).1 > d ((n : Int) + 1)
    · rw [if_pos hgt]
      simp only []
      refine ⟨by omega, by push_cast; omega, ?_, ?_, ?_⟩
      · intro j hj0 hj1
        by_cases hjn : j ≤ (n : Int)
        · exact le_of_lt (lt_of_lt_of_le hgt (hmin j hj0 hjn))
        · have : j = (n : Int) + 1 := by push_cast at hj1; omega
          rw [this]
      · intro j hj0 hj1
        exact lt_of_lt_of_le hgt (hmin j hj0 (by omega))
      · have : ¬ ((n : Int) + 1 = 0) := by omega
        rw [if_neg this]
    · rw [if_neg hgt]
      refine ⟨h0, by push_cast; omega, ?_, hfirst, hval⟩
      intro j hj0 hj1
      by_cases hjn : j ≤ (n : Int)
      · exact hmin j hj0 hjn
      · have : j = (n : Int) + 1 := by push_cast at hj1; omega
        rw [this]
        exact not_lt.1 hgt

/-- What `GetBestMatchFromFloatArray` leaves in `bmatch`: with `k` the smallest index
of a minimum of `dArray[0 .. iSize-1]`, the record `(start - k, dArray[k])` when
`k >= 1`, and the value `bmatch` had before the call when `k = 0`. -/
theorem GetBestMatchFromFloatArray_eq (d : Int → ℚ) (iSize start : Int)
    (bmatch : overlap_match) :
    ∃ k : Int, 0 ≤ k ∧ k ≤ ((iSize - 1).toNat : Int) ∧
      (∀ j : Int, 0 ≤ j → j ≤ ((iSize - 1).toNat : Int) → d k ≤ d j) ∧
      (∀ j : Int, 0 ≤ j → j < k → d k < d j) ∧
      GetBestMatchFromFloatArray d iSize start bmatch =
        (if k = 0 then bmatch else { postion := start - k, value := d k }) := by
  obtain ⟨h0, hle, hmin, hfirst, hval⟩ :=
    bestMatch_fold_invariant d start bmatch (iSize - 1).toNat
  rw [GetBestMatchFromFloatArray_eq_scan]
  exact ⟨_, h0, hle, hmin, hfirst, hval⟩

theorem GetBestMatchFromFloatArray_of_size_le_one (d : Int → ℚ) (iSize start : Int)
    (bmatch : overlap_match) (h : iSize ≤ 1) :
    GetBestMatchFromFloatArray d iSize start bmatch = bmatch := by
  have : (iSize - 1).toNat = 0 := by omega
  rw [GetBestMatchFromFloatArray_eq_scan, this]
  rfl

theorem GetBestMatchFromFloatArray_postion (d : Int → ℚ) (iSize start : Int)
    (bmatch : overlap_match) :
    GetBestMatchFromFloatArray d iSize start bmatch = bmatch ∨
      (start - iSize < (GetBestMatchFromFloatArray d iSize start bmatch).postion ∧
        (GetBestMatchFromFloatArray d iSize start bmatch).postion < start) := by
  obtain ⟨k, h0, hle, _, _, heq⟩ := GetBestMatchFromFloatArray_eq d iSize start bmatch
  by_cases hk : k = 0
  · left
    rw [heq, if_pos hk]
  · right
    rw [heq, if_neg hk]
    simp only []
    omega

theorem passWindow_eq_clamp (s_size s_mid i : Int) :
    passWindow s_size s_mid i =
      (max 4 (passBoundsRaw s_size s_mid i).1, min (passBoundsRaw s_size s_mid i).2 1998) := by
  unfold passWindow passBoundsRaw
  by_cases h : i = 1
  · simp [h]
  · simp [h]

theorem passWindow_bounds (s_size s_mid i : Int) :
    4 ≤ (passWindow s_size s_mid i).1 ∧ (passWindow s_size s_mid i).2 ≤ 1998 := by
  rw [passWindow_eq_clamp]
  exact ⟨le_max_left _ _, min_le_right _ _⟩

theorem searchWindow_bounds (inp : RenderInput) :
    4 ≤ (searchWindow inp).1 ∧ (searchWindow inp).1 ≤ (searchWindow inp).2 ∧
    ((searchWindow inp).1 < (searchWindow inp).2 → (searchWindow inp).2 ≤ 1998) := by
  unfold searchWindow
  simp only []
  refine ⟨le_max_left _ _, le_max_right _ _, ?_⟩
  intro h
  rcases max_cases (min inp.endRaw 1998) (max 4 inp.startRaw) with hc | hc
  · rw [hc.1]; exact min_le_right _ _
  · rw [hc.1] at h; exact absurd h (lt_irrefl _)

set_option maxRecDepth 20000 in
/-- C11, refuted as stated: in a render with the search window `[1000, 1008]` pass 2
has the empty window `[1004, 1004]`; its result is whatever `match_array[1]` held
before (position 77 for one earlier value, position 5 for another), not a fixed
position 0, and with `is_calc` off the render resolves to the stale
`match_array[4]`. -/
theorem empty_pass_keeps_earlier_result :
    passWindow 8 1004 2 = (1004, 1004) ∧
    passResult 2000 sampleCompareBuffer 8 1004 1 staleMatch = staleMatch ∧
    (passResult 2000 sampleCompareBuffer 8 1004 1 staleMatch).postion = 77 ∧
    (passResult 2000 sampleCompareBuffer 8 1004 1 { postion := 5, value := 0 }).postion = 5 ∧
    (render { freshWindow with match_array := fun _ => staleMatch } narrowRenderInput).bestmatch
      = staleMatch := by
  decide

/-- C11, as amended: a pass whose window is empty or inconsistent after clamping
(`s_end - s_start <= 0`) makes no comparison and raises no error; its result is the
value `match_array[i-1]` held before the pass, whatever the comparison buffer
holds. -/
theorem passResult_of_empty_window (samplesperframe : Int) (fullarray : Int → ℚ)
    (s_size s_mid : Int) (idx : Fin 5) (old : overlap_match)
    (h : (passWindow s_size s_mid ((idx.val : Int) + 1)).2 -
      (passWindow s_size s_mid ((idx.val : Int) + 1)).1 ≤ 0) :
    passResult samplesperframe fullarray s_size s_mid idx old = old := by
  unfold passResult
  exact GetBestMatchFromFloatArray_of_size_le_one _ _ _ _ (by omega)

/-- Instance of the amended C11: pass 2 of the search window `[1000, 1008]`. -/
theorem passResult_of_empty_window_witness :
    (passWindow 8 1004 (((1 : Fin 5).val : Int) + 1)).2 -
      (passWindow 8 1004 (((1 : Fin 5).val : Int) + 1)).1 ≤ 0 ∧
    passResult 2000 sampleCompareBuffer 8 1004 1 staleMatch = staleMatch :=
  ⟨by decide, passResult_of_empty_window 2000 sampleCompareBuffer 8 1004 1 staleMatch (by decide)⟩

set_option maxRecDepth 20000 in
/-- C12, refuted as stated: pass 1 of the search window `[1000, 1012]` on the first
sample buffer yields position 1005, outside `[-1000, 1000]`. -/
theorem pass_postion_outside_half_frame :
    (passResult 2000 sampleCompareBuffer 12 1006 0 staleMatch).postion = 1005 ∧
    ¬ (-(2000 / 2) ≤ (passResult 2000 sampleCompareBuffer 12 1006 0 staleMatch).postion ∧
      (passResult 2000 sampleCompareBuffer 12 1006 0 staleMatch).postion ≤ 2000 / 2) := by
  decide

/-- C19, evaluated at the failing input: for the array 1, 2, 3 (minimum at index 0),
size 3 and window end 10 the call leaves `bmatch` as it was, (77, 9), and not
`(10 - 0, 1)`. -/
theorem GetBestMatchFromFloatArray_minimum_at_zero :
    (risingArray 0 < risingArray 1 ∧ risingArray 0 < risingArray 2) ∧
    GetBestMatchFromFloatArray risingArray 3 10 staleMatch = staleMatch ∧
    (GetBestMatchFromFloatArray risingArray 3 10 staleMatch).postion = 77 ∧
    GetBestMatchFromFloatArray risingArray 3 10 staleMatch ≠
      { postion := 10 - 0, value := risingArray 0 } := by
  decide

/-- C20, refuted as stated: for the total search width 12 pass 2 places its edges at
distance 2 from the centre, `((12/2)/5)*2`, and not at `((12/2)/2)*2 = 6`. -/
theorem pass_half_width_not_as_specified :
    passBoundsRaw 12 1006 2 = (1004, 1008) ∧
    1006 - (passBoundsRaw 12 1006 2).1 = 2 ∧
    specifiedHalfWidth 12 2 = 6 ∧
    1006 - (passBoundsRaw 12 1006 2).1 ≠ specifiedHalfWidth 12 2 := by
  decide

/-- C20, as amended: before clamping the window edges of pass 1 are at distance 4
from the centre and those of every other pass `i` at distance `((W/2)/5)*i`; the
start is then raised to at least 4 and the end lowered to at most 1998. -/
theorem passWindow_half_width (s_size s_mid i : Int) :
    (i = 1 →
      s_mid - (passBoundsRaw s_size s_mid i).1 = 4 ∧
      (passBoundsRaw s_size s_mid i).2 - s_mid = 4) ∧
    (i ≠ 1 →
      s_mid - (passBoundsRaw s_size s_mid i).1 = Int.tdiv (Int.tdiv s_size 2) 5 * i ∧
      (passBoundsRaw s_size s_mid i).2 - s_mid = Int.tdiv (Int.tdiv s_size 2) 5 * i) ∧
    passWindow s_size s_mid i =
      (max 4 (passBoundsRaw s_size s_mid i).1, min (passBoundsRaw s_size s_mid i).2 1998) := by
  refine ⟨?_, ?_, passWindow_eq_clamp s_size s_mid i⟩
  · intro h
    simp [passBoundsRaw, h]
  · intro h
    simp [passBoundsRaw, h]

/-- Instances of the amended C20: passes 1 and 3 of the total width 40 around 1000. -/
theorem passWindow_half_width_witness :
    ((1 : Int) = 1 ∧ 1000 - (passBoundsRaw 40 1000 1).1 = 4 ∧
      (passBoundsRaw 40 1000 1).2 - 1000 = 4) ∧
    ((3 : Int) ≠ 1 ∧
      1000 - (passBoundsRaw 40 1000 3).1 = Int.tdiv (Int.tdiv 40 2) 5 * 3 ∧
      (passBoundsRaw 40 1000 3).2 - 1000 = Int.tdiv (Int.tdiv 40 2) 5 * 3) :=
  ⟨⟨rfl, (passWindow_half_width 40 1000 1).1 rfl⟩,
    ⟨by decide, (passWindow_half_width 40 1000 3).2.1 (by decide)⟩⟩

/-! ## Further properties of the frame-slot cache -/

theorem FrameBucketManager.addFrameNumberToBuffer_out_of_range (m : FrameBucketManager)
    (i f : Int) (h : ¬ (0 ≤ i ∧ i < m.bufferCount)) : m.addFrameNumberToBuffer i f = m := by
  unfold FrameBucketManager.addFrameNumberToBuffer
  rw [if_neg h]

theorem FrameBucketManager.WellFormed.frameAt_id {m : FrameBucketManager} (h : m.WellFormed)
    {b : FrameBucket} (hb : b ∈ m.buffers) :
    0 ≤ b.frame_buffer_id ∧ m.frameAt b.frame_buffer_id.toNat = some b.frame_number := by
  obtain ⟨j, hj⟩ := List.mem_iff_getElem?.1 hb
  have hid := h.id_eq_index hj
  rw [hid]
  refine ⟨Int.natCast_nonneg _, ?_⟩
  simp [FrameBucketManager.frameAt, hj]

/-- C13: on a cache of `N` slots, `addFrameNumberToBuffer(id, f)` with `0 <= id < N`
makes slot `id` hold `f` and leaves the frame number of every other slot; with `id`
out of range it leaves the whole state; in both cases the number of slots, the
count `N` and the ids of the slots are as before. -/
theorem addFrameNumberToBuffer_effect (m : FrameBucketManager) (id f : Int)
    (hwf : m.WellFormed) :
    ((0 ≤ id ∧ id < m.bufferCount) →
      (m.addFrameNumberToBuffer id f).frameAt id.toNat = some f ∧
      ∀ j : Nat, j ≠ id.toNat → (m.addFrameNumberToBuffer id f).frameAt j = m.frameAt j) ∧
    (¬ (0 ≤ id ∧ id < m.bufferCount) → m.addFrameNumberToBuffer id f = m) ∧
    (m.addFrameNumberToBuffer id f).bufferCount = m.bufferCount ∧
    (m.addFrameNumberToBuffer id f).buffers.length = m.buffers.length ∧
    (m.addFrameNumberToBuffer id f).buffers.map (fun b => b.frame_buffer_id) =
      List.map (fun (i : Nat) => (i : Int)) (List.range m.buffers.length) := by
  refine ⟨?_, FrameBucketManager.addFrameNumberToBuffer_out_of_range m id f,
    FrameBucketManager.addFrameNumberToBuffer_bufferCount m id f,
    FrameBucketManager.addFrameNumberToBuffer_length m id f, ?_⟩
  · intro hr
    have hlen : id.toNat < m.buffers.length := by
      have := hwf.1
      omega
    constructor
    · rw [FrameBucketManager.addFrameNumberToBuffer_frameAt]
      simp [hr.1, hr.2, hlen]
    · intro j hj
      rw [FrameBucketManager.addFrameNumberToBuffer_frameAt]
      have : ¬ (0 ≤ id ∧ id < m.bufferCount ∧ id.toNat = j ∧ j < m.buffers.length) := by
        rintro ⟨_, _, h3, _⟩
        exact hj h3.symm
      rw [if_neg this]
  · rw [FrameBucketManager.addFrameNumberToBuffer_ids]
    exact hwf.2

/-- Instances of C13 on the slots 8, 9, 10, -10, -10: frame 11 into slot 3, and the
out-of-range slot 7. -/
theorem addFrameNumberToBuffer_effect_witness :
    (fiveSlotsPartlyLoaded.WellFormed ∧
      ((0 : Int) ≤ 3 ∧ (3 : Int) < fiveSlotsPartlyLoaded.bufferCount) ∧
      (fiveSlotsPartlyLoaded.addFrameNumberToBuffer 3 11).frameAt (3 : Int).toNat = some 11) ∧
    (¬ ((0 : Int) ≤ 7 ∧ (7 : Int) < fiveSlotsPartlyLoaded.bufferCount) ∧
      fiveSlotsPartlyLoaded.addFrameNumberToBuffer 7 11 = fiveSlotsPartlyLoaded) :=
  ⟨⟨by decide, by decide,
      ((addFrameNumberToBuffer_effect fiveSlotsPartlyLoaded 3 11 (by decide)).1 (by decide)).1⟩,
    ⟨by decide,
      (addFrameNumberToBuffer_effect fiveSlotsPartlyLoaded 7 11 (by decide)).2.1 (by decide)⟩⟩

/-- C14: `getBuffersSortedByFrameNumber` returns a permutation of the `N` slot ids
`0, ..., N-1`, and the frame numbers held by the listed slots do not decrease along
the list. -/
theorem getBuffersSortedByFrameNumber_sorted_perm (m : FrameBucketManager)
    (hwf : m.WellFormed) :
    m.getBuffersSortedByFrameNumber.Perm
      (List.map (fun (i : Nat) => (i : Int)) (List.range m.buffers.length)) ∧
    m.getBuffersSortedByFrameNumber.Pairwise (fun i j =>
      ∃ fi fj, m.frameAt i.toNat = some fi ∧ m.frameAt j.toNat = some fj ∧ fi ≤ fj) := by
  haveI : IsTotal FrameBucket (fun a b => a.frame_number ≤ b.frame_number) :=
    ⟨fun a b => le_total a.frame_number b.frame_number⟩
  haveI : IsTrans FrameBucket (fun a b => a.frame_number ≤ b.frame_number) :=
    ⟨fun _ _ _ hab hbc => le_trans hab hbc⟩
  have hperm := List.perm_insertionSort (fun a b : FrameBucket => a.frame_number ≤ b.frame_number)
    m.buffers
  have hsorted := List.sorted_insertionSort
    (fun a b : FrameBucket => a.frame_number ≤ b.frame_number) m.buffers
  unfold FrameBucketManager.getBuffersSortedByFrameNumber
  constructor
  · rw [← hwf.2]
    exact hperm.map _
  · rw [List.pairwise_map]
    unfold List.Sorted at hsorted
    refine List.Pairwise.imp_of_mem ?_ hsorted
    intro a b ha hb hab
    have ha2 := hwf.frameAt_id (hperm.mem_iff.1 ha)
    have hb2 := hwf.frameAt_id (hperm.mem_iff.1 hb)
    exact ⟨a.frame_number, b.frame_number, ha2.2, hb2.2, hab⟩

/-- Instance of C14 on the slots 8, 9, 10, -10, -10. -/
theorem getBuffersSortedByFrameNumber_sorted_perm_witness :
    fiveSlotsPartlyLoaded.WellFormed ∧
    fiveSlotsPartlyLoaded.getBuffersSortedByFrameNumber = [3, 4, 0, 1, 2] ∧
    fiveSlotsPartlyLoaded.getBuffersSortedByFrameNumber.Perm
      (List.map (fun (i : Nat) => (i : Int)) (List.range fiveSlotsPartlyLoaded.buffers.length)) :=
  ⟨by decide, by decide,
    (getBuffersSortedByFrameNumber_sorted_perm fiveSlotsPartlyLoaded (by decide)).1⟩

/-! ## Properties of `MakeAttributeName` -/

theorem splitOnP_map_eq (p : Char → Bool) (f : Char → Char) :
    ∀ l : List Char,
      (l.map f).splitOnP p = (l.splitOnP (fun c => p (f c))).map (List.map f) := by
  intro l
  induction l with
  | nil => simp [List.splitOnP_nil]
  | cons x xs ih =>
    rw [List.map_cons, List.splitOnP_cons, List.splitOnP_cons, ih]
    by_cases hx : p (f x) = true
    · simp [hx]
    · simp only [hx, if_false]
      cases hsp : xs.splitOnP (fun c => p (f c)) with
      | nil => exact absurd hsp (List.splitOnP_ne_nil _ _)
      | cons hd tl => simp [List.modifyHead]

theorem not_sep_of_mem_splitOnP (q : Char → Bool) :
    ∀ (l : List Char) (w : List Char), w ∈ l.splitOnP q → ∀ c ∈ w, q c = false := by
  intro l
  induction l with
  | nil =>
    intro w hw c hc
    simp [List.splitOnP_nil] at hw
    subst hw
    simp at hc
  | cons x xs ih =>
    intro w hw c hc
    rw [List.splitOnP_cons] at hw
    by_cases hx : q x = true
    · simp only [hx, if_true, List.mem_cons] at hw
      rcases hw with rfl | hw
      · simp at hc
      · exact ih w hw c hc
    · simp only [hx, if_false] at hw
      cases hsp : xs.splitOnP q with
      | nil => exact absurd hsp (List.splitOnP_ne_nil _ _)
      | cons hd tl =>
        rw [hsp] at hw ih
        have hw2 : w = x :: hd ∨ w ∈ tl := by
          simpa [List.modifyHead] using hw
        rcases hw2 with h1 | h2
        · rw [h1] at hc
          rcases List.mem_cons.1 hc with hcx | hc2
          · rw [hcx]
            simpa using hx
          · exact ih hd (List.mem_cons_self _ _) c hc2
        · exact ih w (List.mem_cons_of_mem _ h2) c hc

theorem exists_mem_splitOnP (q : Char → Bool) :
    ∀ (l : List Char) (c : Char), c ∈ l → q c = false → ∃ w ∈ l.splitOnP q, c ∈ w := by
  intro l
  induction l with
  | nil => intro c hc; simp at hc
  | cons x xs ih =>
    intro c hc hq
    rw [List.splitOnP_cons]
    cases hsp : xs.splitOnP q with
    | nil => exact absurd hsp (List.splitOnP_ne_nil _ _)
    | cons hd tl =>
      rw [hsp] at ih
      by_cases hx : q x = true
      · have hcx : c ≠ x := by
          rintro rfl
          rw [hq] at hx
          exact absurd hx (by simp)
        rcases List.mem_cons.1 hc with h | h
        · exact absurd h hcx
        · obtain ⟨w, hw, hcw⟩ := ih c h hq
          exact ⟨w, by simp only [hx, if_true]; exact List.mem_cons_of_mem _ hw, hcw⟩
      · simp only [hx, if_false, List.modifyHead]
        rcases List.mem_cons.1 hc with h | h
        · exact ⟨x :: hd, by simp, by simp [h]⟩
        · obtain ⟨w, hw, hcw⟩ := ih c h hq
          rcases List.mem_cons.1 hw with rfl | hw2
          · exact ⟨x :: w, by simp, List.mem_cons_of_mem _ hcw⟩
          · exact ⟨w, by simp [hw2], hcw⟩

theorem simplified_words (str : List Char) :
    ((replaceUnderscores str).splitOnP QChar_isSpace).filter (fun w => !w.isEmpty) =
      wordsOf isSeparator str := by
  unfold replaceUnderscores wordsOf
  rw [splitOnP_map_eq]
  have hq : (fun c => QChar_isSpace (if c = '_' then ' ' else c)) = isSeparator := by
    funext c
    unfold isSeparator
    by_cases hc : c = '_'
    · subst hc
      decide
    · simp [hc]
  rw [hq, List.filter_map]
  have hid : ∀ w ∈ (str.splitOnP isSeparator).filter
      ((fun w : List Char => !w.isEmpty) ∘ List.map (fun c => if c = '_' then ' ' else c)),
      List.map (fun c => if c = '_' then ' ' else c) w = w := by
    intro w hw
    have hw2 := (List.mem_filter.1 hw).1
    have hns := not_sep_of_mem_splitOnP isSeparator str w hw2
    conv_rhs => rw [← List.map_id w]
    apply List.map_congr_left
    intro c hc
    have := hns c hc
    have hne : c ≠ '_' := by
      rintro rfl
      revert this
      decide
    simp [hne]
  rw [List.map_congr_left hid]
  simp only [List.map_id_fun', id_eq, List.map_id']
  apply List.filter_congr
  intro w _
  cases w <;> simp

theorem capitalizeWords_eq (toUpper : Char → Char) :
    ∀ ws : List (List Char), (∀ w ∈ ws, w ≠ []) →
      capitalizeWords toUpper ws = some ((ws.map (capitalized toUpper)).flatten) := by
  intro ws
  induction ws with
  | nil => intro _; rfl
  | cons w ws ih =>
    intro h
    have hw : w ≠ [] := h w (by simp)
    have hrest := ih (fun v hv => h v (List.mem_cons_of_mem _ hv))
    cases w with
    | nil => exact absurd rfl hw
    | cons c cs =>
      simp [capitalizeWords, capitalizeWord, hrest, capitalized]

/-- C17, refuted as stated: a tab separates words too. For the string `a<TAB>b` the
function returns `AB`, while the words separated by spaces and underscores only
give `A<TAB>b`. -/
theorem MakeAttributeName_tab_separates :
    MakeAttributeName asciiText ['a', '\t', 'b'] = some ['A', 'B'] ∧
    camelCase asciiText.toUpper isSpaceOrUnderscore ['a', '\t', 'b'] = ['A', '\t', 'b'] ∧
    MakeAttributeName asciiText ['a', '\t', 'b'] ≠
      some (camelCase asciiText.toUpper isSpaceOrUnderscore ['a', '\t', 'b']) := by
  decide

/-- C17, as amended: for every string with at least one character that is neither
whitespace nor an underscore, `MakeAttributeName` returns the concatenation, in
order, of its words (the maximal runs separated by whitespace and/or underscores),
each with its first character mapped to upper case and the others unchanged; the
five examples of the source comment come out as stated. -/
theorem MakeAttributeName_eq_camelCase :
    (∀ (qt : QtText) (str : List Char), (∃ c ∈ str, isSeparator c = false) →
      MakeAttributeName qt str = some (camelCase qt.toUpper isSeparator str)) ∧
    MakeAttributeName asciiText "two_words".toList = some "TwoWords".toList ∧
    MakeAttributeName asciiText "twowords".toList = some "Twowords".toList ∧
    MakeAttributeName asciiText "The quick brown fox".toList = some "TheQuickBrownFox".toList ∧
    MakeAttributeName asciiText "user_id".toList = some "UserId".toList ∧
    MakeAttributeName asciiText "User ID".toList = some "UserID".toList := by
  refine ⟨?_, by decide, by decide, by decide, by decide, by decide⟩
  intro qt str hex
  obtain ⟨c, hc, hsep⟩ := hex
  unfold MakeAttributeName QString_simplified camelCase
  rw [simplified_words]
  have hmem : ∀ w ∈ wordsOf isSeparator str, w ≠ [] ∧ ' ' ∉ w := by
    intro w hw
    unfold wordsOf at hw
    obtain ⟨hw1, hw2⟩ := List.mem_filter.1 hw
    refine ⟨?_, ?_⟩
    · rintro rfl
      simp at hw2
    · intro hsp
      have := not_sep_of_mem_splitOnP isSeparator str w hw1 ' ' hsp
      revert this
      decide
  have hne : wordsOf isSeparator str ≠ [] := by
    obtain ⟨w, hw, hcw⟩ := exists_mem_splitOnP isSeparator str c hc hsep
    have : w ∈ wordsOf isSeparator str := by
      unfold wordsOf
      refine List.mem_filter.2 ⟨hw, ?_⟩
      cases w with
      | nil => simp at hcw
      | cons _ _ => simp
    exact List.ne_nil_of_mem this
  rw [List.splitOn_intercalate _ ' ' (fun l hl => (hmem l hl).2) hne]
  exact capitalizeWords_eq qt.toUpper _ (fun w hw => (hmem w hw).1)

/-- Instance of the amended C17: the string `a<TAB>b_c`. -/
theorem MakeAttributeName_eq_camelCase_witness :
    (∃ c ∈ ['a', '\t', 'b', '_', 'c'], isSeparator c = false) ∧
    MakeAttributeName asciiText ['a', '\t', 'b', '_', 'c'] =
      some (camelCase asciiText.toUpper isSeparator ['a', '\t', 'b', '_', 'c']) ∧
    camelCase asciiText.toUpper isSeparator ['a', '\t', 'b', '_', 'c'] = ['A', 'B', 'C'] :=
  ⟨⟨'a', by decide, by decide⟩,
    MakeAttributeName_eq_camelCase.1 asciiText ['a', '\t', 'b', '_', 'c']
      ⟨'a', by decide, by decide⟩,
    by decide⟩

/-! ## Properties of events, filter conditions and the event export -/

theorem vbevent.AttributeBody_const_or_id (qt : QtText) (e : vbevent) (a : List Char) :
    (∀ r r2 : Outcome QString, vbevent.AttributeBody qt r e a = vbevent.AttributeBody qt r2 e a) ∨
    (∀ r : Outcome QString, vbevent.AttributeBody qt r e a = r) := by
  unfold vbevent.AttributeBody
  cases MakeAttributeName qt a with
  | none => exact Or.inl (fun _ _ => rfl)
  | some attr =>
    simp only []
    cases List.find? (fun p => compareCI qt p.1 attr) e.attributes with
    | some p => exact Or.inl (fun _ _ => rfl)
    | none =>
      simp only []
      by_cases h1 : (compareCI qt attr "Start".toList || compareCI qt attr "Frame".toList) = true
      · exact Or.inl (fun r r2 => by rw [if_pos h1, if_pos h1])
      · by_cases h2 : compareCI qt attr "End".toList = true
        · exact Or.inl (fun r r2 => by rw [if_neg h1, if_neg h1, if_pos h2, if_pos h2])
        · by_cases h3 : (compareCI qt attr "EventType".toList ||
              compareCI qt attr "Type".toList) = true
          · exact Or.inl (fun r r2 => by
              rw [if_neg h1, if_neg h1, if_neg h2, if_neg h2, if_pos h3, if_pos h3])
          · by_cases h4 : compareCI qt attr "SubType".toList = true
            · exact Or.inr (fun r => by rw [if_neg h1, if_neg h2, if_neg h3, if_pos h4])
            · exact Or.inl (fun r r2 => by
                rw [if_neg h1, if_neg h1, if_neg h2, if_neg h2, if_neg h3, if_neg h3,
                  if_neg h4, if_neg h4])

theorem vbevent.AttributeWithin_succ (qt : QtText) (n : Nat) (e : vbevent) (a : List Char) :
    vbevent.AttributeWithin qt (n + 1) e a =
      vbevent.AttributeBody qt
        (match vbevent.SubTypeName qt e with
          | none => Outcome.undefined
          | some subtag => vbevent.AttributeWithin qt n e subtag)
        e a := rfl

theorem vbevent.AttributeWithin_subtag (qt : QtText) (e : vbevent) (st : List Char)
    (hst : vbevent.SubTypeName qt e = some st) :
    ∀ n : Nat, vbevent.AttributeWithin qt (n + 1) e st = vbevent.AttributeWithin qt 1 e st := by
  have h21 : vbevent.AttributeWithin qt 2 e st = vbevent.AttributeWithin qt 1 e st := by
    have e2 := vbevent.AttributeWithin_succ qt 1 e st
    have e1 := vbevent.AttributeWithin_succ qt 0 e st
    simp only [hst] at e1 e2
    rcases vbevent.AttributeBody_const_or_id qt e st with hc | hid
    · rw [e2, e1]
      exact hc _ _
    · rw [e2, hid]
  intro n
  induction n with
  | zero => rfl
  | succ n ih =>
    have e2 := vbevent.AttributeWithin_succ qt (n + 1) e st
    simp only [hst] at e2
    rw [e2, ih]
    have e3 := vbevent.AttributeWithin_succ qt 1 e st
    simp only [hst] at e3
    rw [← e3]
    exact h21

/-- More depth than 2 does not change the result of `Attribute`: a call that does
not return within depth 2 does not return at any depth. -/
theorem vbevent.AttributeWithin_eq_Attribute (qt : QtText) (e : vbevent) (a : List Char)
    (n : Nat) : vbevent.AttributeWithin qt (n + 2) e a = vbevent.Attribute qt e a := by
  unfold vbevent.Attribute
  rw [vbevent.AttributeWithin_succ qt (n + 1) e a, vbevent.AttributeWithin_succ qt 1 e a]
  cases hst : vbevent.SubTypeName qt e with
  | none => rfl
  | some st =>
    simp only []
    rw [vbevent.AttributeWithin_subtag qt e st hst n]

/-- C16, evaluated at the failing input: two damage events that agree on everything
but their notes (and ids) compare equal. -/
theorem operatorEq_ignores_notes :
    tornEvent.notes ≠ tornEventOtherNotes.notes ∧
    { tornEventOtherNotes with notes := tornEvent.notes, id := tornEvent.id } = tornEvent ∧
    vbevent.operatorEq asciiText tornEvent tornEventOtherNotes = Outcome.value true ∧
    vbevent.operatorEq asciiText tornEventOtherNotes tornEvent = Outcome.value true := by
  decide

/-- C18, evaluated at the failing input: with one event on frame 0 and one on frame
1, the event of table row 1 is tested with `include(2)`; when row 1 is hidden both
events are written, the hidden one included. -/
theorem ExportEvents_row_drift :
    EventAtRow twoFrameEvents 0 = some (newEvent 10 0) ∧
    EventAtRow twoFrameEvents 1 = some (newEvent 11 1) ∧
    exportRows 0 twoFrameEvents = [(0, newEvent 10 0), (2, newEvent 11 1)] ∧
    rowOneHidden 1 = false ∧
    ExportEvents twoFrameEvents rowOneHidden = [newEvent 10 0, newEvent 11 1] := by
  decide

/-- Outside the four position comparators Left/Right and Top/Bottom, the comparator
`c XOR 1` is the negation of `c` wherever `c` gives a result: for the same
attribute, pattern and set a positive condition on `c XOR 1` passes exactly the
events on which a positive condition on `c` fails (numeric operands that parse,
for the numeric comparators). -/
theorem EventPasses_xor_one (qt : QtText) (event : vbevent) (attributeName pattern : List Char)
    (targetSet : List Nat) (c : EventFilterComp) (hc : c.val < 22)
    (hpos : c.val ≠ 14 ∧ c.val ≠ 15 ∧ c.val ≠ 18 ∧ c.val ≠ 19)
    (hnum : 8 ≤ c.val → c.val ≤ 13 → qt.toDouble pattern ≠ none ∧
      ∀ v, vbevent.Attribute qt event attributeName = Outcome.value v →
        qt.toDouble v.chars ≠ none) :
    EventFilterCondition.EventPasses qt
        (positiveCondition { val := c.val ^^^ 1 } attributeName pattern targetSet) event =
      Outcome.map (fun b => !b)
        (EventFilterCondition.EventPasses qt
          (positiveCondition c attributeName pattern targetSet) event) := by
  obtain ⟨v⟩ := c
  simp only at hc hpos hnum
  interval_cases v
  all_goals first
    | (exfalso; omega)
    | (simp [EventFilterCondition.EventPasses, positiveCondition, passOrNegation, Outcome.map,
        onAttribute]; done)
    | (simp only [EventFilterCondition.EventPasses, positiveCondition, passOrNegation,
        onAttribute]
       cases vbevent.Attribute qt event attributeName <;> simp [Outcome.map]; done)
    | (obtain ⟨hp, hv⟩ := hnum (by decide) (by decide)
       cases hpat : qt.toDouble pattern with
       | none => exact absurd hpat hp
       | some target =>
         simp only [EventFilterCondition.EventPasses, positiveCondition, numericCompare,
           onAttribute, hpat]
         cases hattr : vbevent.Attribute qt event attributeName with
         | undefined => simp [Outcome.map]
         | unfinished => simp [Outcome.map]
         | value w =>
           cases hval : qt.toDouble w.chars with
           | none => exact absurd hval (hv w hattr)
           | some value => simp [hval, Outcome.map, passOrNegation])

/-- C15, evaluated at the failing input: `POS_RIGHT` is `POS_LEFT XOR 1` and
`POS_BOTTOM` is `POS_TOP XOR 1`, yet an event whose box spans the middle of the
frame fails the positive conditions Left and Right alike, and Top and Bottom
alike; the negated condition Left passes it, while the positive condition built
from its `Comparison()`, Right, does not. -/
theorem EventPasses_left_right_not_negations :
    (EVENT_FILTER_COMP_POS_LEFT.val ^^^ 1 = EVENT_FILTER_COMP_POS_RIGHT.val ∧
      EVENT_FILTER_COMP_POS_TOP.val ^^^ 1 = EVENT_FILTER_COMP_POS_BOTTOM.val) ∧
    EventFilterCondition.EventPasses asciiText
      (positiveCondition EVENT_FILTER_COMP_POS_LEFT [] [] []) spanningEvent
        = Outcome.value false ∧
    EventFilterCondition.EventPasses asciiText
      (positiveCondition EVENT_FILTER_COMP_POS_RIGHT [] [] []) spanningEvent
        = Outcome.value false ∧
    EventFilterCondition.EventPasses asciiText
      (positiveCondition EVENT_FILTER_COMP_POS_TOP [] [] []) spanningEvent
        = Outcome.value false ∧
    EventFilterCondition.EventPasses asciiText
      (positiveCondition EVENT_FILTER_COMP_POS_BOTTOM [] [] []) spanningEvent
        = Outcome.value false ∧
    EventFilterCondition.EventPasses asciiText
      { positiveCondition EVENT_FILTER_COMP_POS_LEFT [] [] [] with isNegated := true }
      spanningEvent = Outcome.value true ∧
    EventFilterCondition.Comparison
      { positiveCondition EVENT_FILTER_COMP_POS_LEFT [] [] [] with isNegated := true }
        = EVENT_FILTER_COMP_POS_RIGHT := by
  refine ⟨by decide, ?_, ?_, ?_, ?_, ?_, by decide⟩ <;>
    norm_num [EventFilterCondition.EventPasses, positiveCondition, EVENT_FILTER_COMP_POS_LEFT,
      EVENT_FILTER_COMP_POS_RIGHT, EVENT_FILTER_COMP_POS_TOP, EVENT_FILTER_COMP_POS_BOTTOM,
      spanningEvent, newEvent, passOrNegation]

/-! ## Index safety of the overlap search -/

theorem bestMatchReads_succ (d : Int → ℚ) (n : Nat) :
    bestMatchReads d (n + 1) =
      if d (bestMatchReads d n).1 > d ((n : Int) + 1) then
        ((n : Int) + 1,
          (bestMatchReads d n).2 ++ [(bestMatchReads d n).1, (n : Int) + 1, (n : Int) + 1])
      else ((bestMatchReads d n).1,
          (bestMatchReads d n).2 ++ [(bestMatchReads d n).1, (n : Int) + 1]) := by
  unfold bestMatchReads
  rw [List.range_succ, List.map_append, List.foldl_append]
  rfl

/-- The index `iCurrMin` traced by `bestMatchReads` is the one of the scan. -/
theorem bestMatchReads_fst (d : Int → ℚ) (start : Int) (bmatch : overlap_match) (n : Nat) :
    (bestMatchReads d n).1 = (bestMatchScan d start bmatch n).1 := by
  induction n with
  | zero => rfl
  | succ n ih =>
    rw [bestMatchReads_succ, bestMatchScan_succ, ih]
    split <;> rfl

theorem bestMatchReads_bounds (d : Int → ℚ) (n : Nat) :
    (0 ≤ (bestMatchReads d n).1 ∧ (bestMatchReads d n).1 ≤ (n : Int)) ∧
    ∀ r ∈ (bestMatchReads d n).2, 0 ≤ r ∧ r ≤ (n : Int) ∧ 1 ≤ n := by
  induction n with
  | zero =>
    refine ⟨⟨le_refl _, le_refl _⟩, ?_⟩
    intro r hr
    simp [bestMatchReads] at hr
  | succ n ih =>
    obtain ⟨⟨h0, h1⟩, hr⟩ := ih
    rw [bestMatchReads_succ]
    split
    · refine ⟨⟨by simp only []; omega, by simp only []; push_cast; omega⟩, ?_⟩
      intro r hmem
      simp only [List.mem_append, List.mem_cons, List.mem_singleton, List.not_mem_nil,
        or_false] at hmem
      rcases hmem with hm | hm | hm | hm
      · have := hr r hm
        exact ⟨by omega, by push_cast; omega, by omega⟩
      · exact ⟨by omega, by push_cast; omega, by omega⟩
      · exact ⟨by omega, by push_cast; omega, by omega⟩
      · exact ⟨by omega, by push_cast; omega, by omega⟩
    · refine ⟨⟨h0, by simp only []; push_cast; omega⟩, ?_⟩
      intro r hmem
      simp only [List.mem_append, List.mem_cons, List.mem_singleton, List.not_mem_nil,
        or_false] at hmem
      rcases hmem with hm | hm | hm
      · have := hr r hm
        exact ⟨by omega, by push_cast; omega, by omega⟩
      · exact ⟨by omega, by push_cast; omega, by omega⟩
      · exact ⟨by omega, by push_cast; omega, by omega⟩

theorem windowReads_bounds (samplesperframe : Int) (fullarray : Int → ℚ) (win : Int × Int)
    (h1 : 4 ≤ win.1) (h2 : win.1 < win.2 → win.2 ≤ 1998) :
    ∀ k ∈ windowReads samplesperframe fullarray win,
      samplesperframe - 1998 ≤ k ∧ k ≤ samplesperframe - 5 := by
  intro k hk
  unfold windowReads at hk
  obtain ⟨r, hr, rfl⟩ := List.mem_map.1 hk
  obtain ⟨hr0, hr1, hn⟩ := (bestMatchReads_bounds _ _).2 r hr
  have hlt : win.1 < win.2 := by omega
  have := h2 hlt
  omega


/-- C21, refuted as stated: for the raw bounds 2500 and 2600 the initial search has
the window `[2500, 2500]` after the three clamps; its end exceeds
`samplesperframe - 2 = 1998`. The window is empty and the search reads nothing. -/
theorem searchWindow_end_beyond_frame :
    searchWindow lateRenderInput = (2500, 2500) ∧
    ¬ ((searchWindow lateRenderInput).2 ≤ freshWindow.samplesperframe - 2) ∧
    renderSearchReads freshWindow lateRenderInput = [] := by
  decide

/-- C21, as amended: with the configured 2000 samples per frame, the window of each
of the five passes satisfies `s_start >= 4` and `s_end <= samplesperframe - 2`; the
window of the initial search satisfies `start >= 4`, `start <= end`, and
`end <= samplesperframe - 2` whenever it is not empty; and every index of the
comparison buffer read by `GetBestMatchFromFloatArray` in the initial search and
the passes lies within `[0, samplesperframe)`. -/
theorem render_search_reads_in_range (w : Frame_Window) (inp : RenderInput)
    (h : w.samplesperframe = 2000) :
    (∀ (s_size s_mid : Int) (idx : Fin 5),
      4 ≤ (passWindow s_size s_mid ((idx.val : Int) + 1)).1 ∧
      (passWindow s_size s_mid ((idx.val : Int) + 1)).2 ≤ w.samplesperframe - 2) ∧
    (4 ≤ (searchWindow inp).1 ∧ (searchWindow inp).1 ≤ (searchWindow inp).2 ∧
      ((searchWindow inp).1 < (searchWindow inp).2 →
        (searchWindow inp).2 ≤ w.samplesperframe - 2)) ∧
    ∀ k ∈ renderSearchReads w inp, 0 ≤ k ∧ k < w.samplesperframe := by
  refine ⟨?_, ?_, ?_⟩
  · intro s_size s_mid idx
    rw [h]
    exact passWindow_bounds s_size s_mid ((idx.val : Int) + 1)
  · rw [h]
    exact searchWindow_bounds inp
  · intro k hk
    unfold renderSearchReads at hk
    simp only [List.mem_append, List.mem_flatten, List.mem_map] at hk
    rw [h]
    rcases hk with hk | ⟨l, ⟨idx, _, rfl⟩, hk⟩
    · have hb := searchWindow_bounds inp
      have := windowReads_bounds w.samplesperframe inp.audio_compare_buffer _ hb.1 hb.2.2 k hk
      rw [h] at this
      omega
    · have hb := passWindow_bounds ((searchWindow inp).2 - (searchWindow inp).1)
        ((searchWindow inp).1 + Int.tdiv ((searchWindow inp).2 - (searchWindow inp).1) 2)
        ((idx.val : Int) + 1)
      have := windowReads_bounds w.samplesperframe inp.audio_compare_buffer _ hb.1
        (fun _ => hb.2) k hk
      rw [h] at this
      omega

set_option maxRecDepth 20000 in
/-- Instance of the amended C21: a fresh frame window and the search window
`[1000, 1012]`, whose reads are evaluated. -/
theorem render_search_reads_in_range_witness :
    freshWindow.samplesperframe = 2000 ∧
    (∀ k ∈ renderSearchReads freshWindow sampleRenderInput,
      0 ≤ k ∧ k < freshWindow.samplesperframe) ∧
    (renderSearchReads freshWindow sampleRenderInput).length = 90 :=
  ⟨rfl, (render_search_reads_in_range freshWindow sampleRenderInput rfl).2.2, by decide⟩

/-! ## The effect of EnqueueNextFrame -/

theorem EnqueueNextFrame_exhausted (load : Int → Bool) (w : MainWindow)
    (h : w.encCurFrame > w.encNumFrames) : EnqueueNextFrame load w = (false, w) := by
  unfold EnqueueNextFrame
  rw [if_pos h]

theorem EnqueueNextFrame_load_failed (load : Int → Bool) (w : MainWindow)
    (h : ¬ w.encCurFrame > w.encNumFrames) (hl : load (frameToLoad w) = false) :
    EnqueueNextFrame load w = (false, w) := by
  unfold EnqueueNextFrame
  unfold frameToLoad at hl
  rw [if_neg h]
  simp only [hl]
  rfl

theorem EnqueueNextFrame_loaded (load : Int → Bool) (w : MainWindow)
    (h : ¬ w.encCurFrame > w.encNumFrames) (hl : load (frameToLoad w) = true) :
    EnqueueNextFrame load w =
      (true,
        { w with encVideoQueue := w.encVideoQueue ++ [VideoImage.scanned (frameToLoad w)],
                 encAudioLen := w.encAudioLen + w.samplesperframe_file,
                 encCurFrame := w.encCurFrame + 1 }) := by
  unfold EnqueueNextFrame
  unfold frameToLoad at hl
  rw [if_neg h]
  simp only [hl]
  rfl

/-- C22: `EnqueueNextFrame` returns false and changes nothing when the frame cursor
exceeds the configured frame count; otherwise, when the load succeeds, it appends
one image (the loaded frame) to the back of the video queue, adds
`samplesperframe_file` to the accumulated audio length, adds 1 to the cursor and
returns true; when the load fails it returns false and changes nothing. -/
theorem EnqueueNextFrame_effect (load : Int → Bool) (w : MainWindow) :
    (w.encCurFrame > w.encNumFrames → EnqueueNextFrame load w = (false, w)) ∧
    (¬ w.encCurFrame > w.encNumFrames → load (frameToLoad w) = true →
      (EnqueueNextFrame load w).1 = true ∧
      (EnqueueNextFrame load w).2.encVideoQueue =
        w.encVideoQueue ++ [VideoImage.scanned (frameToLoad w)] ∧
      (EnqueueNextFrame load w).2.encVideoQueue.length = w.encVideoQueue.length + 1 ∧
      (EnqueueNextFrame load w).2.encAudioLen = w.encAudioLen + w.samplesperframe_file ∧
      (EnqueueNextFrame load w).2.encCurFrame = w.encCurFrame + 1) ∧
    (¬ w.encCurFrame > w.encNumFrames → load (frameToLoad w) = false →
      EnqueueNextFrame load w = (false, w)) := by
  refine ⟨EnqueueNextFrame_exhausted load w, ?_, EnqueueNextFrame_load_failed load w⟩
  intro h hl
  rw [EnqueueNextFrame_loaded load w h hl]
  exact ⟨rfl, rfl, by simp, rfl, rfl⟩

/-- Instances of C22: an exhausted export, the first frame of an export, and an
export whose next frame fails to load. -/
theorem EnqueueNextFrame_effect_witness :
    (exportExhausted.encCurFrame > exportExhausted.encNumFrames ∧
      EnqueueNextFrame loadAlways exportExhausted = (false, exportExhausted)) ∧
    ((¬ (exportStart 0).encCurFrame > (exportStart 0).encNumFrames ∧
        loadAlways (frameToLoad (exportStart 0)) = true) ∧
      (EnqueueNextFrame loadAlways (exportStart 0)).2.encAudioLen = 2000) ∧
    ((¬ exportLoadFails.encCurFrame > exportLoadFails.encNumFrames ∧
        loadFailsFrom5 (frameToLoad exportLoadFails) = false) ∧
      EnqueueNextFrame loadFailsFrom5 exportLoadFails = (false, exportLoadFails)) :=
  ⟨⟨by decide, (EnqueueNextFrame_effect loadAlways exportExhausted).1 (by decide)⟩,
    ⟨⟨by decide, by decide⟩,
      ((EnqueueNextFrame_effect loadAlways (exportStart 0)).2.1 (by decide) (by decide)).2.2.2.1⟩,
    ⟨⟨by decide, by decide⟩,
      (EnqueueNextFrame_effect loadFailsFrom5 exportLoadFails).2.2 (by decide) (by decide)⟩⟩

/-! ## Successive calls of EnqueueNextFrame in an export -/

theorem MuxMain_cursor_fields (w : MainWindow) (tmp : AVFrame) (s n d : Int) :
    (MuxMain w tmp s n d).encCurFrame = 2 ∧ (MuxMain w tmp s n d).encStartFrame = s ∧
    (MuxMain w tmp s n d).encNumFrames = n ∧
    (MuxMain w tmp s n d).inFileNumFrames = w.inFileNumFrames := by
  unfold MuxMain
  by_cases h : d > 0
  · simp [h]
  · simp [h]

theorem enqueueTimes_succ (load : Int → Bool) (k : Nat) (w : MainWindow) :
    enqueueTimes load (k + 1) w = enqueueTimes load k (EnqueueNextFrame load w).2 := rfl

/-- While every load succeeds and the frame count is not passed, `k` calls of
`EnqueueNextFrame` advance the cursor by `k` and leave the start frame, the frame
count and the length of the scan as they were. -/
theorem enqueueTimes_cursor (load : Int → Bool) (hload : ∀ f, load f = true) :
    ∀ (k : Nat) (w : MainWindow), w.encCurFrame + (k : Int) ≤ w.encNumFrames + 1 →
      (enqueueTimes load k w).encCurFrame = w.encCurFrame + (k : Int) ∧
      (enqueueTimes load k w).encStartFrame = w.encStartFrame ∧
      (enqueueTimes load k w).encNumFrames = w.encNumFrames ∧
      (enqueueTimes load k w).inFileNumFrames = w.inFileNumFrames := by
  intro k
  induction k with
  | zero => intro w _; exact ⟨by simp [enqueueTimes], rfl, rfl, rfl⟩
  | succ k ih =>
    intro w hk
    have hnot : ¬ w.encCurFrame > w.encNumFrames := by push_cast at hk; omega
    rw [enqueueTimes_succ, EnqueueNextFrame_loaded load w hnot (hload _)]
    obtain ⟨h1, h2, h3, h4⟩ := ih
      { w with encVideoQueue := w.encVideoQueue ++ [VideoImage.scanned (frameToLoad w)],
               encAudioLen := w.encAudioLen + w.samplesperframe_file,
               encCurFrame := w.encCurFrame + 1 }
      (by simp only []; push_cast at hk; omega)
    simp only [] at h1 h2 h3 h4
    exact ⟨by rw [h1]; push_cast; ring, h2, h3, h4⟩

/-- C25, refuted as stated: in the export of 10 frames from frame 0 the first
success of `EnqueueNextFrame` loads frame 2, not frame 0; the ninth call still
succeeds and the tenth returns false, so there are 9 successes, not 10. -/
theorem EnqueueNextFrame_export_starts_at_cursor_two :
    (exportStart 0).encStartFrame = 0 ∧ (exportStart 0).encNumFrames = 10 ∧
    (EnqueueNextFrame loadAlways (exportStart 0)).1 = true ∧
    (EnqueueNextFrame loadAlways (exportStart 0)).2.encVideoQueue = [VideoImage.scanned 2] ∧
    (EnqueueNextFrame loadAlways (enqueueTimes loadAlways 8 (exportStart 0))).1 = true ∧
    (EnqueueNextFrame loadAlways (enqueueTimes loadAlways 9 (exportStart 0))).1 = false := by
  decide

/-- C25, as amended: in an export started by `MuxMain` with start frame `s` and frame
count `n >= 1` in which every frame load succeeds, `EnqueueNextFrame` succeeds
exactly `n - 1` times before returning false, and its `k`-th success
(`k = 0, ..., n-2`) loads the source frame `s + 2 + k`, or the frame before it when
`s + 2 + k` is past the last frame of the scan. -/
theorem EnqueueNextFrame_successes_in_export (load : Int → Bool) (w : MainWindow)
    (tmp : AVFrame) (s n d : Int) (hload : ∀ f, load f = true) (hn : 1 ≤ n) :
    (∀ k : Nat, (k : Int) < n - 1 →
      (EnqueueNextFrame load (enqueueTimes load k (MuxMain w tmp s n d))).1 = true ∧
      (EnqueueNextFrame load (enqueueTimes load k (MuxMain w tmp s n d))).2.encVideoQueue =
        (enqueueTimes load k (MuxMain w tmp s n d)).encVideoQueue ++
          [VideoImage.scanned
            (if s + 2 + (k : Int) > w.inFileNumFrames - 1 then s + 2 + (k : Int) - 1
              else s + 2 + (k : Int))]) ∧
    (EnqueueNextFrame load (enqueueTimes load (n - 1).toNat (MuxMain w tmp s n d))).1
      = false := by
  obtain ⟨m1, m2, m3, m4⟩ := MuxMain_cursor_fields w tmp s n d
  constructor
  · intro k hk
    obtain ⟨h1, h2, h3, h4⟩ := enqueueTimes_cursor load hload k (MuxMain w tmp s n d)
      (by rw [m1, m3]; omega)
    rw [m1] at h1
    rw [m2] at h2
    rw [m3] at h3
    rw [m4] at h4
    have hnot : ¬ (enqueueTimes load k (MuxMain w tmp s n d)).encCurFrame >
        (enqueueTimes load k (MuxMain w tmp s n d)).encNumFrames := by
      rw [h1, h3]; omega
    rw [EnqueueNextFrame_loaded load _ hnot (hload _)]
    refine ⟨rfl, ?_⟩
    simp only [frameToLoad, h1, h2, h4]
    have e : s + (2 + (k : Int)) = s + 2 + (k : Int) := by ring
    rw [e]
  · obtain ⟨h1, _, h3, _⟩ := enqueueTimes_cursor load hload (n - 1).toNat (MuxMain w tmp s n d)
      (by rw [m1, m3]; omega)
    rw [m1] at h1
    rw [m3] at h3
    rw [EnqueueNextFrame_exhausted load _ (by rw [h1, h3]; omega)]

/-- Instance of the amended C25: the export of 10 frames from frame 0 on a scan of
100 frames. -/
theorem EnqueueNextFrame_successes_in_export_witness :
    ((∀ f, loadAlways f = true) ∧ (1 : Int) ≤ 10) ∧
    (EnqueueNextFrame loadAlways
      (enqueueTimes loadAlways ((10 : Int) - 1).toNat
        (MuxMain freshMainWindow stereoFrame1024 0 10 0))).1 = false :=
  ⟨⟨fun _ => rfl, by decide⟩,
    (EnqueueNextFrame_successes_in_export loadAlways freshMainWindow stereoFrame1024 0 10 0
      (fun _ => rfl) (by decide)).2⟩

/-! ## The frame range of an event -/

theorem FrameCall.apply_ordered (ev : vbevent) (c : FrameCall) : (c.apply ev).frameStart ≤ (c.apply ev).frameEnd := by
  cases c with
  | SetStart s =>
    simp only [FrameCall.apply, vbevent.SetStart]
    split <;> omega
  | SetEnd e =>
    simp only [FrameCall.apply, vbevent.SetEnd]
    by_cases h0 : e = 0
    · rw [if_pos h0]
    · rw [if_neg h0]
      simp only []
      split <;> omega
  | SetStartAndEnd s e =>
    simp only [FrameCall.apply, vbevent.SetStartAndEnd]
    exact le_max_left _ _
  | SetStartAndEndFrame f =>
    simp only [FrameCall.apply, vbevent.SetStartAndEndFrame]
    exact le_refl _

theorem FrameCall.foldl_apply_ordered (calls : List FrameCall) :
    ∀ ev : vbevent, ev.frameStart ≤ ev.frameEnd →
      (calls.foldl FrameCall.apply ev).frameStart ≤ (calls.foldl FrameCall.apply ev).frameEnd := by
  induction calls with
  | nil => intro ev h; exact h
  | cons c cs ih =>
    intro ev h
    rw [List.foldl_cons]
    exact ih _ (FrameCall.apply_ordered ev c)

/-- C27: an event satisfies `frameStart <= frameEnd` after construction (for every
frame number and id) and after any sequence of `SetStart`, `SetEnd`,
`SetStartAndEnd(s, e)` and `SetStartAndEnd(f)` calls with arbitrary arguments;
`SetEnd(0)` sets the end equal to the start, and `SetEnd(e)` with `0 < e < start`
moves the start down to `e` (and the end to `e`). -/
theorem frameStart_le_frameEnd (id framenum : Nat) (calls : List FrameCall) (ev : vbevent)
    (e : Nat) :
    (newEvent id framenum).frameStart ≤ (newEvent id framenum).frameEnd ∧
    (calls.foldl FrameCall.apply (newEvent id framenum)).frameStart ≤
      (calls.foldl FrameCall.apply (newEvent id framenum)).frameEnd ∧
    ((ev.SetEnd 0).frameEnd = ev.frameStart ∧ (ev.SetEnd 0).frameStart = ev.frameStart) ∧
    (0 < e → e < ev.frameStart →
      (ev.SetEnd e).frameStart = e ∧ (ev.SetEnd e).frameEnd = e) := by
  refine ⟨le_refl _, FrameCall.foldl_apply_ordered calls _ (le_refl _), ⟨rfl, rfl⟩, ?_⟩
  intro h0 h1
  unfold vbevent.SetEnd
  rw [if_neg (by omega)]
  simp only []
  rw [if_pos h1]
  exact ⟨rfl, trivial⟩

/-- Instance of C27: an event constructed on frame 12 whose end is set to frame 5. -/
theorem frameStart_le_frameEnd_witness :
    (0 < 5 ∧ 5 < (newEvent 1 12).frameStart) ∧
    ((newEvent 1 12).SetEnd 5).frameStart = 5 ∧ ((newEvent 1 12).SetEnd 5).frameEnd = 5 :=
  ⟨⟨by decide, by decide⟩,
    (frameStart_le_frameEnd 1 12 [] (newEvent 1 12) 5).2.2.2 (by decide) (by decide)⟩

/-! ## The recursion of Attribute and SetAttribute -/

theorem vbevent.SetAttributeWithin_succ (qt : QtText) (toInt : List Char → Option Int) (n : Nat)
    (ev : vbevent) (a : List Char) (v : QString) :
    vbevent.SetAttributeWithin qt toInt (n + 1) ev a v =
      vbevent.SetAttributeBody qt toInt
        (match vbevent.SubTypeName qt ev with
          | none => Outcome.undefined
          | some subtag => vbevent.SetAttributeWithin qt toInt n ev subtag v)
        ev a v := rfl

theorem AttributeBody_subEvent (r : Outcome QString) :
    vbevent.AttributeBody asciiText r subEvent "SubType".toList = r := by
  rfl

theorem SetAttributeBody_subEvent (toInt : List Char → Option Int) (r : Outcome vbevent)
    (v : QString) :
    vbevent.SetAttributeBody asciiText toInt r subEvent "SubType".toList v = r := by
  rfl

theorem vbevent.AttributeBody_unfinished (qt : QtText) (r : Outcome QString) (e : vbevent)
    (a : List Char) (h : vbevent.AttributeBody qt r e a = Outcome.unfinished) :
    r = Outcome.unfinished ∧
      ∃ attr, MakeAttributeName qt a = some attr ∧ compareCI qt attr "SubType".toList = true := by
  unfold vbevent.AttributeBody at h
  cases hm : MakeAttributeName qt a with
  | none => rw [hm] at h; simp at h
  | some attr =>
    rw [hm] at h
    simp only [] at h
    cases hf : List.find? (fun p => compareCI qt p.1 attr) e.attributes with
    | some p => rw [hf] at h; simp at h
    | none =>
      rw [hf] at h
      simp only [] at h
      split at h
      · simp at h
      · split at h
        · simp at h
        · split at h
          · simp at h
          · split at h
            · rename_i h4
              exact ⟨h, attr, rfl, h4⟩
            · split at h <;> simp at h

theorem vbevent.SetAttributeBody_unfinished (qt : QtText) (toInt : List Char → Option Int)
    (r : Outcome vbevent) (e : vbevent) (a : List Char) (v : QString)
    (h : vbevent.SetAttributeBody qt toInt r e a v = Outcome.unfinished) :
    r = Outcome.unfinished ∧
      ∃ attr, MakeAttributeName qt a = some attr ∧ compareCI qt attr "SubType".toList = true := by
  unfold vbevent.SetAttributeBody at h
  cases hm : MakeAttributeName qt a with
  | none => rw [hm] at h; simp at h
  | some attr =>
    rw [hm] at h
    simp only [] at h
    split at h
    · simp at h
    · split at h
      · simp at h
      · split at h
        · simp at h
        · split at h
          · rename_i h4
            exact ⟨h, attr, rfl, h4⟩
          · split at h <;> simp at h

/-- The recursion of `Attribute` and `SetAttribute` ends for every event whose
subtype attribute name is not turned into `SubType` by `MakeAttributeName` (ignoring
case): every call returns within depth 2, whatever the attribute name and value. -/
theorem vbevent.Attribute_returns (qt : QtText) (toInt : List Char → Option Int) (e : vbevent)
    (h : ∀ st attr, vbevent.SubTypeName qt e = some st → MakeAttributeName qt st = some attr →
      compareCI qt attr "SubType".toList = false)
    (a : List Char) (v : QString) :
    vbevent.Attribute qt e a ≠ Outcome.unfinished ∧
    vbevent.SetAttributeWithin qt toInt 2 e a v ≠ Outcome.unfinished := by
  constructor
  · intro hu
    unfold vbevent.Attribute at hu
    rw [vbevent.AttributeWithin_succ] at hu
    obtain ⟨h1, _⟩ := vbevent.AttributeBody_unfinished qt _ e a hu
    cases hst : vbevent.SubTypeName qt e with
    | none => rw [hst] at h1; simp at h1
    | some st =>
      rw [hst] at h1
      simp only [] at h1
      rw [vbevent.AttributeWithin_succ] at h1
      obtain ⟨_, attr, hm, hc⟩ := vbevent.AttributeBody_unfinished qt _ e st h1
      rw [h st attr hst hm] at hc
      exact Bool.noConfusion hc
  · intro hu
    rw [vbevent.SetAttributeWithin_succ] at hu
    obtain ⟨h1, _⟩ := vbevent.SetAttributeBody_unfinished qt toInt _ e a v hu
    cases hst : vbevent.SubTypeName qt e with
    | none => rw [hst] at h1; simp at h1
    | some st =>
      rw [hst] at h1
      simp only [] at h1
      rw [vbevent.SetAttributeWithin_succ] at h1
      obtain ⟨_, attr, hm, hc⟩ := vbevent.SetAttributeBody_unfinished qt toInt _ e st v h1
      rw [h st attr hst hm] at hc
      exact Bool.noConfusion hc

/-- C26, evaluated at the failing input: an event of the user-defined type `Sub` has
the subtype attribute name `SubType`, so `Attribute("SubType")` calls `SubType()`,
which calls `Attribute("SubType")` again, and `SetAttribute("SubType", v)` calls
`SetSubType(v)`, which calls `SetAttribute("SubType", v)` again: neither call comes
back within any depth of recursion. -/
theorem Attribute_SubType_does_not_return :
    vbevent.SetTypeName asciiText (newEvent 1 0) (some "Sub".toList) = subEvent ∧
    vbevent.SubTypeName asciiText subEvent = some "SubType".toList ∧
    (∀ n : Nat,
      vbevent.AttributeWithin asciiText n subEvent "SubType".toList = Outcome.unfinished) ∧
    (∀ (n : Nat) (toInt : List Char → Option Int) (v : QString),
      vbevent.SetAttributeWithin asciiText toInt n subEvent "SubType".toList v =
        Outcome.unfinished) := by
  have hst : vbevent.SubTypeName asciiText subEvent = some "SubType".toList := by decide
  refine ⟨by decide, hst, ?_, ?_⟩
  · intro n
    induction n with
    | zero => rfl
    | succ n ih =>
      rw [vbevent.AttributeWithin_succ, hst]
      simp only []
      rw [ih]
      exact AttributeBody_subEvent _
  · intro n toInt v
    induction n with
    | zero => rfl
    | succ n ih =>
      rw [vbevent.SetAttributeWithin_succ, hst]
      simp only []
      rw [ih]
      exact SetAttributeBody_subEvent toInt _ v

/-! ## The events of a frame -/

theorem mapValue_cons (p : Nat × List vbevent) (rest : VBFilmEvents) (k : Nat) :
    mapValue (p :: rest) k = if p.1 = k then p.2 else mapValue rest k := by
  unfold mapValue
  by_cases h : p.1 = k
  · simp [List.find?_cons, h]
  · simp [List.find?_cons, h]

theorem storedEvents_cons (p : Nat × List vbevent) (rest : VBFilmEvents) :
    storedEvents (p :: rest) = p.2 ++ storedEvents rest := by
  simp [storedEvents]

theorem mem_storedEvents {filmEvents : VBFilmEvents} {e : vbevent} :
    e ∈ storedEvents filmEvents ↔ ∃ p ∈ filmEvents, e ∈ p.2 := by
  unfold storedEvents
  simp only [List.mem_flatten, List.mem_map]
  constructor
  · rintro ⟨l, ⟨p, hp, rfl⟩, he⟩
    exact ⟨p, hp, he⟩
  · rintro ⟨p, hp, he⟩
    exact ⟨p.2, ⟨p, hp, rfl⟩, he⟩

/-- In a map whose lists hold the events that start at their key, and whose keys
differ, the list of a key holds each stored event that starts there as often as it
is stored, and no other event. -/
theorem count_mapValue (a : vbevent) (k : Nat) :
    ∀ filmEvents : VBFilmEvents, (filmEvents.map (fun p => p.1)).Nodup →
      (∀ p ∈ filmEvents, ∀ e ∈ p.2, e.frameStart = p.1) →
      (mapValue filmEvents k).count a =
        if a.frameStart = k then (storedEvents filmEvents).count a else 0 := by
  intro filmEvents
  induction filmEvents with
  | nil => intro _ _; simp [mapValue, storedEvents]
  | cons p rest ih =>
    intro hnd hkeyed
    rw [List.map_cons, List.nodup_cons] at hnd
    have ih2 := ih hnd.2 (fun q hq => hkeyed q (List.mem_cons_of_mem _ hq))
    have hp := hkeyed p (List.mem_cons_self _ _)
    rw [mapValue_cons, storedEvents_cons, List.count_append]
    by_cases hk : p.1 = k
    · rw [if_pos hk]
      by_cases ha : a.frameStart = k
      · rw [if_pos ha]
        have : (storedEvents rest).count a = 0 := by
          rw [List.count_eq_zero]
          intro hmem
          obtain ⟨q, hq, hqa⟩ := mem_storedEvents.1 hmem
          have := hkeyed q (List.mem_cons_of_mem _ hq) a hqa
          apply hnd.1
          rw [List.mem_map]
          exact ⟨q, hq, by rw [← this, ha, hk]⟩
        rw [this, Nat.add_zero]
      · rw [if_neg ha, List.count_eq_zero]
        intro hmem
        exact ha (by rw [hp a hmem, hk])
    · rw [if_neg hk, ih2]
      by_cases ha : a.frameStart = k
      · rw [if_pos ha, if_pos ha]
        have : p.2.count a = 0 := by
          rw [List.count_eq_zero]
          intro hmem
          exact hk (by rw [← hp a hmem, ha])
        rw [this, Nat.zero_add]
      · rw [if_neg ha, if_neg ha]

theorem mapValue_of_not_contains (filmEvents : VBFilmEvents) (k : Nat)
    (h : mapContains filmEvents k = false) : mapValue filmEvents k = [] := by
  induction filmEvents with
  | nil => rfl
  | cons p rest ih =>
    unfold mapContains at h
    rw [List.any_cons, Bool.or_eq_false_iff] at h
    rw [mapValue_cons, if_neg (by simpa using h.1)]
    exact ih h.2

theorem count_filter_ite (p : vbevent → Bool) (a : vbevent) (l : List vbevent) :
    (l.filter p).count a = if p a = true then l.count a else 0 := by
  by_cases h : p a = true
  · rw [if_pos h, List.count_filter h]
  · rw [if_neg h, List.count_eq_zero]
    intro hmem
    exact h (List.mem_filter.1 hmem).2

/-- For every frame other than frame 1, `FilmEventsForFrame` returns each stored
event whose range covers the frame exactly as often as it is stored and no other
event, when the map is keyed by the start frames, every stored event has
`Start <= End`, and the multi-frame list holds the stored events with
`End - Start >= 2`. -/
theorem FilmEventsForFrame_perm (filmEvents : VBFilmEvents) (frame : Nat)
    (hnd : (filmEvents.map (fun p => p.1)).Nodup)
    (hkeyed : ∀ p ∈ filmEvents, ∀ e ∈ p.2, e.frameStart = p.1)
    (hord : ∀ e ∈ storedEvents filmEvents,
      e.frameStart ≤ e.frameEnd ∧ e.frameEnd < 4294967296)
    (h1 : frame ≠ 1) :
    List.Perm
      (FilmEventsForFrame filmEvents
        ((storedEvents filmEvents).filter vbevent.IsMultiFrame) frame)
      ((storedEvents filmEvents).filter
        (fun e => decide (e.frameStart ≤ frame) && decide (frame ≤ e.frameEnd))) := by
  rw [List.perm_iff_count]
  intro a
  have hstart : (if mapContains filmEvents frame then mapValue filmEvents frame else [])
      = mapValue filmEvents frame := by
    cases hc : mapContains filmEvents frame with
    | true => simp
    | false => simp [mapValue_of_not_contains filmEvents frame hc]
  have hend : (if (decide (frame > 0) && mapContains filmEvents (frame - 1)) = true then
        (mapValue filmEvents (frame - 1)).filter (fun e => decide (e.frameEnd ≥ frame))
      else [])
      = if frame > 0 then
          (mapValue filmEvents (frame - 1)).filter (fun e => decide (e.frameEnd ≥ frame))
        else [] := by
    by_cases hf : frame > 0
    · cases hc : mapContains filmEvents (frame - 1) with
      | true => simp [hf]
      | false => simp [hf, mapValue_of_not_contains filmEvents (frame - 1) hc]
    · simp [hf]
  unfold FilmEventsForFrame
  simp only []
  rw [hstart, hend, List.count_append, List.count_append, count_mapValue a frame filmEvents hnd hkeyed,
    count_filter_ite, count_filter_ite, count_filter_ite]
  by_cases hmem : a ∈ storedEvents filmEvents
  · obtain ⟨ho1, ho2⟩ := hord a hmem
    have hmulti : vbevent.IsMultiFrame a = true ↔ a.frameStart + 2 ≤ a.frameEnd := by
      unfold vbevent.IsMultiFrame
      rw [decide_eq_true_iff]
      omega
    by_cases hf : frame > 0
    · rw [if_pos hf, count_filter_ite, count_mapValue a (frame - 1) filmEvents hnd hkeyed]
      have hf1 : frame > 1 := by omega
      simp only [if_pos hf1, Bool.and_eq_true, decide_eq_true_iff, hmulti]
      split_ifs <;> omega
    · rw [if_neg hf]
      have hf0 : frame = 0 := by omega
      subst hf0
      simp only [Bool.and_eq_true, decide_eq_true_iff, hmulti, List.count_nil]
      split_ifs <;> omega
  · have hc := List.count_eq_zero.2 hmem
    by_cases hf : frame > 0
    · rw [if_pos hf, count_filter_ite, count_mapValue a (frame - 1) filmEvents hnd hkeyed, hc]
      simp
    · rw [if_neg hf, hc]
      simp

/-- C24, evaluated at the failing input: with one stored event on the frames 0 to 2,
listed as the only multi-frame event, `FilmEventsForFrame(1)` returns that event
twice: once as an event starting at frame 0 that reaches frame 1, and once as a
multi-frame event starting before `base = 1`. -/
theorem FilmEventsForFrame_frame_one_twice :
    (storedEvents oneLongEvent).filter vbevent.IsMultiFrame = [threeFrameEvent] ∧
    (threeFrameEvent.frameStart ≤ 1 ∧ 1 ≤ threeFrameEvent.frameEnd) ∧
    FilmEventsForFrame oneLongEvent [threeFrameEvent] 1 =
      [threeFrameEvent, threeFrameEvent] ∧
    (FilmEventsForFrame oneLongEvent [threeFrameEvent] 1).count threeFrameEvent = 2 ∧
    FilmEventsForFrame oneLongEvent [threeFrameEvent] 2 = [threeFrameEvent] := by
  decide

/-! ## Adding an event to the table model -/

theorem vbevent.operatorLt_iff (a b : vbevent) :
    a.operatorLt b = true ↔
      a.frameStart < b.frameStart ∨
      (a.frameStart = b.frameStart ∧
        (a.BoundsSortType < b.BoundsSortType ∨
          (a.BoundsSortType = b.BoundsSortType ∧ a.boundsY0 < b.boundsY0))) := by
  unfold vbevent.operatorLt
  split_ifs with h1 h2 h3 h4
  · simp [h1]
  · simp only [Bool.false_eq_true, false_iff]
    omega
  · simp only [true_iff]
    exact Or.inr ⟨by omega, Or.inl h3⟩
  · simp only [Bool.false_eq_true, false_iff]
    omega
  · rw [decide_eq_true_iff]
    constructor
    · intro h
      exact Or.inr ⟨by omega, Or.inr ⟨by omega, h⟩⟩
    · rintro (h | ⟨_, h | ⟨_, h⟩⟩)
      · omega
      · omega
      · exact h

theorem vbevent.operatorLt_asymm (a b : vbevent) (h : a.operatorLt b = true) :
    ¬ b.operatorLt a = true := by
  rw [vbevent.operatorLt_iff] at h ⊢
  rintro (h2 | ⟨h2, h3 | ⟨h3, h4⟩⟩)
  · rcases h with h | ⟨h, _⟩ <;> omega
  · rcases h with h | ⟨_, h | ⟨h, _⟩⟩ <;> omega
  · rcases h with h | ⟨_, h | ⟨_, h⟩⟩
    · omega
    · omega
    · exact lt_asymm h h4

theorem vbevent.operatorLt_trans (a b c : vbevent) (h1 : a.operatorLt b = true)
    (h2 : b.operatorLt c = true) : a.operatorLt c = true := by
  rw [vbevent.operatorLt_iff] at h1 h2 ⊢
  rcases h1 with h1 | ⟨e1, h1 | ⟨f1, h1⟩⟩ <;> rcases h2 with h2 | ⟨e2, h2 | ⟨f2, h2⟩⟩
  · exact Or.inl (by omega)
  · exact Or.inl (by omega)
  · exact Or.inl (by omega)
  · exact Or.inl (by omega)
  · exact Or.inr ⟨by omega, Or.inl (by omega)⟩
  · exact Or.inr ⟨by omega, Or.inl (by omega)⟩
  · exact Or.inl (by omega)
  · exact Or.inr ⟨by omega, Or.inl (by omega)⟩
  · exact Or.inr ⟨by omega, Or.inr ⟨by omega, lt_trans h1 h2⟩⟩

theorem mem_QList_insert (events : List vbevent) (idx : Nat) (event y : vbevent) :
    y ∈ QList_insert events idx event ↔ y = event ∨ y ∈ events := by
  unfold QList_insert
  rw [List.mem_append, List.mem_cons]
  constructor
  · rintro (h | h | h)
    · exact Or.inr (List.mem_of_mem_take h)
    · exact Or.inl h
    · exact Or.inr (List.mem_of_mem_drop h)
  · rintro (h | h)
    · exact Or.inr (Or.inl h)
    · rw [← List.take_append_drop idx events, List.mem_append] at h
      rcases h with h | h
      · exact Or.inl h
      · exact Or.inr (Or.inr h)

theorem QList_insert_cons_succ (x : vbevent) (xs : List vbevent) (idx : Nat) (event : vbevent) :
    QList_insert (x :: xs) (idx + 1) event = x :: QList_insert xs idx event := rfl

theorem QList_insert_zero (events : List vbevent) (event : vbevent) :
    QList_insert events 0 event = event :: events := rfl

theorem QList_insert_length (events : List vbevent) (idx : Nat) (event : vbevent) :
    (QList_insert events idx event).length = events.length + 1 := by
  unfold QList_insert
  rw [List.length_append, List.length_cons, ← Nat.add_assoc, ← List.length_append,
    List.take_append_drop]

theorem QList_insert_eraseIdx (event : vbevent) :
    ∀ (events : List vbevent) (idx : Nat), idx ≤ events.length →
      (QList_insert events idx event).eraseIdx idx = events := by
  intro events
  induction events with
  | nil =>
    intro idx h
    have : idx = 0 := by simpa using h
    subst this
    rfl
  | cons x xs ih =>
    intro idx h
    cases idx with
    | zero => rfl
    | succ i =>
      rw [QList_insert_cons_succ, List.eraseIdx_cons_succ, ih i (by simpa using h)]

theorem insertPosition_cons (event x : vbevent) (xs : List vbevent) :
    insertPosition event (x :: xs) =
      if event.operatorLt x = true then 0 else insertPosition event xs + 1 := by
  unfold insertPosition
  rw [List.findIdx_cons]
  cases event.operatorLt x <;> simp

/-- Inserting an event before the first element it is less than keeps a list
sorted, in the sense that no later element is less than an earlier one. -/
theorem QList_insert_sorted (event : vbevent) :
    ∀ events : List vbevent,
      events.Pairwise (fun a b => ¬ b.operatorLt a = true) →
      (QList_insert events (insertPosition event events) event).Pairwise
        (fun a b => ¬ b.operatorLt a = true) := by
  intro events
  induction events with
  | nil => intro _; simp [QList_insert, insertPosition]
  | cons x xs ih =>
    intro h
    rw [List.pairwise_cons] at h
    rw [insertPosition_cons]
    by_cases hx : event.operatorLt x = true
    · rw [if_pos hx, QList_insert_zero, List.pairwise_cons]
      refine ⟨?_, List.pairwise_cons.2 h⟩
      intro b hb hlt
      rcases List.mem_cons.1 hb with rfl | hb
      · exact vbevent.operatorLt_asymm _ _ hx hlt
      · exact h.1 b hb (vbevent.operatorLt_trans _ _ _ hlt hx)
    · rw [if_neg hx, QList_insert_cons_succ, List.pairwise_cons]
      refine ⟨?_, ih h.2⟩
      intro b hb
      rcases (mem_QList_insert _ _ _ _).1 hb with rfl | hb
      · exact hx
      · exact h.1 b hb

theorem mapValue_mapSet_self (k : Nat) (l : List vbevent) :
    ∀ filmEvents : VBFilmEvents, mapValue (mapSet k l filmEvents) k = l := by
  intro filmEvents
  induction filmEvents with
  | nil => simp [mapSet, mapValue_cons]
  | cons p rest ih =>
    unfold mapSet
    by_cases h1 : k < p.1
    · rw [if_pos h1, mapValue_cons, if_pos rfl]
    · rw [if_neg h1]
      by_cases h2 : k = p.1
      · rw [if_pos h2, mapValue_cons, if_pos rfl]
      · rw [if_neg h2, mapValue_cons, if_neg (fun h => h2 h.symm)]
        exact ih

theorem mapValue_mapSet_other (k : Nat) (l : List vbevent) (j : Nat) (hj : j ≠ k) :
    ∀ filmEvents : VBFilmEvents, mapValue (mapSet k l filmEvents) j = mapValue filmEvents j := by
  intro filmEvents
  induction filmEvents with
  | nil => simp [mapSet, mapValue_cons, hj.symm, mapValue]
  | cons p rest ih =>
    unfold mapSet
    by_cases h1 : k < p.1
    · rw [if_pos h1, mapValue_cons, if_neg hj.symm]
    · rw [if_neg h1]
      by_cases h2 : k = p.1
      · rw [if_pos h2, mapValue_cons, mapValue_cons, if_neg (by omega), if_neg (by omega)]
      · rw [if_neg h2, mapValue_cons, mapValue_cons, ih]

theorem mapValue_of_lt_keys (k : Nat) :
    ∀ filmEvents : VBFilmEvents, (∀ p ∈ filmEvents, k < p.1) → mapValue filmEvents k = [] := by
  intro filmEvents
  induction filmEvents with
  | nil => intro _; rfl
  | cons p rest ih =>
    intro h
    have := h p (List.mem_cons_self _ _)
    rw [mapValue_cons, if_neg (by omega)]
    exact ih (fun q hq => h q (List.mem_cons_of_mem _ hq))

theorem FilmEventsSize_cons (p : Nat × List vbevent) (rest : VBFilmEvents) :
    FilmEventsSize (p :: rest) = p.2.length + FilmEventsSize rest := by
  simp [FilmEventsSize]

theorem FilmEventsSize_mapSet (k : Nat) (l : List vbevent) :
    ∀ filmEvents : VBFilmEvents, (filmEvents.map (fun p => p.1)).Pairwise (fun a b => a < b) →
      FilmEventsSize (mapSet k l filmEvents) + (mapValue filmEvents k).length =
        FilmEventsSize filmEvents + l.length := by
  intro filmEvents
  induction filmEvents with
  | nil => intro _; simp [mapSet, FilmEventsSize, mapValue]
  | cons p rest ih =>
    intro hs
    rw [List.map_cons, List.pairwise_cons] at hs
    unfold mapSet
    by_cases h1 : k < p.1
    · rw [if_pos h1, FilmEventsSize_cons, mapValue_cons, if_neg (by omega)]
      have : mapValue rest k = [] := by
        apply mapValue_of_lt_keys
        intro q hq
        have := hs.1 q.1 (List.mem_map.2 ⟨q, hq, rfl⟩)
        omega
      rw [this]
      simp only [List.length_nil]
      omega
    · rw [if_neg h1]
      by_cases h2 : k = p.1
      · rw [if_pos h2, FilmEventsSize_cons, FilmEventsSize_cons, mapValue_cons, if_pos h2.symm]
        simp only []
        omega
      · rw [if_neg h2, FilmEventsSize_cons, FilmEventsSize_cons, mapValue_cons,
          if_neg (fun h => h2 h.symm)]
        have := ih hs.2
        omega

/-- The keys of the map stay in strictly ascending order under `mapSet`. -/
theorem mapSet_keys_sorted (k : Nat) (l : List vbevent) :
    ∀ filmEvents : VBFilmEvents, (filmEvents.map (fun p => p.1)).Pairwise (fun a b => a < b) →
      ((mapSet k l filmEvents).map (fun p => p.1)).Pairwise (fun a b => a < b) ∧
      ∀ j ∈ (mapSet k l filmEvents).map (fun p => p.1),
        j = k ∨ j ∈ filmEvents.map (fun p => p.1) := by
  intro filmEvents
  induction filmEvents with
  | nil => intro _; simp [mapSet]
  | cons p rest ih =>
    intro hs
    have hs2 := hs
    rw [List.map_cons, List.pairwise_cons] at hs2
    unfold mapSet
    by_cases h1 : k < p.1
    · rw [if_pos h1]
      refine ⟨?_, ?_⟩
      · rw [List.map_cons, List.pairwise_cons]
        refine ⟨?_, hs⟩
        intro j hj
        rw [List.map_cons, List.mem_cons] at hj
        rcases hj with rfl | hj
        · exact h1
        · exact lt_trans h1 (hs2.1 j hj)
      · intro j hj
        rw [List.map_cons, List.mem_cons] at hj
        rcases hj with rfl | hj
        · exact Or.inl rfl
        · exact Or.inr hj
    · rw [if_neg h1]
      by_cases h2 : k = p.1
      · rw [if_pos h2]
        refine ⟨?_, ?_⟩
        · rw [List.map_cons, List.pairwise_cons]
          refine ⟨?_, hs2.2⟩
          intro j hj
          simp only []
          rw [h2]
          exact hs2.1 j hj
        · intro j hj
          rw [List.map_cons, List.mem_cons] at hj
          rcases hj with rfl | hj
          · exact Or.inl rfl
          · exact Or.inr (List.mem_cons_of_mem _ hj)
      · rw [if_neg h2]
        obtain ⟨i1, i2⟩ := ih hs2.2
        refine ⟨?_, ?_⟩
        · rw [List.map_cons, List.pairwise_cons]
          refine ⟨?_, i1⟩
          intro j hj
          rcases i2 j hj with rfl | hj2
          · omega
          · exact hs2.1 j hj2
        · intro j hj
          rw [List.map_cons, List.mem_cons] at hj
          rcases hj with rfl | hj
          · exact Or.inr (List.mem_cons_self _ _)
          · rcases i2 j hj with rfl | hj2
            · exact Or.inl rfl
            · exact Or.inr (List.mem_cons_of_mem _ hj2)

theorem insertEvent_eq (filmEvents : VBFilmEvents) (event : vbevent) :
    insertEvent filmEvents event =
      mapSet event.frameStart
        (QList_insert (mapValue filmEvents event.frameStart)
          (insertPosition event (mapValue filmEvents event.frameStart)) event) filmEvents := by
  unfold insertEvent
  cases hc : mapContains filmEvents event.frameStart with
  | true => simp
  | false =>
    rw [mapValue_of_not_contains filmEvents event.frameStart hc]
    simp [insertPosition]

theorem AddEvent_of_confident (qt : QtText) (m : VBFilmEventsTableModel)
    (filmEvents : VBFilmEvents) (event : vbevent) (hfe : m.filmEvents = some filmEvents)
    (hconf : m.trash = none ∨
      ∃ conf, event.EffectiveConfidence qt = Outcome.value conf ∧
        ¬ conf < m.confidenceThreshold) :
    AddEvent qt m event =
      Outcome.value { m with filmEvents := some (insertEvent filmEvents event) } := by
  unfold AddEvent
  rw [hfe]
  simp only []
  rcases hconf with ht | ⟨conf, hc, hlt⟩
  · rw [ht]
  · cases ht : m.trash with
    | none => rfl
    | some t =>
      simp only []
      rw [hc]
      simp only []
      rw [if_neg hlt]


/-- C28: `AddEvent` of an event whose effective confidence is not below the threshold
(or with no trash list) inserts it into the list keyed by its `Start()`, at the
first index whose element it is less than; the other events of that list and their
order are kept, the lists of the other frames are unchanged, the total row count
grows by exactly 1, the keys stay in ascending order, and if that frame's list was
sorted with respect to `operator<` (no later element less than an earlier one) it
is sorted afterwards. -/
theorem AddEvent_inserts_and_keeps_sorted (qt : QtText) (m : VBFilmEventsTableModel)
    (filmEvents : VBFilmEvents) (event : vbevent) (hfe : m.filmEvents = some filmEvents)
    (hkeys : (filmEvents.map (fun p => p.1)).Pairwise (fun a b => a < b))
    (hconf : m.trash = none ∨
      ∃ conf, event.EffectiveConfidence qt = Outcome.value conf ∧
        ¬ conf < m.confidenceThreshold) :
    AddEvent qt m event =
      Outcome.value { m with filmEvents := some (insertEvent filmEvents event) } ∧
    insertPosition event (mapValue filmEvents event.frameStart) ≤
      (mapValue filmEvents event.frameStart).length ∧
    mapValue (insertEvent filmEvents event) event.frameStart =
      QList_insert (mapValue filmEvents event.frameStart)
        (insertPosition event (mapValue filmEvents event.frameStart)) event ∧
    (mapValue (insertEvent filmEvents event) event.frameStart).eraseIdx
        (insertPosition event (mapValue filmEvents event.frameStart)) =
      mapValue filmEvents event.frameStart ∧
    (∀ k, k ≠ event.frameStart →
      mapValue (insertEvent filmEvents event) k = mapValue filmEvents k) ∧
    FilmEventsSize (insertEvent filmEvents event) = FilmEventsSize filmEvents + 1 ∧
    ((insertEvent filmEvents event).map (fun p => p.1)).Pairwise (fun a b => a < b) ∧
    ((mapValue filmEvents event.frameStart).Pairwise (fun a b => ¬ b.operatorLt a = true) →
      (mapValue (insertEvent filmEvents event) event.frameStart).Pairwise
        (fun a b => ¬ b.operatorLt a = true)) := by
  have hpos : insertPosition event (mapValue filmEvents event.frameStart) ≤
      (mapValue filmEvents event.frameStart).length := List.findIdx_le_length _
  have hval := mapValue_mapSet_self event.frameStart
    (QList_insert (mapValue filmEvents event.frameStart)
      (insertPosition event (mapValue filmEvents event.frameStart)) event) filmEvents
  refine ⟨AddEvent_of_confident qt m filmEvents event hfe hconf, hpos, ?_, ?_, ?_, ?_, ?_, ?_⟩
  · rw [insertEvent_eq, hval]
  · rw [insertEvent_eq, hval]
    exact QList_insert_eraseIdx event _ _ hpos
  · intro k hk
    rw [insertEvent_eq]
    exact mapValue_mapSet_other _ _ k hk filmEvents
  · have := FilmEventsSize_mapSet event.frameStart
      (QList_insert (mapValue filmEvents event.frameStart)
        (insertPosition event (mapValue filmEvents event.frameStart)) event) filmEvents hkeys
    rw [QList_insert_length] at this
    rw [insertEvent_eq]
    omega
  · rw [insertEvent_eq]
    exact (mapSet_keys_sorted _ _ filmEvents hkeys).1
  · intro hs
    rw [insertEvent_eq, hval]
    exact QList_insert_sorted event _ hs

/-- Instance of C28: a second event is added to frame 1 of the two-frame project. -/
theorem AddEvent_inserts_and_keeps_sorted_witness :
    (twoFrameModel.filmEvents = some twoFrameEvents ∧
      (twoFrameEvents.map (fun p => p.1)).Pairwise (fun a b => a < b) ∧
      (newEvent 12 1).EffectiveConfidence asciiText = Outcome.value 1 ∧
      ¬ (1 : ℚ) < twoFrameModel.confidenceThreshold) ∧
    (mapValue (insertEvent twoFrameEvents (newEvent 12 1)) (newEvent 12 1).frameStart =
        [newEvent 11 1, newEvent 12 1] ∧
      FilmEventsSize (insertEvent twoFrameEvents (newEvent 12 1)) =
        FilmEventsSize twoFrameEvents + 1) :=
  ⟨⟨rfl, by decide, by decide, by decide⟩,
    ⟨(AddEvent_inserts_and_keeps_sorted asciiText twoFrameModel twoFrameEvents (newEvent 12 1)
        rfl (by decide) (Or.inr ⟨1, by decide, by decide⟩)).2.2.1,
      (AddEvent_inserts_and_keeps_sorted asciiText twoFrameModel twoFrameEvents (newEvent 12 1)
        rfl (by decide) (Or.inr ⟨1, by decide, by decide⟩)).2.2.2.2.2.1⟩⟩

/-! ## The samples of an audio chunk -/

theorem GetVideoFromQueue_audio_fields (load : Int → Bool) (w : MainWindow) :
    (GetVideoFromQueue load w).2.encAudioPad = w.encAudioPad ∧
    (GetVideoFromQueue load w).2.encAudioNextPts = w.encAudioNextPts ∧
    (GetVideoFromQueue load w).2.encS16Frame = w.encS16Frame := by
  obtain ⟨f1, f2, _, f4, _⟩ := EnqueueNextFrame_fields load w
  unfold GetVideoFromQueue
  cases hq : w.encVideoQueue.isEmpty with
  | true =>
    simp only [if_true]
    cases hb : (EnqueueNextFrame load w).1 with
    | false => exact ⟨f2, f1, f4⟩
    | true =>
      simp only [Bool.not_true, Bool.false_eq_true, if_false]
      cases (EnqueueNextFrame load w).2.encVideoQueue with
      | nil => exact ⟨f2, f1, f4⟩
      | cons p rest => exact ⟨f2, f1, f4⟩
  | false =>
    simp only [Bool.false_eq_true, if_false, Bool.not_true]
    cases w.encVideoQueue with
    | nil => exact ⟨rfl, rfl, rfl⟩
    | cons p rest => exact ⟨rfl, rfl, rfl⟩

theorem skipVideoFrames_audio_fields (load : Int → Bool) :
    ∀ (n : Nat) (w : MainWindow),
      (skipVideoFrames load n w).2.encAudioPad = w.encAudioPad ∧
      (skipVideoFrames load n w).2.encAudioNextPts = w.encAudioNextPts ∧
      (skipVideoFrames load n w).2.encS16Frame = w.encS16Frame := by
  intro n
  induction n with
  | zero => intro w; exact ⟨rfl, rfl, rfl⟩
  | succ n ih =>
    intro w
    unfold skipVideoFrames
    by_cases hs : w.encVideoSkip > 0
    · rw [if_pos hs]
      obtain ⟨g1, g2, g3⟩ := GetVideoFromQueue_audio_fields load w
      rcases hr : GetVideoFromQueue load w with ⟨r, w1⟩
      rw [hr] at g1 g2 g3
      cases r with
      | none => exact ⟨g1, g2, g3⟩
      | some p =>
        simp only []
        obtain ⟨i1, i2, i3⟩ := ih { w1 with encVideoSkip := w1.encVideoSkip - 1 }
        exact ⟨i1.trans g1, i2.trans g2, i3.trans g3⟩
    · rw [if_neg hs]
      exact ⟨rfl, rfl, rfl⟩

theorem get_video_frame_audio_fields (load : Int → Bool) (w : MainWindow) :
    (get_video_frame load w).2.encAudioPad = w.encAudioPad ∧
    (get_video_frame load w).2.encAudioNextPts = w.encAudioNextPts ∧
    (get_video_frame load w).2.encS16Frame = w.encS16Frame := by
  unfold get_video_frame
  obtain ⟨g1, g2, g3⟩ := skipVideoFrames_audio_fields load w.encVideoSkip.toNat w
  rcases hr : skipVideoFrames load w.encVideoSkip.toNat w with ⟨b, w1⟩
  rw [hr] at g1 g2 g3
  cases b with
  | false => exact ⟨g1, g2, g3⟩
  | true =>
    simp only []
    obtain ⟨i1, i2, i3⟩ := GetVideoFromQueue_audio_fields load w1
    exact ⟨i1.trans g1, i2.trans g2, i3.trans g3⟩

theorem GetAudioFromQueue_audio_fields (load : Int → Bool) (w w1 : MainWindow)
    (r : AudioResult) (h : GetAudioFromQueue load w = some (r, w1)) :
    w1.encAudioPad = w.encAudioPad ∧
    (w1.encAudioNextPts = w.encAudioNextPts ∨
      w1.encAudioNextPts = w.encAudioNextPts + w.encS16Frame.nb_samples) ∧
    w1.encS16Frame.nb_samples = w.encS16Frame.nb_samples := by
  unfold GetAudioFromQueue at h
  rcases hr : enqueueForAudio load (audioLoopBound w) w with _ | ⟨b, w2⟩
  · rw [hr] at h; simp at h
  · rw [hr] at h
    obtain ⟨g1, g2, _, g4, _⟩ := enqueueForAudio_fields load _ w w2 b hr
    cases b with
    | false =>
      simp only [Option.some.injEq, Prod.mk.injEq] at h
      obtain ⟨_, rfl⟩ := h
      exact ⟨g2, Or.inl g1, by rw [g4]⟩
    | true =>
      simp only [] at h
      split at h
      · simp only [Option.some.injEq, Prod.mk.injEq] at h
        obtain ⟨_, rfl⟩ := h
        exact ⟨g2, Or.inl g1, by rw [g4]⟩
      · simp only [Option.some.injEq, Prod.mk.injEq] at h
        obtain ⟨_, rfl⟩ := h
        simp only [g1, g2, g4]
        exact ⟨trivial, Or.inr trivial, trivial⟩

/-- After `MuxMain` the audio pad is 0, and no call of the sequencer changes it; the
next `pts` starts at 0 in the constructor and only grows by the chunk size. -/
theorem runSequencer_audio_invariant (load : Int → Bool) (calls : List SequencerCall) :
    ∀ w : MainWindow,
      w.encAudioPad = 0 → 0 ≤ w.encAudioNextPts → 0 ≤ w.encS16Frame.nb_samples →
      (runSequencer load w calls).encAudioPad = 0 ∧
      0 ≤ (runSequencer load w calls).encAudioNextPts ∧
      0 ≤ (runSequencer load w calls).encS16Frame.nb_samples := by
  induction calls with
  | nil => intro w h1 h2 h3; exact ⟨h1, h2, h3⟩
  | cons c cs ih =>
    intro w h1 h2 h3
    unfold runSequencer
    rw [List.foldl_cons]
    apply ih
    all_goals cases c
    all_goals simp only [SequencerCall.apply]
    · rw [(EnqueueNextFrame_fields load w).2.1]; exact h1
    · rw [(GetVideoFromQueue_audio_fields load w).1]; exact h1
    · rw [(get_video_frame_audio_fields load w).1]; exact h1
    · rcases hr : GetAudioFromQueue load w with _ | ⟨r, w1⟩
      · exact h1
      · simp only []
        rw [(GetAudioFromQueue_audio_fields load w w1 r hr).1]; exact h1
    · rw [(EnqueueNextFrame_fields load w).1]; exact h2
    · rw [(GetVideoFromQueue_audio_fields load w).2.1]; exact h2
    · rw [(get_video_frame_audio_fields load w).2.1]; exact h2
    · rcases hr : GetAudioFromQueue load w with _ | ⟨r, w1⟩
      · exact h2
      · simp only []
        rcases (GetAudioFromQueue_audio_fields load w w1 r hr).2.1 with e | e
        · rw [e]; exact h2
        · rw [e]; omega
    · rw [(EnqueueNextFrame_fields load w).2.2.2.1]; exact h3
    · rw [(GetVideoFromQueue_audio_fields load w).2.2]; exact h3
    · rw [(get_video_frame_audio_fields load w).2.2]; exact h3
    · rcases hr : GetAudioFromQueue load w with _ | ⟨r, w1⟩
      · exact h3
      · simp only []
        rw [(GetAudioFromQueue_audio_fields load w w1 r hr).2.2]; exact h3

theorem MuxMain_audio_fields (w : MainWindow) (tmp : AVFrame) (s n d : Int) :
    (MuxMain w tmp s n d).encAudioPad = 0 ∧
    (MuxMain w tmp s n d).encAudioNextPts = w.encAudioNextPts ∧
    (MuxMain w tmp s n d).encS16Frame = tmp := by
  unfold MuxMain
  by_cases h : d > 0
  · simp [h]
  · simp [h]

/-- The samples of a chunk at the level of the function, for any sequencer state:
a chunk with `o < 0` is silence throughout and a chunk with `o >= 0` holds the
conversions of the assembled samples `o + i`; so a chunk that does not straddle
offset 0 has each requested sample as specified per sample. -/
theorem AudioChunk_sample_of_frame (S16 : ℚ → Int) (load : Int → Bool) (w w1 : MainWindow)
    (chunk : AudioChunk) (audio : Int → Int → ℚ)
    (h : GetAudioFromQueue load w = some (AudioResult.frame chunk, w1)) :
    (chunk.offset < 0 → ∀ i c : Int, chunk.sample S16 audio i c = 0) ∧
    (0 ≤ chunk.offset →
      ∀ i c : Int, chunk.sample S16 audio i c = S16 (audio c (chunk.offset + i))) ∧
    ((0 ≤ chunk.offset ∨ chunk.offset + chunk.nb_samples ≤ 0) →
      ∀ i c : Int, 0 ≤ i → i < chunk.nb_samples →
        chunk.sample S16 audio i c = specifiedSample S16 chunk.offset audio i c) := by
  obtain ⟨h1, _, h3, h4, _⟩ := GetAudioFromQueue_frame load w w1 chunk h
  rw [← h1] at h4
  refine ⟨?_, ?_, ?_⟩
  · intro ho i c
    unfold AudioChunk.sample
    rw [h4]
    simp [ho]
  · intro ho i c
    unfold AudioChunk.sample
    rw [h4]
    simp [not_lt.2 ho]
  · intro hs i c hi0 hi1
    unfold AudioChunk.sample specifiedSample
    rw [h4]
    rcases hs with ho | ho
    · have : ¬ chunk.offset + i < 0 := by omega
      simp [not_lt.2 ho, this]
    · have h5 : chunk.offset < 0 := by omega
      have : chunk.offset + i < 0 := by omega
      simp [h5, this]

theorem GetAudioFromQueue_frame_channels (load : Int → Bool) (w w1 : MainWindow)
    (chunk : AudioChunk) (h : GetAudioFromQueue load w = some (AudioResult.frame chunk, w1)) :
    chunk.channels = 2 := by
  unfold GetAudioFromQueue at h
  rcases hr : enqueueForAudio load (audioLoopBound w) w with _ | ⟨b, w2⟩
  · rw [hr] at h; simp at h
  · rw [hr] at h
    cases b with
    | false => simp at h
    | true =>
      simp only [] at h
      split at h
      · simp at h
      · rename_i hc
        simp only [Option.some.injEq, Prod.mk.injEq, AudioResult.frame.injEq] at h
        obtain ⟨rfl, _⟩ := h
        simpa using hc

/-- C23: in an export set up by `MuxMain` (on a window whose next `pts` is not
negative, as the constructor leaves it, with a temporary audio frame of a
non-negative number of samples), after any sequence of sequencer calls, every chunk
returned by `GetAudioFromQueue` has two channels and, with first effective offset
`o = encAudioNextPts - encAudioPad`, each requested sample `i` of each channel is
silence (0) if `o + i < 0` and otherwise the 16-bit conversion of the assembled
sample `o + i` of that channel; the offset `o` is in fact never negative. -/
theorem GetAudioFromQueue_samples_in_export (S16 : ℚ → Int) (load : Int → Bool)
    (w0 : MainWindow) (tmp : AVFrame) (s n d : Int) (calls : List SequencerCall)
    (audio : Int → Int → ℚ) (chunk : AudioChunk) (w1 : MainWindow)
    (h0 : 0 ≤ w0.encAudioNextPts) (hnb : 0 ≤ tmp.nb_samples)
    (h : GetAudioFromQueue load (runSequencer load (MuxMain w0 tmp s n d) calls) =
      some (AudioResult.frame chunk, w1)) :
    chunk.channels = 2 ∧
    chunk.nb_samples =
      (runSequencer load (MuxMain w0 tmp s n d) calls).encS16Frame.nb_samples ∧
    chunk.offset =
      (runSequencer load (MuxMain w0 tmp s n d) calls).encAudioNextPts -
        (runSequencer load (MuxMain w0 tmp s n d) calls).encAudioPad ∧
    0 ≤ chunk.offset ∧
    ∀ i c : Int, 0 ≤ i → i < chunk.nb_samples → (c = 0 ∨ c = 1) →
      chunk.sample S16 audio i c =
        (if chunk.offset + i < 0 then 0 else S16 (audio c (chunk.offset + i))) := by
  obtain ⟨m1, m2, m3⟩ := MuxMain_audio_fields w0 tmp s n d
  obtain ⟨i1, i2, i3⟩ := runSequencer_audio_invariant load calls (MuxMain w0 tmp s n d) m1
    (by rw [m2]; exact h0) (by rw [m3]; exact hnb)
  obtain ⟨g1, _, g3, _⟩ := GetAudioFromQueue_frame load _ w1 chunk h
  have ho : 0 ≤ chunk.offset := by rw [g1, i1]; omega
  refine ⟨GetAudioFromQueue_frame_channels load _ w1 chunk h, g3, g1, ho, ?_⟩
  · intro i c hi0 hi1 _
    have := (AudioChunk_sample_of_frame S16 load _ w1 chunk audio h).2.2 (Or.inl ho) i c hi0 hi1
    rw [this]
    rfl

/-- Instance of C23: the second chunk of an export of 10 frames without offset,
fetched after one video frame and one audio chunk; it starts at the assembled
sample 1024. -/
theorem GetAudioFromQueue_samples_in_export_witness :
    (0 ≤ freshMainWindow.encAudioNextPts ∧ 0 ≤ stereoFrame1024.nb_samples ∧
      GetAudioFromQueue loadAlways
          (runSequencer loadAlways (MuxMain freshMainWindow stereoFrame1024 0 10 0)
            [SequencerCall.GetVideoFromQueue, SequencerCall.GetAudioFromQueue]) =
        some (AudioResult.frame secondChunk, exportAfterSecondChunk)) ∧
    ((0 : Int) ≤ 5 ∧ 5 < secondChunk.nb_samples) ∧
    secondChunk.offset = 1024 ∧
    secondChunk.sample exactS16 constantAudio 5 1 =
      (if secondChunk.offset + 5 < 0 then 0
        else exactS16 (constantAudio 1 (secondChunk.offset + 5))) :=
  ⟨⟨by decide, by decide, by decide⟩, ⟨by decide, by decide⟩, rfl,
    (GetAudioFromQueue_samples_in_export exactS16 loadAlways freshMainWindow stereoFrame1024
      0 10 0 [SequencerCall.GetVideoFromQueue, SequencerCall.GetAudioFromQueue] constantAudio
      secondChunk exportAfterSecondChunk (by decide) (by decide) (by decide)).2.2.2.2 5 1
      (by decide) (by decide) (Or.inr rfl)⟩

/-! ## The positions written by the search passes -/

/-- A record written by `GetBestMatchFromFloatArray` for a window within the clamps
has its position inside the window, and a record that differs from the one before
the call has been written. -/
theorem windowWrites_postion (samplesperframe : Int) (fullarray : Int → ℚ) (win : Int × Int)
    (old : overlap_match) (h1 : 4 ≤ win.1) (h2 : win.1 < win.2 → win.2 ≤ 1998) :
    (windowWrites samplesperframe fullarray win = true →
      win.1 <
        (GetBestMatchFromFloatArray (fun k => fullarray (samplesperframe - win.2 + k))
          (win.2 - win.1) win.2 old).postion ∧
      (GetBestMatchFromFloatArray (fun k => fullarray (samplesperframe - win.2 + k))
          (win.2 - win.1) win.2 old).postion ≤ win.2 ∧
      5 ≤ (GetBestMatchFromFloatArray (fun k => fullarray (samplesperframe - win.2 + k))
          (win.2 - win.1) win.2 old).postion ∧
      (GetBestMatchFromFloatArray (fun k => fullarray (samplesperframe - win.2 + k))
          (win.2 - win.1) win.2 old).postion ≤ 1998) ∧
    (GetBestMatchFromFloatArray (fun k => fullarray (samplesperframe - win.2 + k))
        (win.2 - win.1) win.2 old ≠ old →
      windowWrites samplesperframe fullarray win = true) := by
  obtain ⟨k0, kn, _, _, hval⟩ :=
    bestMatch_fold_invariant (fun k => fullarray (samplesperframe - win.2 + k)) win.2 old
      (win.2 - win.1 - 1).toNat
  have hk := bestMatchReads_fst (fun k => fullarray (samplesperframe - win.2 + k)) win.2 old
    (win.2 - win.1 - 1).toNat
  rw [GetBestMatchFromFloatArray_eq_scan]
  unfold windowWrites
  rw [decide_eq_true_iff, hk]
  constructor
  · intro hw
    rw [hval, if_neg hw]
    simp only []
    have hlt : win.1 < win.2 := by omega
    have := h2 hlt
    refine ⟨by omega, by omega, by omega, by omega⟩
  · intro hne hz
    apply hne
    rw [hval, if_pos hz]

/-- C12, as amended: every result written by a search pass has its position within
the clamped bounds of that pass, `s_start < position <= s_end`, and hence within
`[5, 1998]`: the position is a sample index inside the frame, not an offset relative
to the pitch line. This holds for every comparison buffer and every window, and
likewise for the initial search over `[start, end]`; a pass result that differs from
the record before the pass has been written by the pass. -/
theorem written_postion_within_window (samplesperframe : Int) (fullarray : Int → ℚ)
    (s_size s_mid : Int) (idx : Fin 5) (old : overlap_match) (inp : RenderInput) :
    (windowWrites samplesperframe fullarray (passWindow s_size s_mid ((idx.val : Int) + 1))
        = true →
      (passWindow s_size s_mid ((idx.val : Int) + 1)).1 <
          (passResult samplesperframe fullarray s_size s_mid idx old).postion ∧
        (passResult samplesperframe fullarray s_size s_mid idx old).postion ≤
          (passWindow s_size s_mid ((idx.val : Int) + 1)).2 ∧
        5 ≤ (passResult samplesperframe fullarray s_size s_mid idx old).postion ∧
        (passResult samplesperframe fullarray s_size s_mid idx old).postion ≤ 1998) ∧
    (passResult samplesperframe fullarray s_size s_mid idx old ≠ old →
      windowWrites samplesperframe fullarray (passWindow s_size s_mid ((idx.val : Int) + 1))
        = true) ∧
    (windowWrites samplesperframe fullarray (searchWindow inp) = true →
      (searchWindow inp).1 <
          (GetBestMatchFromFloatArray
            (fun k => fullarray (samplesperframe - (searchWindow inp).2 + k))
            ((searchWindow inp).2 - (searchWindow inp).1) (searchWindow inp).2 old).postion ∧
        (GetBestMatchFromFloatArray
            (fun k => fullarray (samplesperframe - (searchWindow inp).2 + k))
            ((searchWindow inp).2 - (searchWindow inp).1) (searchWindow inp).2 old).postion ≤
          (searchWindow inp).2 ∧
        5 ≤ (GetBestMatchFromFloatArray
            (fun k => fullarray (samplesperframe - (searchWindow inp).2 + k))
            ((searchWindow inp).2 - (searchWindow inp).1) (searchWindow inp).2 old).postion ∧
        (GetBestMatchFromFloatArray
            (fun k => fullarray (samplesperframe - (searchWindow inp).2 + k))
            ((searchWindow inp).2 - (searchWindow inp).1) (searchWindow inp).2 old).postion
          ≤ 1998) := by
  have hb := passWindow_bounds s_size s_mid ((idx.val : Int) + 1)
  have hs := searchWindow_bounds inp
  have hp := windowWrites_postion samplesperframe fullarray
    (passWindow s_size s_mid ((idx.val : Int) + 1)) old hb.1 (fun _ => hb.2)
  exact ⟨hp.1, hp.2,
    (windowWrites_postion samplesperframe fullarray (searchWindow inp) old hs.1 hs.2.2).1⟩

set_option maxRecDepth 20000 in
/-- Instance of the amended C12: pass 1 of the search window `[1000, 1012]` on the
first sample buffer writes the position 1005, within its window `[1002, 1010]`. -/
theorem written_postion_within_window_witness :
    (windowWrites 2000 sampleCompareBuffer (passWindow 12 1006 (((0 : Fin 5).val : Int) + 1))
        = true ∧
      passResult 2000 sampleCompareBuffer 12 1006 0 staleMatch ≠ staleMatch) ∧
    passWindow 12 1006 (((0 : Fin 5).val : Int) + 1) = (1002, 1010) ∧
    (passResult 2000 sampleCompareBuffer 12 1006 0 staleMatch).postion = 1005 ∧
    ((passWindow 12 1006 (((0 : Fin 5).val : Int) + 1)).1 <
        (passResult 2000 sampleCompareBuffer 12 1006 0 staleMatch).postion ∧
      (passResult 2000 sampleCompareBuffer 12 1006 0 staleMatch).postion ≤
        (passWindow 12 1006 (((0 : Fin 5).val : Int) + 1)).2 ∧
      5 ≤ (passResult 2000 sampleCompareBuffer 12 1006 0 staleMatch).postion ∧
      (passResult 2000 sampleCompareBuffer 12 1006 0 staleMatch).postion ≤ 1998) :=
  ⟨⟨by decide, by decide⟩, by decide, by decide,
    (written_postion_within_window 2000 sampleCompareBuffer 12 1006 0 staleMatch
      sampleRenderInput).1 (by decide)⟩

/-! ## Decode failures: the exception of the frame reader -/

theorem throwing_EnqueueNextFrame_exhausted (load : Int → LoadResult) (w : MainWindow)
    (h : w.encCurFrame > w.encNumFrames) :
    Throwing.EnqueueNextFrame load w = CallEnd.returned (false, w) := by
  unfold Throwing.EnqueueNextFrame
  rw [if_pos h]

theorem throwing_EnqueueNextFrame_of_load (load : Int → LoadResult) (w : MainWindow)
    (h : ¬ w.encCurFrame > w.encNumFrames) :
    Throwing.EnqueueNextFrame load w =
      match load (frameToLoad w) with
      | LoadResult.throwsException => CallEnd.thrown w
      | LoadResult.returnsFalse => CallEnd.returned (false, w)
      | LoadResult.returnsTrue =>
        CallEnd.returned
          (true,
            { w with encVideoQueue := w.encVideoQueue ++ [VideoImage.scanned (frameToLoad w)],
                     encAudioLen := w.encAudioLen + w.samplesperframe_file,
                     encCurFrame := w.encCurFrame + 1 }) := by
  unfold Throwing.EnqueueNextFrame frameToLoad
  rw [if_neg h]

/-- Where the loader does not throw, `EnqueueNextFrame` with the three-valued loader
returns what the embedding with the boolean loader returns. -/
theorem throwing_EnqueueNextFrame_refines (load : Int → LoadResult) (w : MainWindow)
    (h : load (frameToLoad w) ≠ LoadResult.throwsException) :
    Throwing.EnqueueNextFrame load w =
      CallEnd.returned (VirtualFilmBench.EnqueueNextFrame (fun f => (load f).toBool) w) := by
  by_cases hc : w.encCurFrame > w.encNumFrames
  · rw [throwing_EnqueueNextFrame_exhausted load w hc, EnqueueNextFrame_exhausted _ w hc]
  · rw [throwing_EnqueueNextFrame_of_load load w hc]
    cases hl : load (frameToLoad w) with
    | throwsException => exact absurd hl h
    | returnsFalse =>
      simp only []
      rw [EnqueueNextFrame_load_failed _ w hc (by simp [hl, LoadResult.toBool])]
    | returnsTrue =>
      simp only []
      rw [EnqueueNextFrame_loaded _ w hc (by simp [hl, LoadResult.toBool])]

theorem throwing_GetVideoFromQueue_refines (load : Int → LoadResult) (w : MainWindow)
    (h : ∀ f, load f ≠ LoadResult.throwsException) :
    Throwing.GetVideoFromQueue load w =
      CallEnd.returned (VirtualFilmBench.GetVideoFromQueue (fun f => (load f).toBool) w) := by
  unfold Throwing.GetVideoFromQueue VirtualFilmBench.GetVideoFromQueue
  cases hq : w.encVideoQueue.isEmpty with
  | true =>
    simp only [if_true]
    rw [throwing_EnqueueNextFrame_refines load w (h _)]
    rcases VirtualFilmBench.EnqueueNextFrame (fun f => (load f).toBool) w with ⟨b, w1⟩
    cases b with
    | false => rfl
    | true =>
      simp only [Bool.not_true, Bool.false_eq_true, if_false, Throwing.popVideoQueue]
  | false =>
    simp only [Bool.false_eq_true, if_false, Bool.not_true, Throwing.popVideoQueue]

theorem throwing_skipVideoFrames_refines (load : Int → LoadResult)
    (h : ∀ f, load f ≠ LoadResult.throwsException) :
    ∀ (n : Nat) (w : MainWindow),
      Throwing.skipVideoFrames load n w =
        CallEnd.returned (VirtualFilmBench.skipVideoFrames (fun f => (load f).toBool) n w) := by
  intro n
  induction n with
  | zero => intro w; rfl
  | succ n ih =>
    intro w
    unfold Throwing.skipVideoFrames VirtualFilmBench.skipVideoFrames
    by_cases hs : w.encVideoSkip > 0
    · rw [if_pos hs, if_pos hs, throwing_GetVideoFromQueue_refines load w h]
      rcases VirtualFilmBench.GetVideoFromQueue (fun f => (load f).toBool) w with ⟨r, w1⟩
      cases r with
      | none => rfl
      | some p => exact ih _
    · rw [if_neg hs, if_neg hs]

theorem throwing_get_video_frame_refines (load : Int → LoadResult) (w : MainWindow)
    (h : ∀ f, load f ≠ LoadResult.throwsException) :
    Throwing.get_video_frame load w =
      CallEnd.returned (VirtualFilmBench.get_video_frame (fun f => (load f).toBool) w) := by
  unfold Throwing.get_video_frame VirtualFilmBench.get_video_frame
  rw [throwing_skipVideoFrames_refines load h]
  rcases VirtualFilmBench.skipVideoFrames (fun f => (load f).toBool) w.encVideoSkip.toNat w
    with ⟨b, w1⟩
  cases b with
  | false => rfl
  | true => exact throwing_GetVideoFromQueue_refines load w1 h

theorem throwing_enqueueForAudio_refines (load : Int → LoadResult)
    (h : ∀ f, load f ≠ LoadResult.throwsException) :
    ∀ (n : Nat) (w : MainWindow),
      Throwing.enqueueForAudio load n w =
        (VirtualFilmBench.enqueueForAudio (fun f => (load f).toBool) n w).map
          CallEnd.returned := by
  intro n
  induction n with
  | zero =>
    intro w
    unfold Throwing.enqueueForAudio VirtualFilmBench.enqueueForAudio
    split <;> rfl
  | succ n ih =>
    intro w
    unfold Throwing.enqueueForAudio VirtualFilmBench.enqueueForAudio
    by_cases hg : w.encS16Frame.pts + w.encS16Frame.nb_samples > w.encAudioLen
    · rw [if_pos hg, if_pos hg, throwing_EnqueueNextFrame_refines load w (h _)]
      rcases VirtualFilmBench.EnqueueNextFrame (fun f => (load f).toBool) w with ⟨b, w1⟩
      cases b with
      | false => rfl
      | true => exact ih w1
    · rw [if_neg hg, if_neg hg]
      rfl

theorem throwing_GetAudioFromQueue_refines (load : Int → LoadResult) (w : MainWindow)
    (h : ∀ f, load f ≠ LoadResult.throwsException) :
    Throwing.GetAudioFromQueue load w =
      (VirtualFilmBench.GetAudioFromQueue (fun f => (load f).toBool) w).map
        CallEnd.returned := by
  unfold Throwing.GetAudioFromQueue VirtualFilmBench.GetAudioFromQueue
  rw [throwing_enqueueForAudio_refines load h]
  rcases VirtualFilmBench.enqueueForAudio (fun f => (load f).toBool) (audioLoopBound w) w
    with _ | ⟨b, w1⟩
  · rfl
  · cases b with
    | false => rfl
    | true =>
      simp only [Option.map_some']
      split <;> rfl

theorem throwing_EnqueueNextFrame_true (load : Int → LoadResult) (w w1 : MainWindow)
    (h : Throwing.EnqueueNextFrame load w = CallEnd.returned (true, w1)) :
    w.encCurFrame ≤ w.encNumFrames ∧ w1.encCurFrame = w.encCurFrame + 1 ∧
    w1.encNumFrames = w.encNumFrames := by
  by_cases hc : w.encCurFrame > w.encNumFrames
  · rw [throwing_EnqueueNextFrame_exhausted load w hc] at h
    simp at h
  · rw [throwing_EnqueueNextFrame_of_load load w hc] at h
    cases hl : load (frameToLoad w) with
    | throwsException => rw [hl] at h; simp at h
    | returnsFalse => rw [hl] at h; simp at h
    | returnsTrue =>
      rw [hl] at h
      simp only [CallEnd.returned.injEq, Prod.mk.injEq, true_and] at h
      subst h
      exact ⟨not_lt.1 hc, rfl, rfl⟩

/-- The loop of `GetAudioFromQueue` ends within `audioLoopBound` rounds, also with a
loader that may throw. -/
theorem throwing_enqueueForAudio_isSome (load : Int → LoadResult) :
    ∀ (n : Nat) (w : MainWindow), (w.encNumFrames + 1 - w.encCurFrame).toNat < n →
      (Throwing.enqueueForAudio load n w).isSome = true := by
  intro n
  induction n with
  | zero => intro w h; omega
  | succ n ih =>
    intro w h
    unfold Throwing.enqueueForAudio
    split
    · rcases hr : Throwing.EnqueueNextFrame load w with ⟨b, w1⟩ | w1
      · cases b with
        | false => rfl
        | true =>
          obtain ⟨g1, g2, g3⟩ := throwing_EnqueueNextFrame_true load w w1 hr
          simp only []
          apply ih
          rw [g2, g3]
          omega
      · rfl
    · rfl

theorem throwing_GetAudioFromQueue_isSome (load : Int → LoadResult) (w : MainWindow) :
    (Throwing.GetAudioFromQueue load w).isSome = true := by
  unfold Throwing.GetAudioFromQueue
  have h := throwing_enqueueForAudio_isSome load (audioLoopBound w) w
    (by unfold audioLoopBound; omega)
  rcases hr : Throwing.enqueueForAudio load (audioLoopBound w) w with _ | ⟨⟨b, w1⟩ | w1⟩
  · rw [hr] at h; simp at h
  · cases b with
    | false => rfl
    | true =>
      simp only []
      split <;> rfl
  · rfl

/-- A round of the loop of `GetAudioFromQueue` that enqueues a frame leaves the call
to end as it ends from the state after that round: an exception met in a later
round passes through the call as well. -/
theorem throwing_GetAudioFromQueue_step (load : Int → LoadResult) (w w1 : MainWindow)
    (hneed : w.encS16Frame.pts + w.encS16Frame.nb_samples > w.encAudioLen)
    (h : Throwing.EnqueueNextFrame load w = CallEnd.returned (true, w1)) :
    Throwing.GetAudioFromQueue load w = Throwing.GetAudioFromQueue load w1 := by
  obtain ⟨g1, g2, g3⟩ := throwing_EnqueueNextFrame_true load w w1 h
  have hb : audioLoopBound w = audioLoopBound w1 + 1 := by
    unfold audioLoopBound
    rw [g2, g3]
    omega
  unfold Throwing.GetAudioFromQueue
  rw [hb]
  have : Throwing.enqueueForAudio load (audioLoopBound w1 + 1) w =
      Throwing.enqueueForAudio load (audioLoopBound w1) w1 := by
    rw [Throwing.enqueueForAudio, if_pos hneed, h]
  rw [this]

end VirtualFilmBench
